import Mathlib

/-!
# Telemetry statistics (`calcstats.go`): interval-crossing analyser, stat aggregator and
lap-sector analyser

A shallow embedding of `getTimeBetween`, `calculate`, `calcstats` and `calcRaceStats` from
`src/calcstats.go`.

Modelling conventions
* Go `float64` values are idealised as exact rationals (`ℚ`): the properties below are
  about comparisons, sums, differences and maxima of the samples, not about rounding.
  `NaN` and infinities are outside the model.
* A Go slice is a `List`; reading past its end is the run-time panic
  `index out of range`, modelled by `Outcome.panic`.
* `check(err)` (which calls `log.Fatalln`) is modelled by `Outcome.fatal`.
* The standard-library routines `strconv.ParseFloat`, `strconv.ParseInt` and
  `strconv.FormatFloat` are not part of the repository; `calculate` and `calcRaceStats` take
  them as a parameter (`Strconv`).
* `readLog` (file input) is outside the model: `calcstats` and `calcRaceStats` start from the
  rows it returns.
-/

namespace ForzaStats

/-! ## Results of a call -/

/-- The three error values built by `getTimeBetween` with `errors.New`. -/
inductive GtbError where
  | lengthMismatch
  | outOfRange
  | negativeDuration
  deriving DecidableEq, Repr

/-- How a call ends: it returns a value, panics (index out of range), or terminates the
process through `check` / `log.Fatalln`. -/
inductive Outcome (α : Type) where
  | ret (v : α)
  | panic
  | fatal
  deriving DecidableEq, Repr

/-- Sequencing of calls: a panic or a fatal exit ends the whole computation. -/
def Outcome.bind {α β : Type} (x : Outcome α) (f : α → Outcome β) : Outcome β :=
  match x with
  | .ret v => f v
  | .panic => .panic
  | .fatal => .fatal

instance : Monad Outcome where
  pure := Outcome.ret
  bind := Outcome.bind

/-- Reading `xs[i]`: a run-time panic when `i` is not a valid index. -/
def index {α : Type} (xs : List α) (i : ℕ) : Outcome α :=
  match xs[i]? with
  | some v => .ret v
  | none => .panic

/-- A parse followed by `check(err)`: a parse error terminates the process. -/
def checked {α : Type} (parsed : Option α) : Outcome α :=
  match parsed with
  | some v => .ret v
  | none => .fatal

/-! ## `getTimeBetween` (calcstats.go, lines 476-525) -/

/-- The call `sort.Float64s(xs)`: sorts in increasing order. -/
def sortFloat64s (xs : List ℚ) : List ℚ :=
  xs.insertionSort (fun a b => a ≤ b)

/-- The condition of the range check (line 493), in the source's order. -/
def outsideRange (startSpeed endSpeed minSpeed maxSpeed : ℚ) : Prop :=
  startSpeed > maxSpeed + 0.1 ∨ endSpeed > maxSpeed + 0.1 ∨
    (minSpeed > 0.1 ∧ startSpeed < minSpeed) ∨ (minSpeed > 0.1 ∧ endSpeed < minSpeed)

instance (a b c d : ℚ) : Decidable (outsideRange a b c d) := by
  unfold outsideRange
  infer_instance

/-- The deceleration loop (lines 498-504), run over the samples in order; the state is
`(startTime, endTime)`. -/
def decelLoop (startSpeed endSpeed : ℚ) : List ℚ → List ℚ → ℚ × ℚ → ℚ × ℚ
  | t :: ts, v :: vs, (startTime, endTime) =>
      if v > startSpeed + 0.1 then decelLoop startSpeed endSpeed ts vs (t, endTime)
      else if v > endSpeed + 0.1 then decelLoop startSpeed endSpeed ts vs (startTime, t)
      else decelLoop startSpeed endSpeed ts vs (startTime, endTime)
  | _, _, acc => acc

/-- One acceleration loop (lines 509-513, and again 514-518):
`for speedValues[i] < threshold { time = timeValues[i]; i++ }`.
The arguments are the samples from index `i` on and the time recorded so far; `none` is the
index-out-of-range panic raised when `i` reaches the end of the series. -/
def accelLoop (threshold : ℚ) : List ℚ → List ℚ → ℚ → Option ℚ
  | t :: ts, v :: vs, time =>
      if v < threshold then accelLoop threshold ts vs t else some time
  | _, _, _ => none

/-- Lines 497-519: the computed `(startTime, endTime)`, both initially `0`; `none` when an
acceleration loop runs off the end of the series. -/
def scanTimes (startSpeed endSpeed : ℚ) (timeValues speedValues : List ℚ) : Option (ℚ × ℚ) :=
  if startSpeed > endSpeed then
    some (decelLoop startSpeed endSpeed timeValues speedValues (0, 0))
  else
    match accelLoop (startSpeed + 0.1) timeValues speedValues 0 with
    | none => none
    | some startTime =>
      match accelLoop (endSpeed + 0.1) timeValues speedValues 0 with
      | none => none
      | some endTime => some (startTime, endTime)

/-- The function `getTimeBetween`: the returned pair is `(value, error)`, with `none` for a `nil` error. -/
def getTimeBetween (startSpeed endSpeed : ℚ) (timeValues speedValues : List ℚ) :
    Outcome (ℚ × Option GtbError) :=
  if timeValues.length ≠ speedValues.length then
    .ret (0, some .lengthMismatch)
  else
    let speeds := sortFloat64s speedValues
    match speeds.head?, speeds.getLast? with
    | some minSpeed, some maxSpeed =>
      if outsideRange startSpeed endSpeed minSpeed maxSpeed then
        .ret (0, some .outOfRange)
      else
        match scanTimes startSpeed endSpeed timeValues speedValues with
        | none => .panic
        | some (startTime, endTime) =>
          if startTime > endTime then .ret (0, some .negativeDuration)
          else .ret (endTime - startTime, none)
    | _, _ => .panic

/-! ## `calculate` (calcstats.go, lines 240-471) -/

/-- The routines of Go's `strconv` that `calculate` calls. They belong to the standard
library, not to the repository, and are taken as a parameter. -/
structure Strconv where
  /-- The call `strconv.ParseFloat(s, 32)`; `none` when it returns an error. -/
  parseFloat : String → Option ℚ
  /-- The call `strconv.ParseInt(s, 10, 32)`; `none` when it returns an error. -/
  parseInt : String → Option ℤ
  /-- The call `strconv.FormatFloat(x, 'f', prec, 32)`. -/
  formatFloat : ℚ → ℕ → String

/-- The nine column positions resolved from the header (lines 242-250). -/
structure StatColumns where
  powerRow : ℕ
  torqueRow : ℕ
  speedRow : ℕ
  boostRow : ℕ
  classPIRow : ℕ
  driveTrainRow : ℕ
  timeRow : ℕ
  gearRow : ℕ
  classLetterRow : ℕ
  deriving DecidableEq, Repr

/-- The body of the header loop (lines 253-271) for header entry `v` at position `k`. -/
def resolveStep (c : StatColumns) (k : ℕ) (v : String) : StatColumns :=
  if v = "Speed" then { c with speedRow := k }
  else if v = "Boost" then { c with boostRow := k }
  else if v = "CarPerformanceIndex" then { c with classPIRow := k }
  else if v = "DrivetrainType" then { c with driveTrainRow := k }
  else if v = "Power" then { c with powerRow := k }
  else if v = "Torque" then { c with torqueRow := k }
  else if v = "TimestampMS" then { c with timeRow := k }
  else if v = "Gear" then { c with gearRow := k }
  else if v = "CarClass" then { c with classLetterRow := k }
  else c

/-- The header loop (lines 242-272): all positions start at `0`. -/
def resolveStatColumns (header : List String) : StatColumns :=
  header.enum.foldl (fun c kv => resolveStep c kv.1 kv.2) ⟨0, 0, 0, 0, 0, 0, 0, 0, 0⟩

/-- The six series filled by the row loop (lines 276-281). -/
structure Series where
  t : List ℚ
  s : List ℚ
  b : List ℚ
  p : List ℚ
  tq : List ℚ
  g : List ℚ
  deriving DecidableEq, Repr

/-- The body of the row loop (lines 290-318) for one data row, in the source's order: time,
power, torque, speed, boost, gear; each cell is read, parsed, checked, converted and
appended. -/
def extractRow (L : Strconv) (c : StatColumns) (row : List String) (acc : Series) :
    Outcome Series := do
  let time ← checked (L.parseFloat (← index row c.timeRow))
  let t := acc.t ++ [time / 1000]
  let power ← checked (L.parseFloat (← index row c.powerRow))
  let p := acc.p ++ [power * 0.0013410220888]
  let torque ← checked (L.parseFloat (← index row c.torqueRow))
  let tq := acc.tq ++ [torque * 0.7375621493]
  let speed ← checked (L.parseFloat (← index row c.speedRow))
  let s := acc.s ++ [speed * 2.237]
  let boost ← checked (L.parseFloat (← index row c.boostRow))
  let b := acc.b ++ [boost]
  let gear ← checked (L.parseFloat (← index row c.gearRow))
  let g := acc.g ++ [gear]
  pure { t := t, s := s, b := b, p := p, tq := tq, g := g }

/-- The row loop (lines 284-319) over the data rows (every row but the header). -/
def extractSeries (L : Strconv) (c : StatColumns) : List (List String) → Series → Outcome Series
  | [], acc => pure acc
  | row :: rest, acc => do
      let acc2 ← extractRow L c row acc
      extractSeries L c rest acc2

/-- The drivetrain label (lines 336-345). -/
def drivetrainLabel (drivetrainNum : ℤ) : String :=
  if drivetrainNum = 0 then "FWD"
  else if drivetrainNum = 1 then "RWD"
  else if drivetrainNum = 2 then "AWD"
  else ""

/-- The sum `gearTotal` (lines 353-356). -/
def gearTotal (g : List ℚ) : ℚ :=
  g.foldl (fun acc value => acc + value) 0

/-- The loop of lines 361-365 over the remaining `(i, value)` of `range p`: the powers of the
samples with `g[i] != 1` are appended. -/
def appendOtherGears (g : List ℚ) : List (ℕ × ℚ) → List ℚ → Outcome (List ℚ)
  | [], adjusted => pure adjusted
  | (i, value) :: rest, adjusted => do
      let gi ← index g i
      if gi ≠ 1 then appendOtherGears g rest (adjusted ++ [value])
      else appendOtherGears g rest adjusted

/-- The list `adjustedPowers` (lines 352-365): all powers when `gearTotal` equals the sample
count, followed by the powers of the samples whose gear is not `1`. -/
def adjustedPowers (g p : List ℚ) : Outcome (List ℚ) :=
  appendOtherGears g p.enum (if gearTotal g = (g.length : ℚ) then p else [])

/-- The idiom `sort.Float64s(xs); xs[len(xs)-1]`: the last element after sorting, a panic on
an empty series. -/
def sortedLast (xs : List ℚ) : Outcome ℚ :=
  match (sortFloat64s xs).getLast? with
  | some v => .ret v
  | none => .panic

/-- One interval slot (for instance lines 376-381): the duration formatted to 3 decimals,
or `"Failed!"` when `getTimeBetween` returns an error. -/
def intervalCell (L : Strconv) (startSpeed endSpeed : ℚ) (t s : List ℚ) : Outcome String :=
  match getTimeBetween startSpeed endSpeed t s with
  | .ret (_, some _) => .ret "Failed!"
  | .ret (v, none) => .ret (L.formatFloat v 3)
  | .panic => .panic
  | .fatal => .fatal

/-- The function `calculate`: returns the rows it was given and the output vector. The sum `totalSpeed`
(lines 321-324) is never read and is left out. -/
def calculate (L : Strconv) (rows : List (List String)) :
    Outcome (List (List String) × List String) := do
  let header ← index rows 0
  let c := resolveStatColumns header
  let output : List String := []
  let carClass ← index (← index rows 1) c.classLetterRow
  let series ← extractSeries L c (rows.drop 1) ⟨[], [], [], [], [], []⟩
  let pINum ← index (← index rows 1) c.classPIRow
  let output := output ++ [pINum]
  let drivetrainNum ← checked (L.parseInt (← index (← index rows 1) c.driveTrainRow))
  let output := output ++ [drivetrainLabel drivetrainNum]
  let topPower ← sortedLast (← adjustedPowers series.g series.p)
  let output := output ++ [L.formatFloat topPower 0]
  let topTorque ← sortedLast series.tq
  let output := output ++ [L.formatFloat topTorque 0]
  let zeroTo60 ← intervalCell L 0 60 series.t series.s
  let output := output ++ [zeroTo60]
  let zeroTo100 ← intervalCell L 0 100 series.t series.s
  let output := output ++ [zeroTo100]
  let output ←
    if carClass = "0" ∨ carClass = "1" then do
      let twentyfiveTo75 ← intervalCell L 25 75 series.t series.s
      let output := output ++ [twentyfiveTo75]
      let fiftyTo100 ← intervalCell L 50 100 series.t series.s
      pure (output ++ [fiftyTo100])
    else if carClass = "2" ∨ carClass = "3" then do
      let fiftyTo100 ← intervalCell L 50 100 series.t series.s
      let output := output ++ [fiftyTo100]
      let sixtyTo150 ← intervalCell L 60 150 series.t series.s
      pure (output ++ [sixtyTo150])
    else do
      let sixtyTo150 ← intervalCell L 60 150 series.t series.s
      let output := output ++ [sixtyTo150]
      let hundredTo200 ← intervalCell L 100 200 series.t series.s
      pure (output ++ [hundredTo200])
  let sixtytoZero ← intervalCell L 60 0 series.t series.s
  let output := output ++ [sixtytoZero]
  let hundredToZero ← intervalCell L 100 0 series.t series.s
  let output := output ++ [hundredToZero]
  let topSpeed ← sortedLast series.s
  let output := output ++ [L.formatFloat topSpeed 2]
  let topBoost ← sortedLast series.b
  let output := output ++ [L.formatFloat topBoost 1]
  pure (rows, output)

/-- The function `calcstats` (lines 14-23), applied to the rows that `readLog` returns; the
output stays `nil` when the log has at most one row. -/
def calcstats (L : Strconv) (rows : List (List String)) : Outcome (List String) :=
  if rows.length > 1 then do
    let result ← calculate L rows
    pure result.2
  else pure []

/-! ## `calcRaceStats` (calcstats.go, lines 74-237) -/

/-- The five column positions resolved from the header (lines 82-86). -/
structure RaceColumns where
  bestLapRow : ℕ
  currentLapRow : ℕ
  distanceRow : ℕ
  lapNumRow : ℕ
  speedRow : ℕ
  deriving DecidableEq, Repr

/-- The body of the header loop (lines 89-99) for header entry `v` at position `k`. -/
def resolveRaceStep (c : RaceColumns) (k : ℕ) (v : String) : RaceColumns :=
  if v = "BestLap" then { c with bestLapRow := k }
  else if v = "CurrentLap" then { c with currentLapRow := k }
  else if v = "DistanceTraveled" then { c with distanceRow := k }
  else if v = "LapNumber" then { c with lapNumRow := k }
  else if v = "Speed" then { c with speedRow := k }
  else c

/-- The header loop (lines 82-100): all positions start at `0`. -/
def resolveRaceColumns (header : List String) : RaceColumns :=
  header.enum.foldl (fun c kv => resolveRaceStep c kv.1 kv.2) ⟨0, 0, 0, 0, 0⟩

/-- The five series filled by the row loop (lines 102-106). -/
structure RaceSeries where
  t : List ℚ
  d : List ℚ
  l : List ℚ
  s : List ℚ
  bl : List ℚ
  deriving DecidableEq, Repr

/-- The body of the row loop (lines 113-136) for one data row, in the source's order: lap
time, distance, lap number, speed, best lap. -/
def extractRaceRow (L : Strconv) (c : RaceColumns) (row : List String) (acc : RaceSeries) :
    Outcome RaceSeries := do
  let time ← checked (L.parseFloat (← index row c.currentLapRow))
  let t := acc.t ++ [time]
  let dist ← checked (L.parseFloat (← index row c.distanceRow))
  let d := acc.d ++ [dist]
  let lap ← checked (L.parseFloat (← index row c.lapNumRow))
  let l := acc.l ++ [lap]
  let speed ← checked (L.parseFloat (← index row c.speedRow))
  let s := acc.s ++ [speed * 2.237]
  let best ← checked (L.parseFloat (← index row c.bestLapRow))
  let bl := acc.bl ++ [best]
  pure { t := t, d := d, l := l, s := s, bl := bl }

/-- The row loop (lines 108-137) over the data rows (every row but the header). -/
def extractRaceSeries (L : Strconv) (c : RaceColumns) :
    List (List String) → RaceSeries → Outcome RaceSeries
  | [], acc => pure acc
  | row :: rest, acc => do
      let acc2 ← extractRaceRow L c row acc
      extractRaceSeries L c rest acc2

/-- Reading `xs[len(xs)-1]`: a run-time panic on an empty series. -/
def lastOf (xs : List ℚ) : Outcome ℚ :=
  match xs.getLast? with
  | some v => .ret v
  | none => .panic

/-- The best lap time (lines 140-146): the last `BestLap` value, replaced by the last lap
time plus `0.0125` when the log ends past the finish line with a faster lap. -/
def bestLapTime (series : RaceSeries) : Outcome ℚ := do
  let bestLap ← lastOf series.bl
  let dLast ← lastOf series.d
  let lLast ← lastOf series.l
  if dLast - 5951 * lLast > 5951 then do
    let tLast ← lastOf series.t
    if tLast + 0.0125 < bestLap then pure (tLast + 0.0125) else pure bestLap
  else pure bestLap

/-- The call `math.Floor(x)`. -/
def goFloor (x : ℚ) : ℚ := (⌊x⌋ : ℚ)

/-- The call `math.Mod(x, y)`: the remainder of `x / y` truncated toward zero, with the sign
of `x`. -/
def goMod (x y : ℚ) : ℚ :=
  x - y * (if 0 ≤ x / y then (⌊x / y⌋ : ℚ) else (⌈x / y⌉ : ℚ))

/-- The best-lap string (lines 148-156). -/
def bestLapString (L : Strconv) (bestLap : ℚ) : String :=
  let min := L.formatFloat (goFloor (bestLap / 60)) 0
  let min := if min.utf8ByteSize = 1 then "0" ++ min else min
  let sec := L.formatFloat (goMod bestLap 60) 3
  let sec := if sec.utf8ByteSize = 1 then "0" ++ sec else sec
  min ++ ":" ++ sec

/-- One sector string (lines 205-210, repeated for the four sectors). -/
def sectorString (L : Strconv) (sTime : ℚ) : String :=
  let minutes := L.formatFloat (goFloor (sTime / 60)) 0
  let seconds := L.formatFloat (goMod sTime 60) 3
  let seconds := if goMod sTime 60 < 1 then "0" ++ seconds else seconds
  "00:" ++ minutes ++ ":" ++ seconds

/-- The variables of the sector computation (lines 164-176). -/
structure SectorState where
  s1Time : ℚ
  s2Time : ℚ
  s3Time : ℚ
  s4Time : ℚ
  s1TimeTmp : ℚ
  s2TimeTmp : ℚ
  s3TimeTmp : ℚ
  s4TimeTmp : ℚ
  s1End : ℚ
  s2End : ℚ
  s3End : ℚ
  dist : ℚ
  endLapDist : ℚ
  deriving DecidableEq, Repr

/-- The initial values (lines 164-176): all `0.0`. -/
def sectorInit : SectorState := ⟨0, 0, 0, 0, 0, 0, 0, 0, 0, 0, 0, 0, 0⟩

/-- The body of the sector loop (lines 179-201) for the sample `val = d[i]`. -/
def sectorStep (l t : List ℚ) (bestLap : ℚ) (st : SectorState) (i : ℕ) (val : ℚ) :
    Outcome SectorState := do
  let newLap ←
    if i = 0 then pure true
    else do
      let li ← index l i
      let lprev ← index l (i - 1)
      pure (decide (li ≠ lprev))
  let st := if newLap then { st with endLapDist := val } else st
  let st := { st with dist := val - st.endLapDist }
  if st.dist > 1878 ∧ st.dist < 1879 then do
    let ti ← index t i
    pure { st with s1End := ti, s1TimeTmp := ti }
  else if st.dist > 3184 ∧ st.dist < 3185 then do
    let ti ← index t i
    pure { st with s2End := ti, s2TimeTmp := ti - st.s1End }
  else if st.dist > 4311 ∧ st.dist < 4312 then do
    let ti ← index t i
    pure { st with s3End := ti, s3TimeTmp := ti - st.s2End }
  else do
    let lapEnd ←
      if i + 1 = l.length then pure true
      else do
        let li ← index l i
        let lnext ← index l (i + 1)
        pure (decide (li ≠ lnext))
    if lapEnd then do
      let ti ← index t i
      let st := { st with s4TimeTmp := (ti - st.s3End) + 0.0125 }
      if ti ≤ bestLap then
        pure { st with s1Time := st.s1TimeTmp, s2Time := st.s2TimeTmp,
                       s3Time := st.s3TimeTmp, s4Time := st.s4TimeTmp }
      else pure st
    else pure st

/-- The sector loop (lines 178-202) over the remaining `(i, val)` of `range d`. -/
def sectorLoop (l t : List ℚ) (bestLap : ℚ) : List (ℕ × ℚ) → SectorState → Outcome SectorState
  | [], st => pure st
  | (i, val) :: rest, st => do
      let st2 ← sectorStep l t bestLap st i val
      sectorLoop l t bestLap rest st2

/-- The function `calcRaceStats`, applied to the rows that `readLog` returns: the best-lap
string, the top-speed string and the four sector strings. -/
def calcRaceStats (L : Strconv) (rows : List (List String)) :
    Outcome (String × String × List String) :=
  if rows.length < 1 then .fatal
  else do
    let header ← index rows 0
    let c := resolveRaceColumns header
    let series ← extractRaceSeries L c (rows.drop 1) ⟨[], [], [], [], []⟩
    let bestLap ← bestLapTime series
    let bestLapStr := bestLapString L bestLap
    let topSpeed ← sortedLast series.s
    let topSpeedStr := L.formatFloat topSpeed 2
    let st ← sectorLoop series.l series.t bestLap series.d.enum sectorInit
    pure (bestLapStr, topSpeedStr,
      [sectorString L st.s1Time, sectorString L st.s2Time, sectorString L st.s3Time,
       sectorString L st.s4Time])

/-! ## A decimal `strconv`, to run `calculate` on concrete logs

A stand-in for the three library routines on plain decimal numerals (`12`, `-3`, `26.8125`),
with no rounding to `float32`. -/

/-- The value of a non-empty string of decimal digits. -/
def parseDigits (cs : List Char) : Option ℕ :=
  if cs = [] then none
  else cs.foldl (fun acc ch =>
    match acc with
    | some n => if ch.isDigit then some (10 * n + (ch.toNat - 48)) else none
    | none => none) (some 0)

/-- The value of an unsigned numeral `digits` or `digits.digits`. -/
def parseUnsigned (cs : List Char) : Option ℚ :=
  let whole := cs.takeWhile (fun ch => ch ≠ '.')
  let rest := cs.dropWhile (fun ch => ch ≠ '.')
  match parseDigits whole, rest with
  | some n, [] => some (n : ℚ)
  | some n, _ :: frac =>
    match parseDigits frac with
    | some f => some ((n : ℚ) + (f : ℚ) / (10 : ℚ) ^ frac.length)
    | none => none
  | none, _ => none

/-- The value of a numeral with an optional leading minus sign. -/
def parseDecimal (s : String) : Option ℚ :=
  match s.data with
  | '-' :: cs => (parseUnsigned cs).map (fun x => -x)
  | cs => parseUnsigned cs

/-- The value of an integer numeral with an optional leading minus sign. -/
def parseInteger (s : String) : Option ℤ :=
  match s.data with
  | '-' :: cs => (parseDigits cs).map (fun n => -(n : ℤ))
  | cs => (parseDigits cs).map (fun n => (n : ℤ))

/-- The digits of `n`, padded with leading zeros to at least `width` characters. -/
def padDigits (width n : ℕ) : String :=
  let ds := Nat.toDigits 10 n
  String.mk (List.replicate (width - ds.length) '0' ++ ds)

/-- Fixed-point rendering with `prec` decimals, rounding half away from zero. -/
def formatFixed (x : ℚ) (prec : ℕ) : String :=
  let scaled : ℕ := (⌊|x| * (10 : ℚ) ^ prec + 1 / 2⌋).toNat
  let sign := if x < 0 ∧ scaled ≠ 0 then "-" else ""
  let whole := padDigits 1 (scaled / 10 ^ prec)
  if prec = 0 then sign ++ whole
  else sign ++ whole ++ "." ++ padDigits prec (scaled % 10 ^ prec)

/-- The decimal stand-in for `strconv`. -/
def decimalStrconv : Strconv where
  parseFloat := parseDecimal
  parseInt := parseInteger
  formatFloat := formatFixed

/-- The header used in the sample logs: the nine stat columns. -/
def statHeader : List String :=
  ["TimestampMS", "Speed", "Power", "Torque", "Boost", "Gear",
   "CarPerformanceIndex", "DrivetrainType", "CarClass"]

/-- A five-sample log of an A-class (`CarClass` 3) rear-wheel-drive car: the speed rises to
30 m/s (67.11 mph) and falls back to 0. -/
def sampleLog : List (List String) :=
  [statHeader,
   ["0", "0", "1000", "10", "0", "1", "700", "1", "3"],
   ["1000", "20", "200000", "300", "1.5", "2", "700", "1", "3"],
   ["2000", "30", "200000", "300", "1.5", "2", "700", "1", "3"],
   ["3000", "10", "200000", "300", "1.5", "2", "700", "1", "3"],
   ["4000", "0", "200000", "300", "1.5", "2", "700", "1", "3"]]

/-- The output vector of `calculate` on `sampleLog`. -/
def sampleOutput : List String :=
  ["700", "RWD", "268", "221", "1.000", "Failed!", "Failed!", "Failed!", "1.000", "Failed!",
   "67.11", "1.5"]

/-- A two-sample log whose top speed is 26.8125 m/s = 59.9795625 mph: within 0.1 mph below
60 mph. -/
def nearSixtyLog : List (List String) :=
  [statHeader,
   ["0", "0", "1000", "10", "0", "1", "700", "1", "3"],
   ["1000", "26.8125", "200000", "300", "1.5", "2", "700", "1", "3"]]

/-- A three-sample log with gears 0, 1, 2 (their sum equals the sample count) and the largest
power, 500000 W, on the sample in gear 1. -/
def mixedGearLog : List (List String) :=
  [statHeader,
   ["0", "0", "10000", "10", "0", "0", "700", "1", "3"],
   ["1000", "10", "500000", "300", "1.5", "1", "700", "1", "3"],
   ["2000", "20", "20000", "300", "1.5", "2", "700", "1", "3"]]

/-- The header used in the sample race logs: the five race columns. -/
def raceHeader : List String :=
  ["BestLap", "CurrentLap", "DistanceTraveled", "LapNumber", "Speed"]

/-- A one-sample race log: best lap 65.5 s, lap time 65.0625 s. -/
def shortSecondsLog : List (List String) :=
  [raceHeader, ["65.5", "65.0625", "0", "0", "50"]]

/-- A two-sample race log of one lap whose final sample lies 1878.5 m into the lap, inside
the first boundary window. -/
def windowEndLog : List (List String) :=
  [raceHeader, ["100", "0", "0", "0", "50"], ["100", "30", "1878.5", "0", "50"]]

/-- A nine-sample log of a car of class `carClass`: the speed rises through 22.37, 53.688,
80.532, 107.376 and 161.064 to 214.752 mph at the times 1, 2.5, 3, 4.2, 6 and 9.5 s, then
falls to 44.74 mph and to 0. -/
def profileLog (carClass : String) : List (List String) :=
  [statHeader,
   ["0", "0", "1000", "10", "0", "1", "700", "1", carClass],
   ["1000", "10", "100000", "200", "1.5", "1", "700", "1", carClass],
   ["2500", "24", "200000", "300", "1.5", "2", "700", "1", carClass],
   ["3000", "36", "200000", "300", "1.5", "2", "700", "1", carClass],
   ["4200", "48", "200000", "300", "1.5", "3", "700", "1", carClass],
   ["6000", "72", "200000", "300", "1.5", "4", "700", "1", carClass],
   ["9500", "96", "200000", "300", "1.5", "5", "700", "1", carClass],
   ["11000", "20", "1000", "10", "0", "3", "700", "1", carClass],
   ["12000", "0", "1000", "10", "0", "1", "700", "1", carClass]]

/-- The output vector of `calculate` on `profileLog "0"`. -/
def profileOutput0 : List String :=
  ["700", "RWD", "268", "221", "2.500", "3.000", "1.500", "2.000", "1.500", "1.500",
   "214.75", "1.5"]

/-- The output vector of `calculate` on `profileLog "2"`. -/
def profileOutput2 : List String :=
  ["700", "RWD", "268", "221", "2.500", "3.000", "2.000", "1.700", "1.500", "1.500",
   "214.75", "1.5"]

/-- The output vector of `calculate` on `profileLog "5"`. -/
def profileOutput5 : List String :=
  ["700", "RWD", "268", "221", "2.500", "3.000", "1.700", "3.000", "1.500", "1.500",
   "214.75", "1.5"]

/-! ## Reference notions used to state the properties -/

/-- The time of the last sample whose speed satisfies `p`, if there is one. -/
def lastTimeWhere (p : ℚ → Bool) (times speeds : List ℚ) : Option ℚ :=
  (((times.zip speeds).filter (fun ts => p ts.2)).getLast?).map Prod.fst

/-- A least element of a series. -/
def IsMinOf (m : ℚ) (xs : List ℚ) : Prop := m ∈ xs ∧ ∀ v ∈ xs, m ≤ v

/-- A greatest element of a series. -/
def IsMaxOf (m : ℚ) (xs : List ℚ) : Prop := m ∈ xs ∧ ∀ v ∈ xs, v ≤ m

/-- Index `k` is the first index at which the speed is at least `threshold`. -/
def IsFirstReach (k : ℕ) (threshold : ℚ) (speeds : List ℚ) : Prop :=
  (∃ v, speeds[k]? = some v ∧ threshold ≤ v) ∧
    ∀ i, i < k → ∀ v, speeds[i]? = some v → v < threshold

/-- Position `k` holds the last occurrence of `name` in the header. -/
def IsLastOccurrence (k : ℕ) (name : String) (header : List String) : Prop :=
  header[k]? = some name ∧ ∀ j, k < j → header[j]? ≠ some name

/-- The index `idx` is the position of the last occurrence of `name` in the header when the
name occurs, and `0` when it does not. -/
def ResolvesTo (idx : ℕ) (name : String) (header : List String) : Prop :=
  (name ∈ header → IsLastOccurrence idx name header) ∧ (name ∉ header → idx = 0)

/-- The number parsed from the cell of `row` in column `col`, when the cell exists and
parses. -/
def cellValue (L : Strconv) (row : List String) (col : ℕ) : Option ℚ :=
  (row[col]?).bind L.parseFloat

/-- The series `xs` has one element per data row, and its element `i` is the value that
`derive` gives for data row `i`. -/
def Aligned (derive : List String → Option ℚ) (data : List (List String)) (xs : List ℚ) :
    Prop :=
  xs.length = data.length ∧
    ∀ (i : ℕ) (row : List String), data[i]? = some row →
      ∃ v, derive row = some v ∧ xs[i]? = some v

/-- The loop body of the sector computation (lines 179-201) once its reads are done:
`newLap` is the test `i == 0 || l[i] != l[i-1]`, `val` is `d[i]`, `ti` is `t[i]` and `lapEnd`
is the test `i == len(l)-1 || l[i] != l[i+1]`. -/
def sectorBody (bestLap : ℚ) (st : SectorState) (newLap : Bool) (val ti : ℚ) (lapEnd : Bool) :
    SectorState :=
  let st := if newLap then { st with endLapDist := val } else st
  let st := { st with dist := val - st.endLapDist }
  if st.dist > 1878 ∧ st.dist < 1879 then
    { st with s1End := ti, s1TimeTmp := ti }
  else if st.dist > 3184 ∧ st.dist < 3185 then
    { st with s2End := ti, s2TimeTmp := ti - st.s1End }
  else if st.dist > 4311 ∧ st.dist < 4312 then
    { st with s3End := ti, s3TimeTmp := ti - st.s2End }
  else if lapEnd then
    let st := { st with s4TimeTmp := (ti - st.s3End) + 0.0125 }
    if ti ≤ bestLap then
      { st with s1Time := st.s1TimeTmp, s2Time := st.s2TimeTmp,
                s3Time := st.s3TimeTmp, s4Time := st.s4TimeTmp }
    else st
  else st

/-- The state of the sector computation after the first `k` samples, for series of equal
length. -/
def stateAfter (d l t : List ℚ) (bestLap : ℚ) : ℕ → SectorState
  | 0 => sectorInit
  | k + 1 =>
    sectorBody bestLap (stateAfter d l t bestLap k)
      (decide (k = 0 ∨ l.getD k 0 ≠ l.getD (k - 1) 0)) (d.getD k 0) (t.getD k 0)
      (decide (k + 1 = l.length ∨ l.getD k 0 ≠ l.getD (k + 1) 0))

/-- The distance at which the lap of sample `i` started: the distance of the latest sample,
up to `i`, that is the first sample or whose lap number differs from its predecessor's. -/
def lapStartDist (d l : List ℚ) : ℕ → ℚ
  | 0 => d.getD 0 0
  | i + 1 => if l.getD (i + 1) 0 ≠ l.getD i 0 then d.getD (i + 1) 0 else lapStartDist d l i

/-- The in-lap distance of sample `i`. -/
def inLapDist (d l : List ℚ) (i : ℕ) : ℚ :=
  d.getD i 0 - lapStartDist d l i

/-- The detection window of a sector boundary: the open interval `(lo, lo + 1)`; the three
boundaries have `lo` equal to 1878, 3184 and 4311. -/
def InWindow (lo x : ℚ) : Prop := lo < x ∧ x < lo + 1

instance (lo x : ℚ) : Decidable (InWindow lo x) := by
  unfold InWindow
  infer_instance

/-- Sample `i` is the final sample of its lap: the last sample of the series, or a sample
whose successor has a different lap number. -/
def IsLapEnd (l : List ℚ) (i : ℕ) : Prop :=
  i + 1 = l.length ∨ l.getD i 0 ≠ l.getD (i + 1) 0

instance (l : List ℚ) (i : ℕ) : Decidable (IsLapEnd l i) := by
  unfold IsLapEnd
  infer_instance

/-- Sample `i` is a lap's final sample that lies in no boundary window and whose lap time is
at most the best-lap time. -/
def RetainsAt (d l t : List ℚ) (bestLap : ℚ) (i : ℕ) : Prop :=
  i < d.length ∧ IsLapEnd l i ∧ ¬ InWindow 1878 (inLapDist d l i) ∧
    ¬ InWindow 3184 (inLapDist d l i) ∧ ¬ InWindow 4311 (inLapDist d l i) ∧
    t.getD i 0 ≤ bestLap

/-- A five-sample race log of one lap: the samples lie 0, 1878.5, 3184.5, 4311.5 and 5940 m
into the lap, at lap times 0, 25, 45, 62 and 80.0625 s. -/
def sampleRaceLog : List (List String) :=
  [raceHeader,
   ["90", "0", "100", "0", "50"],
   ["90", "25", "1978.5", "0", "50"],
   ["90", "45", "3284.5", "0", "50"],
   ["90", "62", "4411.5", "0", "50"],
   ["90", "80.0625", "6040", "0", "50"]]

/-- The series extracted from `sampleRaceLog`. -/
def sampleRaceSeries : RaceSeries where
  t := [0, 25, 45, 62, 80.0625]
  d := [100, 1978.5, 3284.5, 4411.5, 6040]
  l := [0, 0, 0, 0, 0]
  s := [111.85, 111.85, 111.85, 111.85, 111.85]
  bl := [90, 90, 90, 90, 90]

/-- The row obtained by moving, for every position `j`, the cell at position `perm[j]` to
position `j`. -/
def permuteRow (perm : List ℕ) (row : List String) : List String :=
  perm.map (fun i => row.getD i "")

/-- The output vector of a call of `calculate` (its second result). -/
def outputOf (x : Outcome (List (List String) × List String)) : Outcome (List String) :=
  match x with
  | .ret p => .ret p.2
  | .panic => .panic
  | .fatal => .fatal

/-- The powers of the samples whose gear is not `1`. -/
def otherGearPowers (g p : List ℚ) : List ℚ :=
  ((g.zip p).filter (fun gp => decide (gp.1 ≠ 1))).map Prod.snd

/-- The time of the sample just before index `k`: `times[k-1]`, and `0` when `k = 0`. -/
def timeBefore (times : List ℚ) (k : ℕ) : ℚ :=
  if k = 0 then 0 else times.getD (k - 1) 0

/-! ## Lemmas on sorting -/

theorem sortFloat64s_mem (xs : List ℚ) (v : ℚ) : v ∈ sortFloat64s xs ↔ v ∈ xs :=
  (List.perm_insertionSort (fun a b : ℚ => a ≤ b) xs).mem_iff

theorem sortFloat64s_sorted (xs : List ℚ) : (sortFloat64s xs).Sorted (fun a b => a ≤ b) :=
  List.sorted_insertionSort (fun a b : ℚ => a ≤ b) xs

theorem sorted_head_le (l : List ℚ) (h : l.Sorted (fun a b => a ≤ b)) (a : ℚ)
    (ha : l.head? = some a) : ∀ v ∈ l, a ≤ v := by
  cases l with
  | nil => simp at ha
  | cons b t =>
    simp only [List.head?_cons, Option.some.injEq] at ha
    subst ha
    intro v hv
    rcases List.mem_cons.mp hv with rfl | hv
    · exact le_refl _
    · exact List.rel_of_sorted_cons h v hv

theorem sorted_le_getLast (l : List ℚ) (h : l.Sorted (fun a b => a ≤ b)) (a : ℚ)
    (ha : l.getLast? = some a) : ∀ v ∈ l, v ≤ a := by
  induction l with
  | nil => simp at ha
  | cons b t ih =>
    cases t with
    | nil =>
      simp only [List.getLast?_singleton, Option.some.injEq] at ha
      subst ha
      intro v hv
      simp only [List.mem_singleton] at hv
      exact le_of_eq hv
    | cons c t2 =>
      have ha2 : (c :: t2).getLast? = some a := by
        simpa [List.getLast?_cons_cons] using ha
      have ih2 := ih h.of_cons ha2
      intro v hv
      rcases List.mem_cons.mp hv with rfl | hv
      · exact le_trans (List.rel_of_sorted_cons h c (List.mem_cons_self _ _))
          (ih2 c (List.mem_cons_self _ _))
      · exact ih2 v hv

theorem sortFloat64s_head (xs : List ℚ) (m : ℚ) (hm : IsMinOf m xs) :
    (sortFloat64s xs).head? = some m := by
  have hne : sortFloat64s xs ≠ [] := by
    intro h
    have := (sortFloat64s_mem xs m).mpr hm.1
    rw [h] at this
    simp at this
  obtain ⟨a, ha⟩ : ∃ a, (sortFloat64s xs).head? = some a := by
    cases hs : sortFloat64s xs with
    | nil => exact absurd hs hne
    | cons b t => exact ⟨b, rfl⟩
  have hmem : a ∈ xs := (sortFloat64s_mem xs a).mp (List.mem_of_mem_head? ha)
  have h1 : a ≤ m :=
    sorted_head_le _ (sortFloat64s_sorted xs) a ha m ((sortFloat64s_mem xs m).mpr hm.1)
  have h2 : m ≤ a := hm.2 a hmem
  rw [ha, le_antisymm h1 h2]

theorem sortFloat64s_getLast (xs : List ℚ) (m : ℚ) (hm : IsMaxOf m xs) :
    (sortFloat64s xs).getLast? = some m := by
  have hne : sortFloat64s xs ≠ [] := by
    intro h
    have := (sortFloat64s_mem xs m).mpr hm.1
    rw [h] at this
    simp at this
  obtain ⟨a, ha⟩ : ∃ a, (sortFloat64s xs).getLast? = some a :=
    ⟨_, List.getLast?_eq_getLast _ hne⟩
  have hmem : a ∈ xs := (sortFloat64s_mem xs a).mp (List.mem_of_mem_getLast? ha)
  have h1 : m ≤ a :=
    sorted_le_getLast _ (sortFloat64s_sorted xs) a ha m ((sortFloat64s_mem xs m).mpr hm.1)
  have h2 : a ≤ m := hm.2 a hmem
  rw [ha, le_antisymm h2 h1]

/-- Once the lengths agree and the extrema are known, `getTimeBetween` is the range check
followed by the scan. -/
theorem getTimeBetween_eq (startSpeed endSpeed : ℚ) (timeValues speedValues : List ℚ)
    (minSpeed maxSpeed : ℚ) (hlen : timeValues.length = speedValues.length)
    (hmin : IsMinOf minSpeed speedValues) (hmax : IsMaxOf maxSpeed speedValues) :
    getTimeBetween startSpeed endSpeed timeValues speedValues =
      if outsideRange startSpeed endSpeed minSpeed maxSpeed then
        .ret (0, some .outOfRange)
      else
        match scanTimes startSpeed endSpeed timeValues speedValues with
        | none => .panic
        | some (startTime, endTime) =>
          if startTime > endTime then .ret (0, some .negativeDuration)
          else .ret (endTime - startTime, none) := by
  unfold getTimeBetween
  simp only [hlen, ne_eq, not_true_eq_false, if_false, sortFloat64s_head _ _ hmin,
    sortFloat64s_getLast _ _ hmax]

/-! ## Lemmas on the two scans -/

theorem accelLoop_spec (threshold : ℚ) : ∀ (speeds times : List ℚ) (time : ℚ),
    times.length = speeds.length → (∃ v ∈ speeds, threshold ≤ v) →
    ∃ k, IsFirstReach k threshold speeds ∧
      accelLoop threshold times speeds time =
        some (if k = 0 then time else times.getD (k - 1) 0) := by
  intro speeds
  induction speeds with
  | nil => intro times time _ h; simp at h
  | cons v vs ih =>
    intro times time hlen hex
    cases times with
    | nil => simp at hlen
    | cons t ts =>
      have hlen2 : ts.length = vs.length := by simpa using hlen
      by_cases hv : v < threshold
      · have hex2 : ∃ w ∈ vs, threshold ≤ w := by
          obtain ⟨w, hw, hle⟩ := hex
          rcases List.mem_cons.mp hw with rfl | hw
          · exact absurd hv (not_lt.mpr hle)
          · exact ⟨w, hw, hle⟩
        obtain ⟨k, hk, heq⟩ := ih ts t hlen2 hex2
        refine ⟨k + 1, ⟨?_, ?_⟩, ?_⟩
        · simpa using hk.1
        · intro i hi w hw
          cases i with
          | zero =>
            simp only [List.getElem?_cons_zero, Option.some.injEq] at hw
            exact hw ▸ hv
          | succ j =>
            simp only [List.getElem?_cons_succ] at hw
            exact hk.2 j (by omega) w hw
        · simp only [accelLoop, hv, if_true, heq]
          cases k with
          | zero => simp
          | succ j => simp
      · refine ⟨0, ⟨⟨v, by simp, not_lt.mp hv⟩, ?_⟩, ?_⟩
        · intro i hi; omega
        · simp [accelLoop, hv]

theorem isFirstReach_unique (threshold : ℚ) (speeds : List ℚ) (k m : ℕ)
    (hk : IsFirstReach k threshold speeds) (hm : IsFirstReach m threshold speeds) : k = m := by
  obtain ⟨⟨v, hv, hvle⟩, hkb⟩ := hk
  obtain ⟨⟨w, hw, hwle⟩, hmb⟩ := hm
  rcases Nat.lt_trichotomy k m with h | h | h
  · exact absurd (hmb k h v hv) (not_lt.mpr hvle)
  · exact h
  · exact absurd (hkb m h w hw) (not_lt.mpr hwle)

theorem lastTimeWhere_cons (p : ℚ → Bool) (t v : ℚ) (ts vs : List ℚ) :
    lastTimeWhere p (t :: ts) (v :: vs) =
      match lastTimeWhere p ts vs with
      | some x => some x
      | none => if p v then some t else none := by
  unfold lastTimeWhere
  simp only [List.zip_cons_cons, List.filter_cons]
  by_cases hp : p v
  · simp only [hp, if_true, List.getLast?_cons]
    cases h : ((ts.zip vs).filter (fun x => p x.2)).getLast? <;> simp
  · simp only [hp, Bool.false_eq_true, if_false]
    cases h : ((ts.zip vs).filter (fun x => p x.2)).getLast? <;> simp

theorem lastTimeWhere_isSome (p : ℚ → Bool) : ∀ (speeds times : List ℚ),
    times.length = speeds.length → (∃ v ∈ speeds, p v = true) →
    ∃ x, lastTimeWhere p times speeds = some x := by
  intro speeds
  induction speeds with
  | nil => intro times _ h; simp at h
  | cons v vs ih =>
    intro times hlen hex
    cases times with
    | nil => simp at hlen
    | cons t ts =>
      have hlen2 : ts.length = vs.length := by simpa using hlen
      rw [lastTimeWhere_cons]
      cases h : lastTimeWhere p ts vs with
      | some x => exact ⟨x, rfl⟩
      | none =>
        obtain ⟨w, hw, hpw⟩ := hex
        rcases List.mem_cons.mp hw with rfl | hw
        · exact ⟨t, by simp [hpw]⟩
        · obtain ⟨x, hx⟩ := ih ts hlen2 ⟨w, hw, hpw⟩
          rw [h] at hx
          exact absurd hx (by simp)

theorem decelLoop_eq (startSpeed endSpeed : ℚ) : ∀ (times speeds : List ℚ) (acc : ℚ × ℚ),
    decelLoop startSpeed endSpeed times speeds acc =
      ((lastTimeWhere (fun v => decide (v > startSpeed + 0.1)) times speeds).getD acc.1,
       (lastTimeWhere (fun v => decide (v > endSpeed + 0.1 ∧ ¬ v > startSpeed + 0.1))
          times speeds).getD acc.2) := by
  intro times
  induction times with
  | nil => intro speeds acc; simp [decelLoop, lastTimeWhere]
  | cons t ts ih =>
    intro speeds acc
    cases speeds with
    | nil => simp [decelLoop, lastTimeWhere]
    | cons v vs =>
      obtain ⟨st, et⟩ := acc
      rw [lastTimeWhere_cons, lastTimeWhere_cons]
      by_cases h1 : v > startSpeed + 0.1
      · simp only [decelLoop, h1, if_true, ih]
        cases lastTimeWhere (fun v => decide (v > startSpeed + 0.1)) ts vs <;>
          cases lastTimeWhere
            (fun v => decide (v > endSpeed + 0.1 ∧ ¬ v > startSpeed + 0.1)) ts vs <;>
          simp [h1]
      · by_cases h2 : v > endSpeed + 0.1
        · simp only [decelLoop, h1, h2, if_true, if_false, ih]
          cases lastTimeWhere (fun v => decide (v > startSpeed + 0.1)) ts vs <;>
            cases lastTimeWhere
              (fun v => decide (v > endSpeed + 0.1 ∧ ¬ v > startSpeed + 0.1)) ts vs <;>
            simp [h1, h2]
        · simp only [decelLoop, h1, h2, if_false, ih]
          cases lastTimeWhere (fun v => decide (v > startSpeed + 0.1)) ts vs <;>
            cases lastTimeWhere
              (fun v => decide (v > endSpeed + 0.1 ∧ ¬ v > startSpeed + 0.1)) ts vs <;>
            simp [h1, h2]

theorem exists_isMinOf (xs : List ℚ) (hne : xs ≠ []) : ∃ m, IsMinOf m xs := by
  have hne2 : sortFloat64s xs ≠ [] := by
    intro h
    cases xs with
    | nil => exact hne rfl
    | cons a t =>
      have := (sortFloat64s_mem (a :: t) a).mpr (List.mem_cons_self _ _)
      rw [h] at this
      simp at this
  cases hs : sortFloat64s xs with
  | nil => exact absurd hs hne2
  | cons b t =>
    have hb : (sortFloat64s xs).head? = some b := by rw [hs]; rfl
    refine ⟨b, (sortFloat64s_mem xs b).mp (List.mem_of_mem_head? hb), ?_⟩
    intro v hv
    exact sorted_head_le _ (sortFloat64s_sorted xs) b hb v ((sortFloat64s_mem xs v).mpr hv)

theorem exists_isMaxOf (xs : List ℚ) (hne : xs ≠ []) : ∃ m, IsMaxOf m xs := by
  have hne2 : sortFloat64s xs ≠ [] := by
    intro h
    cases xs with
    | nil => exact hne rfl
    | cons a t =>
      have := (sortFloat64s_mem (a :: t) a).mpr (List.mem_cons_self _ _)
      rw [h] at this
      simp at this
  have hb : (sortFloat64s xs).getLast? = some ((sortFloat64s xs).getLast hne2) :=
    List.getLast?_eq_getLast _ hne2
  refine ⟨_, (sortFloat64s_mem xs _).mp (List.mem_of_mem_getLast? hb), ?_⟩
  intro v hv
  exact sorted_le_getLast _ (sortFloat64s_sorted xs) _ hb v ((sortFloat64s_mem xs v).mpr hv)

/-! ## The interval-crossing analyser: claims -/

/-- C1. Acceleration mode. For equal-length series that pass the range check, with
`startSpeed ≤ endSpeed` and some sample at or above `endSpeed + 0.1`: there are a first
index `k` with speed at least `startSpeed + 0.1` and a first index `m` with speed at least
`endSpeed + 0.1`; the computed `startTime` is `times[k-1]` (`0` when `k = 0`), the computed
`endTime` is `times[m-1]` (`0` when `m = 0`); and whenever `startTime ≤ endTime` the call
returns `endTime - startTime` with a `nil` error. -/
theorem getTimeBetween_acceleration (startSpeed endSpeed : ℚ) (timeValues speedValues : List ℚ)
    (minSpeed maxSpeed : ℚ) (hlen : timeValues.length = speedValues.length)
    (hmin : IsMinOf minSpeed speedValues) (hmax : IsMaxOf maxSpeed speedValues)
    (hrange : ¬ outsideRange startSpeed endSpeed minSpeed maxSpeed)
    (hmode : startSpeed ≤ endSpeed) (hreach : ∃ v ∈ speedValues, endSpeed + 0.1 ≤ v) :
    ∃ k m, IsFirstReach k (startSpeed + 0.1) speedValues ∧
      IsFirstReach m (endSpeed + 0.1) speedValues ∧
      scanTimes startSpeed endSpeed timeValues speedValues =
        some (timeBefore timeValues k, timeBefore timeValues m) ∧
      (timeBefore timeValues k ≤ timeBefore timeValues m →
        getTimeBetween startSpeed endSpeed timeValues speedValues =
          .ret (timeBefore timeValues m - timeBefore timeValues k, none)) := by
  have hreach1 : ∃ v ∈ speedValues, startSpeed + 0.1 ≤ v := by
    obtain ⟨v, hv, hle⟩ := hreach
    exact ⟨v, hv, le_trans (by linarith) hle⟩
  obtain ⟨k, hk, hks⟩ := accelLoop_spec (startSpeed + 0.1) speedValues timeValues 0 hlen hreach1
  obtain ⟨m, hm, hms⟩ := accelLoop_spec (endSpeed + 0.1) speedValues timeValues 0 hlen hreach
  have hscan : scanTimes startSpeed endSpeed timeValues speedValues =
      some (timeBefore timeValues k, timeBefore timeValues m) := by
    unfold scanTimes timeBefore
    rw [if_neg (not_lt.mpr hmode), hks, hms]
  refine ⟨k, m, hk, hm, hscan, ?_⟩
  intro hle
  rw [getTimeBetween_eq startSpeed endSpeed timeValues speedValues minSpeed maxSpeed hlen hmin
    hmax, if_neg hrange, hscan]
  simp only [gt_iff_lt, not_lt.mpr hle, if_false]

/-- C1, at a concrete run: speeds `[0, 30, 61, 80]` at times `[0, 1, 2, 3]`, interval 0-60. -/
theorem getTimeBetween_acceleration_witness :
    ∃ k m, IsFirstReach k (0 + 0.1) [0, 30, 61, 80] ∧
      IsFirstReach m (60 + 0.1) [0, 30, 61, 80] ∧
      scanTimes 0 60 [0, 1, 2, 3] [0, 30, 61, 80] =
        some (timeBefore [0, 1, 2, 3] k, timeBefore [0, 1, 2, 3] m) ∧
      (timeBefore [0, 1, 2, 3] k ≤ timeBefore [0, 1, 2, 3] m →
        getTimeBetween 0 60 [0, 1, 2, 3] [0, 30, 61, 80] =
          .ret (timeBefore [0, 1, 2, 3] m - timeBefore [0, 1, 2, 3] k, none)) :=
  getTimeBetween_acceleration 0 60 [0, 1, 2, 3] [0, 30, 61, 80] 0 80 rfl
    (by norm_num [IsMinOf]) (by norm_num [IsMaxOf])
    (by norm_num [outsideRange]) (by norm_num) ⟨80, by simp, by norm_num⟩

/-- C2, as stated, fails: speeds `[0, 70, 0]` at times `[0, 1, 2]`, interval 60-0. The
series pass the range check and one sample exceeds `60.1`. The last sample above `60.1` and
the last sample above `0.1` are both the sample at time `1`, so the stated result is the
duration `1 - 1`; the call returns the negative-duration error. -/
theorem getTimeBetween_deceleration_counterexample :
    IsMinOf 0 [0, 70, 0] ∧ IsMaxOf 70 [0, 70, 0] ∧ ¬ outsideRange 60 0 0 70 ∧
      (∃ v ∈ [(0 : ℚ), 70, 0], v > 60 + 0.1) ∧
      lastTimeWhere (fun v => decide (v > 60 + 0.1)) [0, 1, 2] [0, 70, 0] = some 1 ∧
      lastTimeWhere (fun v => decide (v > 0 + 0.1)) [0, 1, 2] [0, 70, 0] = some 1 ∧
      getTimeBetween 60 0 [0, 1, 2] [0, 70, 0] = .ret (0, some .negativeDuration) ∧
      getTimeBetween 60 0 [0, 1, 2] [0, 70, 0] ≠ .ret (1 - 1, none) := by
  refine ⟨by norm_num [IsMinOf], by norm_num [IsMaxOf], by norm_num [outsideRange],
    ⟨70, by simp, by norm_num⟩, ?_, ?_, ?_, ?_⟩
  · norm_num [lastTimeWhere, List.filter]
  · norm_num [lastTimeWhere, List.filter]
  · norm_num [getTimeBetween, sortFloat64s, outsideRange, scanTimes, decelLoop]
  · norm_num [getTimeBetween, sortFloat64s, outsideRange, scanTimes, decelLoop]
    simp

/-- C2, amended. Deceleration mode. For equal-length series that pass the range check, with
`startSpeed > endSpeed` and some sample above `startSpeed + 0.1`: the computed `startTime`
is the time of the last sample whose speed exceeds `startSpeed + 0.1`; the computed
`endTime` is the time of the last sample whose speed exceeds `endSpeed + 0.1` but not
`startSpeed + 0.1` (`0` when there is none); the call returns `endTime - startTime` when
`startTime ≤ endTime` and the negative-duration error otherwise. -/
theorem getTimeBetween_deceleration (startSpeed endSpeed : ℚ) (timeValues speedValues : List ℚ)
    (minSpeed maxSpeed : ℚ) (hlen : timeValues.length = speedValues.length)
    (hmin : IsMinOf minSpeed speedValues) (hmax : IsMaxOf maxSpeed speedValues)
    (hrange : ¬ outsideRange startSpeed endSpeed minSpeed maxSpeed)
    (hmode : startSpeed > endSpeed) (hreach : ∃ v ∈ speedValues, v > startSpeed + 0.1) :
    ∃ startTime endTime,
      lastTimeWhere (fun v => decide (v > startSpeed + 0.1)) timeValues speedValues =
        some startTime ∧
      (lastTimeWhere (fun v => decide (v > endSpeed + 0.1 ∧ ¬ v > startSpeed + 0.1))
        timeValues speedValues).getD 0 = endTime ∧
      scanTimes startSpeed endSpeed timeValues speedValues = some (startTime, endTime) ∧
      getTimeBetween startSpeed endSpeed timeValues speedValues =
        if startTime ≤ endTime then .ret (endTime - startTime, none)
        else .ret (0, some .negativeDuration) := by
  obtain ⟨st, hst⟩ := lastTimeWhere_isSome (fun v => decide (v > startSpeed + 0.1))
    speedValues timeValues hlen (by
      obtain ⟨v, hv, hgt⟩ := hreach
      exact ⟨v, hv, by simpa using hgt⟩)
  have hscan : scanTimes startSpeed endSpeed timeValues speedValues =
      some (st, (lastTimeWhere (fun v => decide (v > endSpeed + 0.1 ∧ ¬ v > startSpeed + 0.1))
        timeValues speedValues).getD 0) := by
    unfold scanTimes
    rw [if_pos hmode, decelLoop_eq, hst]
    rfl
  refine ⟨st, _, hst, rfl, hscan, ?_⟩
  rw [getTimeBetween_eq startSpeed endSpeed timeValues speedValues minSpeed maxSpeed hlen hmin
    hmax, if_neg hrange, hscan]
  simp only [gt_iff_lt]
  split_ifs with h1 h2 h2
  · exact absurd h2 (not_le.mpr h1)
  · rfl
  · rfl
  · exact absurd (le_of_not_lt h1) h2

/-- C2 amended, at a concrete run: speeds `[0, 70, 30, 0]` at times `[0, 1, 2, 3]`,
interval 60-0. -/
theorem getTimeBetween_deceleration_witness :
    ∃ startTime endTime,
      lastTimeWhere (fun v => decide (v > 60 + 0.1)) [0, 1, 2, 3] [0, 70, 30, 0] =
        some startTime ∧
      (lastTimeWhere (fun v => decide (v > 0 + 0.1 ∧ ¬ v > 60 + 0.1))
        [0, 1, 2, 3] [0, 70, 30, 0]).getD 0 = endTime ∧
      scanTimes 60 0 [0, 1, 2, 3] [0, 70, 30, 0] = some (startTime, endTime) ∧
      getTimeBetween 60 0 [0, 1, 2, 3] [0, 70, 30, 0] =
        if startTime ≤ endTime then .ret (endTime - startTime, none)
        else .ret (0, some .negativeDuration) :=
  getTimeBetween_deceleration 60 0 [0, 1, 2, 3] [0, 70, 30, 0] 0 70 rfl
    (by norm_num [IsMinOf]) (by norm_num [IsMaxOf])
    (by norm_num [outsideRange]) (by norm_num) ⟨70, by simp, by norm_num⟩

/-- C3. Range check. For equal-length series with least sample `minSpeed` and greatest
sample `maxSpeed`, `getTimeBetween` returns the out-of-range error exactly when
`startSpeed > maxSpeed + 0.1`, or `endSpeed > maxSpeed + 0.1`, or `minSpeed > 0.1` and one of
the two speeds is below `minSpeed`. -/
theorem getTimeBetween_outOfRange_iff (startSpeed endSpeed : ℚ)
    (timeValues speedValues : List ℚ) (minSpeed maxSpeed : ℚ)
    (hlen : timeValues.length = speedValues.length)
    (hmin : IsMinOf minSpeed speedValues) (hmax : IsMaxOf maxSpeed speedValues) :
    getTimeBetween startSpeed endSpeed timeValues speedValues = .ret (0, some .outOfRange) ↔
      (startSpeed > maxSpeed + 0.1 ∨ endSpeed > maxSpeed + 0.1 ∨
        (minSpeed > 0.1 ∧ (startSpeed < minSpeed ∨ endSpeed < minSpeed))) := by
  rw [getTimeBetween_eq startSpeed endSpeed timeValues speedValues minSpeed maxSpeed hlen hmin
    hmax]
  have hiff : outsideRange startSpeed endSpeed minSpeed maxSpeed ↔
      (startSpeed > maxSpeed + 0.1 ∨ endSpeed > maxSpeed + 0.1 ∨
        (minSpeed > 0.1 ∧ (startSpeed < minSpeed ∨ endSpeed < minSpeed))) := by
    unfold outsideRange
    tauto
  rw [← hiff]
  by_cases hr : outsideRange startSpeed endSpeed minSpeed maxSpeed
  · simp [hr]
  · simp only [hr, if_false, iff_false]
    cases hs : scanTimes startSpeed endSpeed timeValues speedValues with
    | none => simp
    | some p =>
      obtain ⟨st, et⟩ := p
      simp only
      split_ifs <;> simp

/-- C3, at a concrete run: speeds `[0, 30, 61, 80]`, interval 0-100 is out of range. -/
theorem getTimeBetween_outOfRange_iff_witness :
    getTimeBetween 0 100 [0, 1, 2, 3] [0, 30, 61, 80] = .ret (0, some .outOfRange) ↔
      ((0 : ℚ) > 80 + 0.1 ∨ (100 : ℚ) > 80 + 0.1 ∨
        ((0 : ℚ) > 0.1 ∧ ((0 : ℚ) < 0 ∨ (100 : ℚ) < 0))) :=
  getTimeBetween_outOfRange_iff 0 100 [0, 1, 2, 3] [0, 30, 61, 80] 0 80 rfl
    (by norm_num [IsMinOf]) (by norm_num [IsMaxOf])

/-- C4. The car does not reach 60 mph (greatest speed `59.95`), yet `getTimeBetween` returns
no error, because the range check lets a speed up to `maxSpeed + 0.1` through. In
deceleration mode (60-0) no sample exceeds `60.1`, `startTime` keeps its initial `0`, and the
call returns `endTime - 0` with a `nil` error: `1` at times `[0, 1, 2]`, `101` at times
`[100, 101, 102]`. In acceleration mode (0-60) no sample reaches `60.1` and the call panics
on `speedValues[2]`. -/
theorem getTimeBetween_unreached_no_error :
    IsMaxOf 59.95 [0, 59.95, 0] ∧ (59.95 : ℚ) < 60 ∧
      getTimeBetween 60 0 [0, 1, 2] [0, 59.95, 0] = .ret (1, none) ∧
      getTimeBetween 60 0 [100, 101, 102] [0, 59.95, 0] = .ret (101, none) ∧
      IsMaxOf 59.95 [0, 59.95] ∧
      getTimeBetween 0 60 [0, 1] [0, 59.95] = .panic := by
  refine ⟨by norm_num [IsMaxOf], by norm_num, ?_, ?_, by norm_num [IsMaxOf], ?_⟩
  · norm_num [getTimeBetween, sortFloat64s, outsideRange, scanTimes, decelLoop]
  · norm_num [getTimeBetween, sortFloat64s, outsideRange, scanTimes, decelLoop]
  · norm_num [getTimeBetween, sortFloat64s, outsideRange, scanTimes, accelLoop]

/-- Beyond the tolerance of the range check: for non-empty equal-length series whose greatest
speed `maxSpeed` satisfies `maxSpeed + 0.1 < startSpeed` or `maxSpeed + 0.1 < endSpeed`,
`getTimeBetween` returns the out-of-range error. -/
theorem getTimeBetween_unreached (startSpeed endSpeed : ℚ) (timeValues speedValues : List ℚ)
    (maxSpeed : ℚ) (hlen : timeValues.length = speedValues.length)
    (hmax : IsMaxOf maxSpeed speedValues)
    (hbelow : maxSpeed + 0.1 < startSpeed ∨ maxSpeed + 0.1 < endSpeed) :
    getTimeBetween startSpeed endSpeed timeValues speedValues = .ret (0, some .outOfRange) := by
  have hne : speedValues ≠ [] := by
    intro h
    have := hmax.1
    rw [h] at this
    simp at this
  obtain ⟨minSpeed, hmin⟩ := exists_isMinOf speedValues hne
  rw [getTimeBetween_eq startSpeed endSpeed timeValues speedValues minSpeed maxSpeed hlen hmin
    hmax]
  have hr : outsideRange startSpeed endSpeed minSpeed maxSpeed := by
    unfold outsideRange
    rcases hbelow with h | h
    · exact Or.inl h
    · exact Or.inr (Or.inl h)
  rw [if_pos hr]

/-- The range check at a concrete run: speeds `[0, 30, 59]`, interval 0-60. -/
theorem getTimeBetween_unreached_witness :
    getTimeBetween 0 60 [0, 1, 2] [0, 30, 59] = .ret (0, some .outOfRange) :=
  getTimeBetween_unreached 0 60 [0, 1, 2] [0, 30, 59] 59 rfl (by norm_num [IsMaxOf])
    (Or.inr (by norm_num))

/-- C5. Non-negative result. Whenever `getTimeBetween` returns a duration `d` with a `nil`
error, the scan computed some `(startTime, endTime)` with `d = endTime - startTime` and
`d ≥ 0`; and whenever the series have equal lengths, pass the range check, and the scan
computed `startTime > endTime`, the call returns the negative-duration error. -/
theorem getTimeBetween_nonneg (startSpeed endSpeed : ℚ) (timeValues speedValues : List ℚ) :
    (∀ d, getTimeBetween startSpeed endSpeed timeValues speedValues = .ret (d, none) →
      ∃ startTime endTime,
        scanTimes startSpeed endSpeed timeValues speedValues = some (startTime, endTime) ∧
        d = endTime - startTime ∧ 0 ≤ d) ∧
    (∀ minSpeed maxSpeed startTime endTime,
      timeValues.length = speedValues.length →
      IsMinOf minSpeed speedValues → IsMaxOf maxSpeed speedValues →
      ¬ outsideRange startSpeed endSpeed minSpeed maxSpeed →
      scanTimes startSpeed endSpeed timeValues speedValues = some (startTime, endTime) →
      startTime > endTime →
      getTimeBetween startSpeed endSpeed timeValues speedValues =
        .ret (0, some .negativeDuration)) := by
  constructor
  · intro d hd
    by_cases hlen : timeValues.length = speedValues.length
    · by_cases hne : speedValues = []
      · subst hne
        simp [getTimeBetween, sortFloat64s] at hd
        split_ifs at hd
        simp at hd
      · obtain ⟨mn, hmin⟩ := exists_isMinOf speedValues hne
        obtain ⟨mx, hmax⟩ := exists_isMaxOf speedValues hne
        rw [getTimeBetween_eq startSpeed endSpeed timeValues speedValues mn mx hlen hmin
          hmax] at hd
        by_cases hr : outsideRange startSpeed endSpeed mn mx
        · simp [hr] at hd
        · rw [if_neg hr] at hd
          cases hs : scanTimes startSpeed endSpeed timeValues speedValues with
          | none => simp [hs] at hd
          | some p =>
            obtain ⟨st, et⟩ := p
            rw [hs] at hd
            simp only [gt_iff_lt] at hd
            by_cases h3 : et < st
            · simp [h3] at hd
            · simp only [h3, if_false, Outcome.ret.injEq, Prod.mk.injEq, and_true] at hd
              refine ⟨st, et, rfl, hd.symm, ?_⟩
              rw [← hd]
              linarith [not_lt.mp h3]
    · simp [getTimeBetween, hlen] at hd
  · intro minSpeed maxSpeed startTime endTime hlen hmin hmax hrange hscan hgt
    rw [getTimeBetween_eq startSpeed endSpeed timeValues speedValues minSpeed maxSpeed hlen
      hmin hmax, if_neg hrange, hscan]
    simp only [hgt, if_true]

/-- C5, at two concrete runs: a returned duration is `endTime - startTime ≥ 0`
(speeds `[0, 30, 61, 80]`, interval 0-60), and a computed `startTime > endTime` gives the
negative-duration error (speeds `[0, 70, 0]`, interval 60-0). -/
theorem getTimeBetween_nonneg_witness :
    (∃ startTime endTime,
        scanTimes 0 60 [0, 1, 2, 3] [0, 30, 61, 80] = some (startTime, endTime) ∧
        (1 : ℚ) = endTime - startTime ∧ (0 : ℚ) ≤ 1) ∧
      getTimeBetween 60 0 [0, 1, 2] [0, 70, 0] = .ret (0, some .negativeDuration) :=
  ⟨(getTimeBetween_nonneg 0 60 [0, 1, 2, 3] [0, 30, 61, 80]).1 1
      (by norm_num [getTimeBetween, sortFloat64s, outsideRange, scanTimes, accelLoop]),
    (getTimeBetween_nonneg 60 0 [0, 1, 2] [0, 70, 0]).2 0 70 1 0 rfl
      (by norm_num [IsMinOf]) (by norm_num [IsMaxOf]) (by norm_num [outsideRange])
      (by norm_num [scanTimes, decelLoop]) (by norm_num)⟩

/-- C10. The fixture `t = [0,1,2,3,4,5]`, `s = [0,20,40,60,55,0]`: the call
`getTimeBetween(0, 60, t, s)` passes the range check, no sample reaches `60.1`, and the second
acceleration loop reads `speedValues[6]`: the call panics instead of returning `3`. -/
theorem getTimeBetween_fixture_panics :
    getTimeBetween 0 60 [0, 1, 2, 3, 4, 5] [0, 20, 40, 60, 55, 0] = .panic := by
  norm_num [getTimeBetween, sortFloat64s, outsideRange, scanTimes, accelLoop]

/-! ## Lemmas on `Outcome` -/

theorem Outcome.bind_eq_ret_iff {α β : Type} (x : Outcome α) (f : α → Outcome β) (b : β) :
    (x >>= f) = .ret b ↔ ∃ a, x = .ret a ∧ f a = .ret b := by
  cases x with
  | ret v =>
    constructor
    · intro h; exact ⟨v, rfl, h⟩
    · rintro ⟨a, ha, hf⟩
      cases ha
      exact hf
  | panic =>
    constructor
    · intro h; cases h
    · rintro ⟨a, ha, _⟩; cases ha
  | fatal =>
    constructor
    · intro h; cases h
    · rintro ⟨a, ha, _⟩; cases ha

theorem Outcome.pure_eq_ret_iff {α : Type} (a b : α) :
    (pure a : Outcome α) = .ret b ↔ a = b := by
  constructor
  · intro h; cases h; rfl
  · intro h; rw [h]; rfl

theorem index_eq_ret_iff {α : Type} (xs : List α) (i : ℕ) (v : α) :
    index xs i = .ret v ↔ xs[i]? = some v := by
  unfold index
  cases xs[i]? with
  | none => simp
  | some w => simp

theorem checked_eq_ret_iff {α : Type} (parsed : Option α) (v : α) :
    checked parsed = .ret v ↔ parsed = some v := by
  unfold checked
  cases parsed with
  | none => simp
  | some w => simp

theorem sortedLast_isMaxOf (xs : List ℚ) (m : ℚ) (h : sortedLast xs = .ret m) :
    IsMaxOf m xs := by
  unfold sortedLast at h
  cases hl : (sortFloat64s xs).getLast? with
  | none => rw [hl] at h; cases h
  | some v =>
    rw [hl] at h
    cases h
    refine ⟨(sortFloat64s_mem xs _).mp (List.mem_of_mem_getLast? hl), ?_⟩
    intro w hw
    exact sorted_le_getLast _ (sortFloat64s_sorted xs) _ hl w ((sortFloat64s_mem xs w).mpr hw)

/-- What a returning call of `calculate` has computed, step by step. -/
theorem calculate_ret_inv (L : Strconv) (rows r : List (List String)) (out : List String)
    (h : calculate L rows = .ret (r, out)) :
    ∃ header row1 carClass series pINum dtCell drivetrainNum adjusted topPower topTorque
      zeroTo60 zeroTo100 third fourth sixtytoZero hundredToZero topSpeed topBoost,
      rows[0]? = some header ∧ rows[1]? = some row1 ∧
      row1[(resolveStatColumns header).classLetterRow]? = some carClass ∧
      extractSeries L (resolveStatColumns header) (rows.drop 1) ⟨[], [], [], [], [], []⟩ =
        .ret series ∧
      row1[(resolveStatColumns header).classPIRow]? = some pINum ∧
      row1[(resolveStatColumns header).driveTrainRow]? = some dtCell ∧
      L.parseInt dtCell = some drivetrainNum ∧
      adjustedPowers series.g series.p = .ret adjusted ∧
      sortedLast adjusted = .ret topPower ∧
      sortedLast series.tq = .ret topTorque ∧
      intervalCell L 0 60 series.t series.s = .ret zeroTo60 ∧
      intervalCell L 0 100 series.t series.s = .ret zeroTo100 ∧
      (((carClass = "0" ∨ carClass = "1") ∧
          intervalCell L 25 75 series.t series.s = .ret third ∧
          intervalCell L 50 100 series.t series.s = .ret fourth) ∨
        (¬ (carClass = "0" ∨ carClass = "1") ∧ (carClass = "2" ∨ carClass = "3") ∧
          intervalCell L 50 100 series.t series.s = .ret third ∧
          intervalCell L 60 150 series.t series.s = .ret fourth) ∨
        (¬ (carClass = "0" ∨ carClass = "1") ∧ ¬ (carClass = "2" ∨ carClass = "3") ∧
          intervalCell L 60 150 series.t series.s = .ret third ∧
          intervalCell L 100 200 series.t series.s = .ret fourth)) ∧
      intervalCell L 60 0 series.t series.s = .ret sixtytoZero ∧
      intervalCell L 100 0 series.t series.s = .ret hundredToZero ∧
      sortedLast series.s = .ret topSpeed ∧
      sortedLast series.b = .ret topBoost ∧
      r = rows ∧
      out = [pINum, drivetrainLabel drivetrainNum, L.formatFloat topPower 0,
        L.formatFloat topTorque 0, zeroTo60, zeroTo100, third, fourth, sixtytoZero,
        hundredToZero, L.formatFloat topSpeed 2, L.formatFloat topBoost 1] := by
  simp only [calculate, Outcome.bind_eq_ret_iff, Outcome.pure_eq_ret_iff, index_eq_ret_iff,
    checked_eq_ret_iff] at h
  obtain ⟨header, hheader, row1, hrow1, carClass, hclass, series, hser, row1b, hrow1b, pINum,
    hpi, row1c, hrow1c, dtCell, hdt, n, hn, adjusted, hadj, topPower, htp, topTorque, htt,
    zeroTo60, h060, zeroTo100, h0100, hrest⟩ := h
  have e1 : row1b = row1 := by rw [hrow1] at hrow1b; exact (Option.some.inj hrow1b).symm
  have e2 : row1c = row1 := by rw [hrow1] at hrow1c; exact (Option.some.inj hrow1c).symm
  rw [e1] at hpi
  rw [e2] at hdt
  split_ifs at hrest with hc1 hc2
  · simp only [Outcome.bind_eq_ret_iff, Outcome.pure_eq_ret_iff] at hrest
    obtain ⟨third, h3, fourth, h4, y, hy, sixtytoZero, h600, hundredToZero, h1000, topSpeed,
      hts, topBoost, htb, hout⟩ := hrest
    subst hy
    simp only [Prod.mk.injEq] at hout
    exact ⟨header, row1, carClass, series, pINum, dtCell, n, adjusted, topPower, topTorque,
      zeroTo60, zeroTo100, third, fourth, sixtytoZero, hundredToZero, topSpeed, topBoost,
      hheader, hrow1, hclass, hser, hpi, hdt, hn, hadj, htp, htt, h060, h0100,
      Or.inl ⟨hc1, h3, h4⟩, h600, h1000, hts, htb, hout.1.symm, by rw [← hout.2]; rfl⟩
  · simp only [Outcome.bind_eq_ret_iff, Outcome.pure_eq_ret_iff] at hrest
    obtain ⟨third, h3, fourth, h4, y, hy, sixtytoZero, h600, hundredToZero, h1000, topSpeed,
      hts, topBoost, htb, hout⟩ := hrest
    subst hy
    simp only [Prod.mk.injEq] at hout
    exact ⟨header, row1, carClass, series, pINum, dtCell, n, adjusted, topPower, topTorque,
      zeroTo60, zeroTo100, third, fourth, sixtytoZero, hundredToZero, topSpeed, topBoost,
      hheader, hrow1, hclass, hser, hpi, hdt, hn, hadj, htp, htt, h060, h0100,
      Or.inr (Or.inl ⟨hc1, hc2, h3, h4⟩), h600, h1000, hts, htb, hout.1.symm,
      by rw [← hout.2]; rfl⟩
  · simp only [Outcome.bind_eq_ret_iff, Outcome.pure_eq_ret_iff] at hrest
    obtain ⟨third, h3, fourth, h4, y, hy, sixtytoZero, h600, hundredToZero, h1000, topSpeed,
      hts, topBoost, htb, hout⟩ := hrest
    subst hy
    simp only [Prod.mk.injEq] at hout
    exact ⟨header, row1, carClass, series, pINum, dtCell, n, adjusted, topPower, topTorque,
      zeroTo60, zeroTo100, third, fourth, sixtytoZero, hundredToZero, topSpeed, topBoost,
      hheader, hrow1, hclass, hser, hpi, hdt, hn, hadj, htp, htt, h060, h0100,
      Or.inr (Or.inr ⟨hc1, hc2, h3, h4⟩), h600, h1000, hts, htb, hout.1.symm,
      by rw [← hout.2]; rfl⟩

/-! ## The stat aggregator: claims -/

/-- C6. On `nearSixtyLog` (a header, two data rows, every cell a number) the 0-60 interval
passes the range check (60 ≤ 59.9795625 + 0.1) but no sample reaches 60.1 mph, so the
acceleration loop of `getTimeBetween` reads past the end of the series: `calculate` panics
and returns no output vector, instead of putting `"Failed!"` in the slot. -/
theorem calculate_nearSixty_panics : calculate decimalStrconv nearSixtyLog = .panic := by
  decide!

theorem intervalCell_slot (L : Strconv) (startSpeed endSpeed : ℚ) (t s : List ℚ) (x : String)
    (h : intervalCell L startSpeed endSpeed t s = .ret x) (out : List String) (i : ℕ)
    (hout : out[i]? = some x) :
    ∃ d e, getTimeBetween startSpeed endSpeed t s = .ret (d, e) ∧
      (e = none → out[i]? = some (L.formatFloat d 3)) ∧
      (e ≠ none → out[i]? = some "Failed!") := by
  unfold intervalCell at h
  cases hg : getTimeBetween startSpeed endSpeed t s with
  | ret v =>
    obtain ⟨d, e⟩ := v
    rw [hg] at h
    cases e with
    | none =>
      simp only [Outcome.ret.injEq] at h
      exact ⟨d, none, rfl, fun _ => (by rw [hout, ← h]), fun hne => absurd rfl hne⟩
    | some err =>
      simp only [Outcome.ret.injEq] at h
      exact ⟨d, some err, rfl, fun hn => (by cases hn), fun _ => (by rw [hout, ← h])⟩
  | panic => rw [hg] at h; cases h
  | fatal => rw [hg] at h; cases h

/-- C7. Output shape. Whenever `calculate` returns, the output vector has exactly 12 entries:
`[0]` the `CarPerformanceIndex` cell of the first data row, `[1]` the drivetrain label,
`[2]` the formatted greatest adjusted power, `[3]` the formatted greatest torque, `[4]` the
0-60 slot, `[5]` the 0-100 slot, `[6]` and `[7]` the two class-dependent slots (25-75 and
50-100 for `CarClass` `"0"` or `"1"`, 50-100 and 60-150 for `"2"` or `"3"`, 60-150 and
100-200 otherwise), `[8]` the 60-0 slot, `[9]` the 100-0 slot, `[10]` the formatted greatest
speed, `[11]` the formatted greatest boost. An interval slot holds the duration returned by
`getTimeBetween`, formatted to 3 decimals, or `"Failed!"` when it returns an error. -/
theorem calculate_output_shape (L : Strconv) (rows r : List (List String)) (out : List String)
    (h : calculate L rows = .ret (r, out)) :
    out.length = 12 ∧
    ∃ header row1 carClass series,
      rows[0]? = some header ∧ rows[1]? = some row1 ∧
      row1[(resolveStatColumns header).classLetterRow]? = some carClass ∧
      extractSeries L (resolveStatColumns header) (rows.drop 1) ⟨[], [], [], [], [], []⟩ =
        .ret series ∧
      (∃ pINum, row1[(resolveStatColumns header).classPIRow]? = some pINum ∧
        out[0]? = some pINum) ∧
      (∃ dtCell drivetrainNum, row1[(resolveStatColumns header).driveTrainRow]? = some dtCell ∧
        L.parseInt dtCell = some drivetrainNum ∧
        out[1]? = some (drivetrainLabel drivetrainNum)) ∧
      (∃ adjusted topPower, adjustedPowers series.g series.p = .ret adjusted ∧
        IsMaxOf topPower adjusted ∧ out[2]? = some (L.formatFloat topPower 0)) ∧
      (∃ topTorque, IsMaxOf topTorque series.tq ∧
        out[3]? = some (L.formatFloat topTorque 0)) ∧
      (∃ d e, getTimeBetween 0 60 series.t series.s = .ret (d, e) ∧
        (e = none → out[4]? = some (L.formatFloat d 3)) ∧
        (e ≠ none → out[4]? = some "Failed!")) ∧
      (∃ d e, getTimeBetween 0 100 series.t series.s = .ret (d, e) ∧
        (e = none → out[5]? = some (L.formatFloat d 3)) ∧
        (e ≠ none → out[5]? = some "Failed!")) ∧
      (((carClass = "0" ∨ carClass = "1") ∧
          (∃ d e, getTimeBetween 25 75 series.t series.s = .ret (d, e) ∧
            (e = none → out[6]? = some (L.formatFloat d 3)) ∧
            (e ≠ none → out[6]? = some "Failed!")) ∧
          (∃ d e, getTimeBetween 50 100 series.t series.s = .ret (d, e) ∧
            (e = none → out[7]? = some (L.formatFloat d 3)) ∧
            (e ≠ none → out[7]? = some "Failed!"))) ∨
        ((carClass = "2" ∨ carClass = "3") ∧
          (∃ d e, getTimeBetween 50 100 series.t series.s = .ret (d, e) ∧
            (e = none → out[6]? = some (L.formatFloat d 3)) ∧
            (e ≠ none → out[6]? = some "Failed!")) ∧
          (∃ d e, getTimeBetween 60 150 series.t series.s = .ret (d, e) ∧
            (e = none → out[7]? = some (L.formatFloat d 3)) ∧
            (e ≠ none → out[7]? = some "Failed!"))) ∨
        (¬ (carClass = "0" ∨ carClass = "1" ∨ carClass = "2" ∨ carClass = "3") ∧
          (∃ d e, getTimeBetween 60 150 series.t series.s = .ret (d, e) ∧
            (e = none → out[6]? = some (L.formatFloat d 3)) ∧
            (e ≠ none → out[6]? = some "Failed!")) ∧
          (∃ d e, getTimeBetween 100 200 series.t series.s = .ret (d, e) ∧
            (e = none → out[7]? = some (L.formatFloat d 3)) ∧
            (e ≠ none → out[7]? = some "Failed!")))) ∧
      (∃ d e, getTimeBetween 60 0 series.t series.s = .ret (d, e) ∧
        (e = none → out[8]? = some (L.formatFloat d 3)) ∧
        (e ≠ none → out[8]? = some "Failed!")) ∧
      (∃ d e, getTimeBetween 100 0 series.t series.s = .ret (d, e) ∧
        (e = none → out[9]? = some (L.formatFloat d 3)) ∧
        (e ≠ none → out[9]? = some "Failed!")) ∧
      (∃ topSpeed, IsMaxOf topSpeed series.s ∧
        out[10]? = some (L.formatFloat topSpeed 2)) ∧
      (∃ topBoost, IsMaxOf topBoost series.b ∧
        out[11]? = some (L.formatFloat topBoost 1)) := by
  obtain ⟨header, row1, carClass, series, pINum, dtCell, n, adjusted, topPower, topTorque,
    zeroTo60, zeroTo100, third, fourth, sixtytoZero, hundredToZero, topSpeed, topBoost,
    hheader, hrow1, hclass, hser, hpi, hdt, hn, hadj, htp, htt, h060, h0100, hcls, h600, h1000,
    hts, htb, -, hout⟩ := calculate_ret_inv L rows r out h
  subst hout
  refine ⟨rfl, header, row1, carClass, series, hheader, hrow1, hclass, hser,
    ⟨pINum, hpi, rfl⟩, ⟨dtCell, n, hdt, hn, rfl⟩,
    ⟨adjusted, topPower, hadj, sortedLast_isMaxOf _ _ htp, rfl⟩,
    ⟨topTorque, sortedLast_isMaxOf _ _ htt, rfl⟩,
    intervalCell_slot L 0 60 _ _ _ h060 _ 4 rfl, intervalCell_slot L 0 100 _ _ _ h0100 _ 5 rfl,
    ?_, intervalCell_slot L 60 0 _ _ _ h600 _ 8 rfl,
    intervalCell_slot L 100 0 _ _ _ h1000 _ 9 rfl,
    ⟨topSpeed, sortedLast_isMaxOf _ _ hts, rfl⟩, ⟨topBoost, sortedLast_isMaxOf _ _ htb, rfl⟩⟩
  rcases hcls with ⟨hc, h3, h4⟩ | ⟨hn01, hc, h3, h4⟩ | ⟨hn01, hn23, h3, h4⟩
  · exact Or.inl ⟨hc, intervalCell_slot L 25 75 _ _ _ h3 _ 6 rfl,
      intervalCell_slot L 50 100 _ _ _ h4 _ 7 rfl⟩
  · exact Or.inr (Or.inl ⟨hc, intervalCell_slot L 50 100 _ _ _ h3 _ 6 rfl,
      intervalCell_slot L 60 150 _ _ _ h4 _ 7 rfl⟩)
  · refine Or.inr (Or.inr ⟨?_, intervalCell_slot L 60 150 _ _ _ h3 _ 6 rfl,
      intervalCell_slot L 100 200 _ _ _ h4 _ 7 rfl⟩)
    intro hc
    rcases hc with hc | hc | hc | hc
    · exact hn01 (Or.inl hc)
    · exact hn01 (Or.inr hc)
    · exact hn23 (Or.inl hc)
    · exact hn23 (Or.inr hc)

/-- C7, on the class-2 profile log, where `calculate` returns `profileOutput2`: slot `[6]` is
the 50-100 time `2.000` and slot `[7]` the 60-150 time `1.700`. -/
theorem calculate_output_shape_witness :
    calculate decimalStrconv (profileLog "2") = .ret (profileLog "2", profileOutput2) ∧
    profileOutput2.length = 12 ∧
    ∃ header row1 carClass series,
      (profileLog "2")[0]? = some header ∧ (profileLog "2")[1]? = some row1 ∧
      row1[(resolveStatColumns header).classLetterRow]? = some carClass ∧
      extractSeries decimalStrconv (resolveStatColumns header) ((profileLog "2").drop 1) ⟨[], [], [], [], [], []⟩ =
        .ret series ∧
      (∃ pINum, row1[(resolveStatColumns header).classPIRow]? = some pINum ∧
        profileOutput2[0]? = some pINum) ∧
      (∃ dtCell drivetrainNum, row1[(resolveStatColumns header).driveTrainRow]? = some dtCell ∧
        decimalStrconv.parseInt dtCell = some drivetrainNum ∧
        profileOutput2[1]? = some (drivetrainLabel drivetrainNum)) ∧
      (∃ adjusted topPower, adjustedPowers series.g series.p = .ret adjusted ∧
        IsMaxOf topPower adjusted ∧ profileOutput2[2]? = some (decimalStrconv.formatFloat topPower 0)) ∧
      (∃ topTorque, IsMaxOf topTorque series.tq ∧
        profileOutput2[3]? = some (decimalStrconv.formatFloat topTorque 0)) ∧
      (∃ d e, getTimeBetween 0 60 series.t series.s = .ret (d, e) ∧
        (e = none → profileOutput2[4]? = some (decimalStrconv.formatFloat d 3)) ∧
        (e ≠ none → profileOutput2[4]? = some "Failed!")) ∧
      (∃ d e, getTimeBetween 0 100 series.t series.s = .ret (d, e) ∧
        (e = none → profileOutput2[5]? = some (decimalStrconv.formatFloat d 3)) ∧
        (e ≠ none → profileOutput2[5]? = some "Failed!")) ∧
      (((carClass = "0" ∨ carClass = "1") ∧
          (∃ d e, getTimeBetween 25 75 series.t series.s = .ret (d, e) ∧
            (e = none → profileOutput2[6]? = some (decimalStrconv.formatFloat d 3)) ∧
            (e ≠ none → profileOutput2[6]? = some "Failed!")) ∧
          (∃ d e, getTimeBetween 50 100 series.t series.s = .ret (d, e) ∧
            (e = none → profileOutput2[7]? = some (decimalStrconv.formatFloat d 3)) ∧
            (e ≠ none → profileOutput2[7]? = some "Failed!"))) ∨
        ((carClass = "2" ∨ carClass = "3") ∧
          (∃ d e, getTimeBetween 50 100 series.t series.s = .ret (d, e) ∧
            (e = none → profileOutput2[6]? = some (decimalStrconv.formatFloat d 3)) ∧
            (e ≠ none → profileOutput2[6]? = some "Failed!")) ∧
          (∃ d e, getTimeBetween 60 150 series.t series.s = .ret (d, e) ∧
            (e = none → profileOutput2[7]? = some (decimalStrconv.formatFloat d 3)) ∧
            (e ≠ none → profileOutput2[7]? = some "Failed!"))) ∨
        (¬ (carClass = "0" ∨ carClass = "1" ∨ carClass = "2" ∨ carClass = "3") ∧
          (∃ d e, getTimeBetween 60 150 series.t series.s = .ret (d, e) ∧
            (e = none → profileOutput2[6]? = some (decimalStrconv.formatFloat d 3)) ∧
            (e ≠ none → profileOutput2[6]? = some "Failed!")) ∧
          (∃ d e, getTimeBetween 100 200 series.t series.s = .ret (d, e) ∧
            (e = none → profileOutput2[7]? = some (decimalStrconv.formatFloat d 3)) ∧
            (e ≠ none → profileOutput2[7]? = some "Failed!")))) ∧
      (∃ d e, getTimeBetween 60 0 series.t series.s = .ret (d, e) ∧
        (e = none → profileOutput2[8]? = some (decimalStrconv.formatFloat d 3)) ∧
        (e ≠ none → profileOutput2[8]? = some "Failed!")) ∧
      (∃ d e, getTimeBetween 100 0 series.t series.s = .ret (d, e) ∧
        (e = none → profileOutput2[9]? = some (decimalStrconv.formatFloat d 3)) ∧
        (e ≠ none → profileOutput2[9]? = some "Failed!")) ∧
      (∃ topSpeed, IsMaxOf topSpeed series.s ∧
        profileOutput2[10]? = some (decimalStrconv.formatFloat topSpeed 2)) ∧
      (∃ topBoost, IsMaxOf topBoost series.b ∧
        profileOutput2[11]? = some (decimalStrconv.formatFloat topBoost 1)) :=
  ⟨by decide!,
    calculate_output_shape decimalStrconv (profileLog "2") (profileLog "2") profileOutput2
      (by decide!)⟩

/-- C8. Class-dependent intervals. Whenever `calculate` returns, with `carClass` the
`CarClass` cell of the first data row: slots `[6]` and `[7]` hold the 25-75 and 50-100
intervals when `carClass` is `"0"` or `"1"`, the 50-100 and 60-150 intervals when it is `"2"`
or `"3"`, and the 60-150 and 100-200 intervals for every other value; the slot of an interval
holds the duration that `getTimeBetween` returns for it on the extracted time and speed
series, formatted to 3 decimals, or `"Failed!"` when `getTimeBetween` returns an error. -/
theorem calculate_class_intervals (L : Strconv) (rows r : List (List String))
    (out : List String) (h : calculate L rows = .ret (r, out)) :
    ∃ header row1 carClass series,
      rows[0]? = some header ∧ rows[1]? = some row1 ∧
      row1[(resolveStatColumns header).classLetterRow]? = some carClass ∧
      extractSeries L (resolveStatColumns header) (rows.drop 1) ⟨[], [], [], [], [], []⟩ =
        .ret series ∧
      ((carClass = "0" ∨ carClass = "1") →
        (∃ d e, getTimeBetween 25 75 series.t series.s = .ret (d, e) ∧
          (e = none → out[6]? = some (L.formatFloat d 3)) ∧
          (e ≠ none → out[6]? = some "Failed!")) ∧
        (∃ d e, getTimeBetween 50 100 series.t series.s = .ret (d, e) ∧
          (e = none → out[7]? = some (L.formatFloat d 3)) ∧
          (e ≠ none → out[7]? = some "Failed!"))) ∧
      ((carClass = "2" ∨ carClass = "3") →
        (∃ d e, getTimeBetween 50 100 series.t series.s = .ret (d, e) ∧
          (e = none → out[6]? = some (L.formatFloat d 3)) ∧
          (e ≠ none → out[6]? = some "Failed!")) ∧
        (∃ d e, getTimeBetween 60 150 series.t series.s = .ret (d, e) ∧
          (e = none → out[7]? = some (L.formatFloat d 3)) ∧
          (e ≠ none → out[7]? = some "Failed!"))) ∧
      (¬ (carClass = "0" ∨ carClass = "1" ∨ carClass = "2" ∨ carClass = "3") →
        (∃ d e, getTimeBetween 60 150 series.t series.s = .ret (d, e) ∧
          (e = none → out[6]? = some (L.formatFloat d 3)) ∧
          (e ≠ none → out[6]? = some "Failed!")) ∧
        (∃ d e, getTimeBetween 100 200 series.t series.s = .ret (d, e) ∧
          (e = none → out[7]? = some (L.formatFloat d 3)) ∧
          (e ≠ none → out[7]? = some "Failed!"))) := by
  obtain ⟨header, row1, carClass, series, pINum, dtCell, n, adjusted, topPower, topTorque,
    zeroTo60, zeroTo100, third, fourth, sixtytoZero, hundredToZero, topSpeed, topBoost,
    hheader, hrow1, hclass, hser, -, -, -, -, -, -, -, -, hcls, -, -, -, -, -, hout⟩ :=
    calculate_ret_inv L rows r out h
  subst hout
  refine ⟨header, row1, carClass, series, hheader, hrow1, hclass, hser, ?_, ?_, ?_⟩
  · intro hc
    rcases hcls with ⟨_, h3, h4⟩ | ⟨hn, _⟩ | ⟨hn, _⟩
    · exact ⟨intervalCell_slot L 25 75 _ _ _ h3 _ 6 rfl,
        intervalCell_slot L 50 100 _ _ _ h4 _ 7 rfl⟩
    · exact absurd hc hn
    · exact absurd hc hn
  · intro hc
    rcases hcls with ⟨h01, _⟩ | ⟨_, _, h3, h4⟩ | ⟨_, hn, _⟩
    · exfalso
      rcases hc with rfl | rfl <;> rcases h01 with h | h <;> exact absurd h (by decide)
    · exact ⟨intervalCell_slot L 50 100 _ _ _ h3 _ 6 rfl,
        intervalCell_slot L 60 150 _ _ _ h4 _ 7 rfl⟩
    · exact absurd hc hn
  · intro hc
    rcases hcls with ⟨h01, _⟩ | ⟨_, h23, _⟩ | ⟨_, _, h3, h4⟩
    · exact absurd (by tauto) hc
    · exact absurd (by tauto) hc
    · exact ⟨intervalCell_slot L 60 150 _ _ _ h3 _ 6 rfl,
        intervalCell_slot L 100 200 _ _ _ h4 _ 7 rfl⟩

/-- C8, on the profile log with `CarClass` `"0"`, `"2"` and `"5"`: the same nine samples give
the slots `1.500`, `2.000` (25-75, 50-100), then `2.000`, `1.700` (50-100, 60-150), then
`1.700`, `3.000` (60-150, 100-200). -/
theorem calculate_class_intervals_witness :
    (calculate decimalStrconv (profileLog "0") = .ret (profileLog "0", profileOutput0) ∧
      profileOutput0[6]? = some "1.500" ∧ profileOutput0[7]? = some "2.000" ∧
      (∃ header row1 carClass series,
      (profileLog "0")[0]? = some header ∧ (profileLog "0")[1]? = some row1 ∧
      row1[(resolveStatColumns header).classLetterRow]? = some carClass ∧
      extractSeries decimalStrconv (resolveStatColumns header) ((profileLog "0").drop 1) ⟨[], [], [], [], [], []⟩ =
        .ret series ∧
      ((carClass = "0" ∨ carClass = "1") →
        (∃ d e, getTimeBetween 25 75 series.t series.s = .ret (d, e) ∧
          (e = none → profileOutput0[6]? = some (decimalStrconv.formatFloat d 3)) ∧
          (e ≠ none → profileOutput0[6]? = some "Failed!")) ∧
        (∃ d e, getTimeBetween 50 100 series.t series.s = .ret (d, e) ∧
          (e = none → profileOutput0[7]? = some (decimalStrconv.formatFloat d 3)) ∧
          (e ≠ none → profileOutput0[7]? = some "Failed!"))) ∧
      ((carClass = "2" ∨ carClass = "3") →
        (∃ d e, getTimeBetween 50 100 series.t series.s = .ret (d, e) ∧
          (e = none → profileOutput0[6]? = some (decimalStrconv.formatFloat d 3)) ∧
          (e ≠ none → profileOutput0[6]? = some "Failed!")) ∧
        (∃ d e, getTimeBetween 60 150 series.t series.s = .ret (d, e) ∧
          (e = none → profileOutput0[7]? = some (decimalStrconv.formatFloat d 3)) ∧
          (e ≠ none → profileOutput0[7]? = some "Failed!"))) ∧
      (¬ (carClass = "0" ∨ carClass = "1" ∨ carClass = "2" ∨ carClass = "3") →
        (∃ d e, getTimeBetween 60 150 series.t series.s = .ret (d, e) ∧
          (e = none → profileOutput0[6]? = some (decimalStrconv.formatFloat d 3)) ∧
          (e ≠ none → profileOutput0[6]? = some "Failed!")) ∧
        (∃ d e, getTimeBetween 100 200 series.t series.s = .ret (d, e) ∧
          (e = none → profileOutput0[7]? = some (decimalStrconv.formatFloat d 3)) ∧
          (e ≠ none → profileOutput0[7]? = some "Failed!"))))) ∧
    (calculate decimalStrconv (profileLog "2") = .ret (profileLog "2", profileOutput2) ∧
      profileOutput2[6]? = some "2.000" ∧ profileOutput2[7]? = some "1.700" ∧
      (∃ header row1 carClass series,
      (profileLog "2")[0]? = some header ∧ (profileLog "2")[1]? = some row1 ∧
      row1[(resolveStatColumns header).classLetterRow]? = some carClass ∧
      extractSeries decimalStrconv (resolveStatColumns header) ((profileLog "2").drop 1) ⟨[], [], [], [], [], []⟩ =
        .ret series ∧
      ((carClass = "0" ∨ carClass = "1") →
        (∃ d e, getTimeBetween 25 75 series.t series.s = .ret (d, e) ∧
          (e = none → profileOutput2[6]? = some (decimalStrconv.formatFloat d 3)) ∧
          (e ≠ none → profileOutput2[6]? = some "Failed!")) ∧
        (∃ d e, getTimeBetween 50 100 series.t series.s = .ret (d, e) ∧
          (e = none → profileOutput2[7]? = some (decimalStrconv.formatFloat d 3)) ∧
          (e ≠ none → profileOutput2[7]? = some "Failed!"))) ∧
      ((carClass = "2" ∨ carClass = "3") →
        (∃ d e, getTimeBetween 50 100 series.t series.s = .ret (d, e) ∧
          (e = none → profileOutput2[6]? = some (decimalStrconv.formatFloat d 3)) ∧
          (e ≠ none → profileOutput2[6]? = some "Failed!")) ∧
        (∃ d e, getTimeBetween 60 150 series.t series.s = .ret (d, e) ∧
          (e = none → profileOutput2[7]? = some (decimalStrconv.formatFloat d 3)) ∧
          (e ≠ none → profileOutput2[7]? = some "Failed!"))) ∧
      (¬ (carClass = "0" ∨ carClass = "1" ∨ carClass = "2" ∨ carClass = "3") →
        (∃ d e, getTimeBetween 60 150 series.t series.s = .ret (d, e) ∧
          (e = none → profileOutput2[6]? = some (decimalStrconv.formatFloat d 3)) ∧
          (e ≠ none → profileOutput2[6]? = some "Failed!")) ∧
        (∃ d e, getTimeBetween 100 200 series.t series.s = .ret (d, e) ∧
          (e = none → profileOutput2[7]? = some (decimalStrconv.formatFloat d 3)) ∧
          (e ≠ none → profileOutput2[7]? = some "Failed!"))))) ∧
    (calculate decimalStrconv (profileLog "5") = .ret (profileLog "5", profileOutput5) ∧
      profileOutput5[6]? = some "1.700" ∧ profileOutput5[7]? = some "3.000" ∧
      (∃ header row1 carClass series,
      (profileLog "5")[0]? = some header ∧ (profileLog "5")[1]? = some row1 ∧
      row1[(resolveStatColumns header).classLetterRow]? = some carClass ∧
      extractSeries decimalStrconv (resolveStatColumns header) ((profileLog "5").drop 1) ⟨[], [], [], [], [], []⟩ =
        .ret series ∧
      ((carClass = "0" ∨ carClass = "1") →
        (∃ d e, getTimeBetween 25 75 series.t series.s = .ret (d, e) ∧
          (e = none → profileOutput5[6]? = some (decimalStrconv.formatFloat d 3)) ∧
          (e ≠ none → profileOutput5[6]? = some "Failed!")) ∧
        (∃ d e, getTimeBetween 50 100 series.t series.s = .ret (d, e) ∧
          (e = none → profileOutput5[7]? = some (decimalStrconv.formatFloat d 3)) ∧
          (e ≠ none → profileOutput5[7]? = some "Failed!"))) ∧
      ((carClass = "2" ∨ carClass = "3") →
        (∃ d e, getTimeBetween 50 100 series.t series.s = .ret (d, e) ∧
          (e = none → profileOutput5[6]? = some (decimalStrconv.formatFloat d 3)) ∧
          (e ≠ none → profileOutput5[6]? = some "Failed!")) ∧
        (∃ d e, getTimeBetween 60 150 series.t series.s = .ret (d, e) ∧
          (e = none → profileOutput5[7]? = some (decimalStrconv.formatFloat d 3)) ∧
          (e ≠ none → profileOutput5[7]? = some "Failed!"))) ∧
      (¬ (carClass = "0" ∨ carClass = "1" ∨ carClass = "2" ∨ carClass = "3") →
        (∃ d e, getTimeBetween 60 150 series.t series.s = .ret (d, e) ∧
          (e = none → profileOutput5[6]? = some (decimalStrconv.formatFloat d 3)) ∧
          (e ≠ none → profileOutput5[6]? = some "Failed!")) ∧
        (∃ d e, getTimeBetween 100 200 series.t series.s = .ret (d, e) ∧
          (e = none → profileOutput5[7]? = some (decimalStrconv.formatFloat d 3)) ∧
          (e ≠ none → profileOutput5[7]? = some "Failed!"))))) :=
  ⟨⟨by decide!, rfl, rfl,
      calculate_class_intervals decimalStrconv (profileLog "0") (profileLog "0")
        profileOutput0 (by decide!)⟩,
    ⟨by decide!, rfl, rfl,
      calculate_class_intervals decimalStrconv (profileLog "2") (profileLog "2")
        profileOutput2 (by decide!)⟩,
    ⟨by decide!, rfl, rfl,
      calculate_class_intervals decimalStrconv (profileLog "5") (profileLog "5")
        profileOutput5 (by decide!)⟩⟩

/-- C9. On gears `[0, 1, 2]` (not constant, but summing to the sample count 3) and powers
`[10, 500, 20]`, the samples whose gear is not `1` have powers `[10, 20]` with maximum `20`,
yet the adjusted list holds every power and the peak is `500`, the power of the gear-1
sample; on `mixedGearLog` slot `[2]` of the output is `"671"` (500000 W), not `"27"`
(20000 W). -/
theorem peakPower_includes_first_gear :
    otherGearPowers [0, 1, 2] [10, 500, 20] = [10, 20] ∧ IsMaxOf 20 [10, 20] ∧
      adjustedPowers [0, 1, 2] [10, 500, 20] = .ret [10, 500, 20, 10, 20] ∧
      sortedLast [10, 500, 20, 10, 20] = .ret 500 ∧
      (∃ out, calculate decimalStrconv mixedGearLog = .ret (mixedGearLog, out) ∧
        out[2]? = some "671" ∧
        decimalStrconv.formatFloat (20000 * 0.0013410220888) 0 = "27") := by
  refine ⟨by decide!, by norm_num [IsMaxOf], by decide!, by decide!, ?_⟩
  refine ⟨["700", "RWD", "671", "221", "Failed!", "Failed!", "Failed!", "Failed!", "Failed!",
    "Failed!", "44.74", "1.5"], by decide!, rfl, by decide!⟩

/-! ## Further claims on `getTimeBetween` -/

/-- C11. With speeds `[0, 60]` the speed `60` is reachable (it is the greatest sample), but
`getTimeBetween(60, 60, [0, 1], [0, 60])` passes the range check, finds no sample at or above
`60.1` and reads `speedValues[2]`: the call panics instead of returning the duration `0`. -/
theorem getTimeBetween_degenerate_panics :
    IsMinOf 0 [0, 60] ∧ IsMaxOf 60 [0, 60] ∧ (0 : ℚ) ≤ 60 ∧ (60 : ℚ) ≤ 60 ∧
      getTimeBetween 60 60 [0, 1] [0, 60] = .panic := by
  refine ⟨by norm_num [IsMinOf], by norm_num [IsMaxOf], by norm_num, le_refl _, ?_⟩
  norm_num [getTimeBetween, sortFloat64s, outsideRange, scanTimes, accelLoop]

/-- C18. Length precondition. When the two series have different lengths, `getTimeBetween`
returns the value `0` with the length-mismatch error, whatever the two speeds are. -/
theorem getTimeBetween_lengthMismatch (startSpeed endSpeed : ℚ)
    (timeValues speedValues : List ℚ) (hlen : timeValues.length ≠ speedValues.length) :
    getTimeBetween startSpeed endSpeed timeValues speedValues =
      .ret (0, some .lengthMismatch) := by
  unfold getTimeBetween
  rw [if_pos hlen]

/-- C18, at a concrete call: two times, no speed. -/
theorem getTimeBetween_lengthMismatch_witness :
    getTimeBetween 0 60 [0, 1] [] = .ret (0, some .lengthMismatch) :=
  getTimeBetween_lengthMismatch 0 60 [0, 1] [] (by decide)

/-! ## Empty logs and time formatting -/

/-- C14. On every log made of the header row only, neither computation reports an
empty-input failure: `calcRaceStats` passes its `len(rows) < 1` guard and panics on
`bl[len(bl)-1]`, and `calcstats` returns the empty output vector. The guard of
`calcRaceStats` stops only the log with no row at all. -/
theorem headerOnly_no_failure (L : Strconv) (header : List String) :
    calcRaceStats L [header] = .panic ∧ calcstats L [header] = .ret [] ∧
      calcRaceStats L [] = .fatal := by
  refine ⟨?_, ?_, ?_⟩
  · have hidx : index [header] 0 = .ret header := by simp [index]
    unfold calcRaceStats
    rw [if_neg (by simp), hidx]
    rfl
  · unfold calcstats
    rw [if_neg (by simp)]
    rfl
  · unfold calcRaceStats
    rw [if_pos (by simp)]

/-- C19. On `shortSecondsLog` (best lap 65.5 s, fourth sector 65.075 s) the best-lap string
is `"01:5.500"`, not `"01:05.500"`, and the sector strings are `"00:0:00.000"` and
`"00:1:5.075"`, not `"00:00:00.000"` and `"00:01:05.075"`: the seconds are padded only when
the formatted text has length 1 (never, with three decimals) or when they are below 1, and
the sector minutes are not padded at all. -/
theorem calcRaceStats_unpadded :
    calcRaceStats decimalStrconv shortSecondsLog =
      .ret ("01:5.500", "111.85",
        ["00:0:00.000", "00:0:00.000", "00:0:00.000", "00:1:5.075"]) := by
  decide!

/-! ## Column resolution -/

/-- A header loop whose body sets the field `get` to `k` exactly on the entry `name` leaves in
that field the position of the last occurrence of `name`, or its initial value. -/
theorem foldl_resolve {σ : Type} (step : σ → ℕ → String → σ) (get : σ → ℕ) (name : String)
    (hstep : ∀ c k v, get (step c k v) = if v = name then k else get c) :
    ∀ (header : List String) (n : ℕ) (c : σ),
      (name ∈ header → ∃ k, IsLastOccurrence k name header ∧
        get ((header.enumFrom n).foldl (fun c kv => step c kv.1 kv.2) c) = n + k) ∧
      (name ∉ header →
        get ((header.enumFrom n).foldl (fun c kv => step c kv.1 kv.2) c) = get c) := by
  intro header
  induction header with
  | nil =>
    intro n c
    exact ⟨fun h => absurd h (List.not_mem_nil _), fun _ => rfl⟩
  | cons v vs ih =>
    intro n c
    obtain ⟨ih1, ih2⟩ := ih (n + 1) (step c n v)
    simp only [List.enumFrom_cons, List.foldl_cons]
    by_cases hvs : name ∈ vs
    · obtain ⟨k, ⟨hk1, hk2⟩, hget⟩ := ih1 hvs
      refine ⟨fun _ => ⟨k + 1, ⟨by simpa using hk1, ?_⟩, by rw [hget]; omega⟩,
        fun h => absurd (List.mem_cons_of_mem _ hvs) h⟩
      intro j hj
      cases j with
      | zero => omega
      | succ j2 =>
        simp only [List.getElem?_cons_succ]
        exact hk2 j2 (by omega)
    · have hget := ih2 hvs
      rw [hstep] at hget
      by_cases hv : v = name
      · rw [if_pos hv] at hget
        refine ⟨fun _ => ⟨0, ⟨by simp [hv], ?_⟩, by rw [hget]; rfl⟩,
          fun h => absurd (hv ▸ List.mem_cons_self _ _) h⟩
        intro j hj
        cases j with
        | zero => omega
        | succ j2 =>
          simp only [List.getElem?_cons_succ]
          intro hj2
          exact hvs (List.getElem?_mem hj2)
      · rw [if_neg hv] at hget
        refine ⟨fun h => ?_, fun _ => hget⟩
        rcases List.mem_cons.mp h with h | h
        · exact absurd h.symm hv
        · exact absurd h hvs

theorem resolvesTo_of_step {σ : Type} (step : σ → ℕ → String → σ) (get : σ → ℕ)
    (name : String) (init : σ) (hinit : get init = 0)
    (hstep : ∀ c k v, get (step c k v) = if v = name then k else get c)
    (header : List String) :
    ResolvesTo (get (header.enum.foldl (fun c kv => step c kv.1 kv.2) init)) name header := by
  obtain ⟨h1, h2⟩ := foldl_resolve step get name hstep header 0 init
  constructor
  · intro h
    obtain ⟨k, hk, hget⟩ := h1 h
    have : get (header.enum.foldl (fun c kv => step c kv.1 kv.2) init) = k := by
      rw [List.enum]
      rw [hget]
      omega
    rw [this]
    exact hk
  · intro h
    rw [List.enum, h2 h, hinit]

theorem resolveStep_speedRow (c : StatColumns) (k : ℕ) (v : String) :
    (resolveStep c k v).speedRow = if v = "Speed" then k else c.speedRow := by
  unfold resolveStep
  split_ifs <;> simp_all

theorem resolveStep_boostRow (c : StatColumns) (k : ℕ) (v : String) :
    (resolveStep c k v).boostRow = if v = "Boost" then k else c.boostRow := by
  unfold resolveStep
  split_ifs <;> simp_all

theorem resolveStep_classPIRow (c : StatColumns) (k : ℕ) (v : String) :
    (resolveStep c k v).classPIRow = if v = "CarPerformanceIndex" then k else c.classPIRow := by
  unfold resolveStep
  split_ifs <;> simp_all

theorem resolveStep_driveTrainRow (c : StatColumns) (k : ℕ) (v : String) :
    (resolveStep c k v).driveTrainRow = if v = "DrivetrainType" then k else c.driveTrainRow := by
  unfold resolveStep
  split_ifs <;> simp_all

theorem resolveStep_powerRow (c : StatColumns) (k : ℕ) (v : String) :
    (resolveStep c k v).powerRow = if v = "Power" then k else c.powerRow := by
  unfold resolveStep
  split_ifs <;> simp_all

theorem resolveStep_torqueRow (c : StatColumns) (k : ℕ) (v : String) :
    (resolveStep c k v).torqueRow = if v = "Torque" then k else c.torqueRow := by
  unfold resolveStep
  split_ifs <;> simp_all

theorem resolveStep_timeRow (c : StatColumns) (k : ℕ) (v : String) :
    (resolveStep c k v).timeRow = if v = "TimestampMS" then k else c.timeRow := by
  unfold resolveStep
  split_ifs <;> simp_all

theorem resolveStep_gearRow (c : StatColumns) (k : ℕ) (v : String) :
    (resolveStep c k v).gearRow = if v = "Gear" then k else c.gearRow := by
  unfold resolveStep
  split_ifs <;> simp_all

theorem resolveStep_classLetterRow (c : StatColumns) (k : ℕ) (v : String) :
    (resolveStep c k v).classLetterRow = if v = "CarClass" then k else c.classLetterRow := by
  unfold resolveStep
  split_ifs <;> simp_all

theorem resolveRaceStep_bestLapRow (c : RaceColumns) (k : ℕ) (v : String) :
    (resolveRaceStep c k v).bestLapRow = if v = "BestLap" then k else c.bestLapRow := by
  unfold resolveRaceStep
  split_ifs <;> simp_all

theorem resolveRaceStep_currentLapRow (c : RaceColumns) (k : ℕ) (v : String) :
    (resolveRaceStep c k v).currentLapRow = if v = "CurrentLap" then k else c.currentLapRow := by
  unfold resolveRaceStep
  split_ifs <;> simp_all

theorem resolveRaceStep_distanceRow (c : RaceColumns) (k : ℕ) (v : String) :
    (resolveRaceStep c k v).distanceRow = if v = "DistanceTraveled" then k else c.distanceRow := by
  unfold resolveRaceStep
  split_ifs <;> simp_all

theorem resolveRaceStep_lapNumRow (c : RaceColumns) (k : ℕ) (v : String) :
    (resolveRaceStep c k v).lapNumRow = if v = "LapNumber" then k else c.lapNumRow := by
  unfold resolveRaceStep
  split_ifs <;> simp_all

theorem resolveRaceStep_speedRow (c : RaceColumns) (k : ℕ) (v : String) :
    (resolveRaceStep c k v).speedRow = if v = "Speed" then k else c.speedRow := by
  unfold resolveRaceStep
  split_ifs <;> simp_all

theorem resolveStatColumns_speedRow (header : List String) :
    ResolvesTo (resolveStatColumns header).speedRow "Speed" header :=
  resolvesTo_of_step resolveStep StatColumns.speedRow "Speed" ⟨0, 0, 0, 0, 0, 0, 0, 0, 0⟩ rfl
    resolveStep_speedRow header

theorem resolveStatColumns_boostRow (header : List String) :
    ResolvesTo (resolveStatColumns header).boostRow "Boost" header :=
  resolvesTo_of_step resolveStep StatColumns.boostRow "Boost" ⟨0, 0, 0, 0, 0, 0, 0, 0, 0⟩ rfl
    resolveStep_boostRow header

theorem resolveStatColumns_classPIRow (header : List String) :
    ResolvesTo (resolveStatColumns header).classPIRow "CarPerformanceIndex" header :=
  resolvesTo_of_step resolveStep StatColumns.classPIRow "CarPerformanceIndex" ⟨0, 0, 0, 0, 0, 0, 0, 0, 0⟩ rfl
    resolveStep_classPIRow header

theorem resolveStatColumns_driveTrainRow (header : List String) :
    ResolvesTo (resolveStatColumns header).driveTrainRow "DrivetrainType" header :=
  resolvesTo_of_step resolveStep StatColumns.driveTrainRow "DrivetrainType" ⟨0, 0, 0, 0, 0, 0, 0, 0, 0⟩ rfl
    resolveStep_driveTrainRow header

theorem resolveStatColumns_powerRow (header : List String) :
    ResolvesTo (resolveStatColumns header).powerRow "Power" header :=
  resolvesTo_of_step resolveStep StatColumns.powerRow "Power" ⟨0, 0, 0, 0, 0, 0, 0, 0, 0⟩ rfl
    resolveStep_powerRow header

theorem resolveStatColumns_torqueRow (header : List String) :
    ResolvesTo (resolveStatColumns header).torqueRow "Torque" header :=
  resolvesTo_of_step resolveStep StatColumns.torqueRow "Torque" ⟨0, 0, 0, 0, 0, 0, 0, 0, 0⟩ rfl
    resolveStep_torqueRow header

theorem resolveStatColumns_timeRow (header : List String) :
    ResolvesTo (resolveStatColumns header).timeRow "TimestampMS" header :=
  resolvesTo_of_step resolveStep StatColumns.timeRow "TimestampMS" ⟨0, 0, 0, 0, 0, 0, 0, 0, 0⟩ rfl
    resolveStep_timeRow header

theorem resolveStatColumns_gearRow (header : List String) :
    ResolvesTo (resolveStatColumns header).gearRow "Gear" header :=
  resolvesTo_of_step resolveStep StatColumns.gearRow "Gear" ⟨0, 0, 0, 0, 0, 0, 0, 0, 0⟩ rfl
    resolveStep_gearRow header

theorem resolveStatColumns_classLetterRow (header : List String) :
    ResolvesTo (resolveStatColumns header).classLetterRow "CarClass" header :=
  resolvesTo_of_step resolveStep StatColumns.classLetterRow "CarClass" ⟨0, 0, 0, 0, 0, 0, 0, 0, 0⟩ rfl
    resolveStep_classLetterRow header

theorem resolveRaceColumns_bestLapRow (header : List String) :
    ResolvesTo (resolveRaceColumns header).bestLapRow "BestLap" header :=
  resolvesTo_of_step resolveRaceStep RaceColumns.bestLapRow "BestLap" ⟨0, 0, 0, 0, 0⟩ rfl
    resolveRaceStep_bestLapRow header

theorem resolveRaceColumns_currentLapRow (header : List String) :
    ResolvesTo (resolveRaceColumns header).currentLapRow "CurrentLap" header :=
  resolvesTo_of_step resolveRaceStep RaceColumns.currentLapRow "CurrentLap" ⟨0, 0, 0, 0, 0⟩ rfl
    resolveRaceStep_currentLapRow header

theorem resolveRaceColumns_distanceRow (header : List String) :
    ResolvesTo (resolveRaceColumns header).distanceRow "DistanceTraveled" header :=
  resolvesTo_of_step resolveRaceStep RaceColumns.distanceRow "DistanceTraveled" ⟨0, 0, 0, 0, 0⟩ rfl
    resolveRaceStep_distanceRow header

theorem resolveRaceColumns_lapNumRow (header : List String) :
    ResolvesTo (resolveRaceColumns header).lapNumRow "LapNumber" header :=
  resolvesTo_of_step resolveRaceStep RaceColumns.lapNumRow "LapNumber" ⟨0, 0, 0, 0, 0⟩ rfl
    resolveRaceStep_lapNumRow header

theorem resolveRaceColumns_speedRow (header : List String) :
    ResolvesTo (resolveRaceColumns header).speedRow "Speed" header :=
  resolvesTo_of_step resolveRaceStep RaceColumns.speedRow "Speed" ⟨0, 0, 0, 0, 0⟩ rfl
    resolveRaceStep_speedRow header

/-- C15. Column resolution. For every header, each of the nine indices resolved by
`calculate` and each of the five indices resolved by `calcRaceStats` is the position of the
last occurrence of its field name in the header when the name occurs, and `0` when it does
not; a header entry that is not a recognized name changes no resolved index. -/
theorem column_resolution (header : List String) :
    (ResolvesTo (resolveStatColumns header).speedRow "Speed" header ∧
    ResolvesTo (resolveStatColumns header).boostRow "Boost" header ∧
    ResolvesTo (resolveStatColumns header).classPIRow "CarPerformanceIndex" header ∧
    ResolvesTo (resolveStatColumns header).driveTrainRow "DrivetrainType" header ∧
    ResolvesTo (resolveStatColumns header).powerRow "Power" header ∧
    ResolvesTo (resolveStatColumns header).torqueRow "Torque" header ∧
    ResolvesTo (resolveStatColumns header).timeRow "TimestampMS" header ∧
    ResolvesTo (resolveStatColumns header).gearRow "Gear" header ∧
    ResolvesTo (resolveStatColumns header).classLetterRow "CarClass" header) ∧
    (ResolvesTo (resolveRaceColumns header).bestLapRow "BestLap" header ∧
    ResolvesTo (resolveRaceColumns header).currentLapRow "CurrentLap" header ∧
    ResolvesTo (resolveRaceColumns header).distanceRow "DistanceTraveled" header ∧
    ResolvesTo (resolveRaceColumns header).lapNumRow "LapNumber" header ∧
    ResolvesTo (resolveRaceColumns header).speedRow "Speed" header) ∧
    (∀ (c : StatColumns) (k : ℕ) (v : String),
      v ∉ ["Speed", "Boost", "CarPerformanceIndex", "DrivetrainType", "Power", "Torque",
        "TimestampMS", "Gear", "CarClass"] →
      resolveStep c k v = c) ∧
    (∀ (c : RaceColumns) (k : ℕ) (v : String),
      v ∉ ["BestLap", "CurrentLap", "DistanceTraveled", "LapNumber", "Speed"] →
      resolveRaceStep c k v = c) := by
  refine ⟨⟨resolveStatColumns_speedRow header, resolveStatColumns_boostRow header, resolveStatColumns_classPIRow header, resolveStatColumns_driveTrainRow header, resolveStatColumns_powerRow header, resolveStatColumns_torqueRow header, resolveStatColumns_timeRow header, resolveStatColumns_gearRow header, resolveStatColumns_classLetterRow header⟩,
    ⟨resolveRaceColumns_bestLapRow header, resolveRaceColumns_currentLapRow header, resolveRaceColumns_distanceRow header, resolveRaceColumns_lapNumRow header, resolveRaceColumns_speedRow header⟩, ?_, ?_⟩
  · intro c k v hv
    simp only [List.mem_cons, List.mem_singleton, List.not_mem_nil, or_false, not_or] at hv
    obtain ⟨h1, h2, h3, h4, h5, h6, h7, h8, h9⟩ := hv
    unfold resolveStep
    simp only [h1, h2, h3, h4, h5, h6, h7, h8, h9, if_false]
  · intro c k v hv
    simp only [List.mem_cons, List.mem_singleton, List.not_mem_nil, or_false, not_or] at hv
    obtain ⟨h1, h2, h3, h4, h5⟩ := hv
    unfold resolveRaceStep
    simp only [h1, h2, h3, h4, h5, if_false]

/-- C15, on a header with two `Speed` columns: the later one is resolved. -/
theorem column_resolution_witness :
    ResolvesTo (resolveStatColumns ["Speed", "Gear", "Speed"]).speedRow "Speed"
      ["Speed", "Gear", "Speed"] :=
  (column_resolution ["Speed", "Gear", "Speed"]).1.1

/-! ## Series extraction -/

theorem aligned_of_forall₂ (derive : List String → Option ℚ) (data : List (List String))
    (xs : List ℚ) (h : List.Forall₂ (fun row v => derive row = some v) data xs) :
    Aligned derive data xs := by
  induction h with
  | nil => exact ⟨rfl, fun i row hi => by simp at hi⟩
  | @cons row v rows vs hrv _ ih =>
    obtain ⟨hl, hi⟩ := ih
    refine ⟨by simp [hl], ?_⟩
    intro i r hr
    cases i with
    | zero =>
      simp only [List.getElem?_cons_zero, Option.some.injEq] at hr
      subst hr
      exact ⟨v, hrv, by simp⟩
    | succ j =>
      simp only [List.getElem?_cons_succ] at hr
      obtain ⟨w, hw1, hw2⟩ := hi j r hr
      exact ⟨w, hw1, by simpa using hw2⟩

theorem cellValue_eq_some_iff (L : Strconv) (row : List String) (col : ℕ) (v : ℚ) :
    cellValue L row col = some v ↔ ∃ cell, row[col]? = some cell ∧ L.parseFloat cell = some v := by
  unfold cellValue
  cases row[col]? with
  | none => simp
  | some cell => simp

theorem extractRow_eq_ret_iff (L : Strconv) (c : StatColumns) (row : List String)
    (acc s : Series) :
    extractRow L c row acc = .ret s ↔
      ∃ time power torque speed boost gear,
        cellValue L row c.timeRow = some time ∧ cellValue L row c.powerRow = some power ∧
        cellValue L row c.torqueRow = some torque ∧ cellValue L row c.speedRow = some speed ∧
        cellValue L row c.boostRow = some boost ∧ cellValue L row c.gearRow = some gear ∧
        s = { t := acc.t ++ [time / 1000], s := acc.s ++ [speed * 2.237],
              b := acc.b ++ [boost], p := acc.p ++ [power * 0.0013410220888],
              tq := acc.tq ++ [torque * 0.7375621493], g := acc.g ++ [gear] } := by
  simp only [extractRow, Outcome.bind_eq_ret_iff, Outcome.pure_eq_ret_iff, index_eq_ret_iff,
    checked_eq_ret_iff, cellValue_eq_some_iff]
  constructor
  · rintro ⟨a1, h1, time, h2, a3, h3, power, h4, a5, h5, torque, h6, a7, h7, speed, h8, a9,
      h9, boost, h10, a11, h11, gear, h12, hs⟩
    exact ⟨time, power, torque, speed, boost, gear, ⟨a1, h1, h2⟩, ⟨a3, h3, h4⟩, ⟨a5, h5, h6⟩,
      ⟨a7, h7, h8⟩, ⟨a9, h9, h10⟩, ⟨a11, h11, h12⟩, hs.symm⟩
  · rintro ⟨time, power, torque, speed, boost, gear, ⟨a1, h1, h2⟩, ⟨a3, h3, h4⟩, ⟨a5, h5, h6⟩,
      ⟨a7, h7, h8⟩, ⟨a9, h9, h10⟩, ⟨a11, h11, h12⟩, hs⟩
    exact ⟨a1, h1, time, h2, a3, h3, power, h4, a5, h5, torque, h6, a7, h7, speed, h8, a9,
      h9, boost, h10, a11, h11, gear, h12, hs.symm⟩

theorem extractSeries_spec (L : Strconv) (c : StatColumns) :
    ∀ (data : List (List String)) (acc s : Series), extractSeries L c data acc = .ret s →
      ∃ ts ss bs ps tqs gs,
        s = { t := acc.t ++ ts, s := acc.s ++ ss, b := acc.b ++ bs, p := acc.p ++ ps,
              tq := acc.tq ++ tqs, g := acc.g ++ gs } ∧
        List.Forall₂ (fun row v =>
          (cellValue L row c.timeRow).map (fun x => x / 1000) = some v) data ts ∧
        List.Forall₂ (fun row v =>
          (cellValue L row c.speedRow).map (fun x => x * 2.237) = some v) data ss ∧
        List.Forall₂ (fun row v => cellValue L row c.boostRow = some v) data bs ∧
        List.Forall₂ (fun row v =>
          (cellValue L row c.powerRow).map (fun x => x * 0.0013410220888) = some v) data ps ∧
        List.Forall₂ (fun row v =>
          (cellValue L row c.torqueRow).map (fun x => x * 0.7375621493) = some v) data tqs ∧
        List.Forall₂ (fun row v => cellValue L row c.gearRow = some v) data gs := by
  intro data
  induction data with
  | nil =>
    intro acc s h
    have hs : acc = s := by
      simpa [extractSeries, Outcome.pure_eq_ret_iff] using h
    subst hs
    exact ⟨[], [], [], [], [], [], by simp, .nil, .nil, .nil, .nil, .nil, .nil⟩
  | cons row rest ih =>
    intro acc s h
    simp only [extractSeries, Outcome.bind_eq_ret_iff] at h
    obtain ⟨acc2, hrow, hrest⟩ := h
    obtain ⟨time, power, torque, speed, boost, gear, h1, h2, h3, h4, h5, h6, hacc2⟩ :=
      (extractRow_eq_ret_iff L c row acc acc2).mp hrow
    obtain ⟨ts, ss, bs, ps, tqs, gs, hs, f1, f2, f3, f4, f5, f6⟩ := ih acc2 s hrest
    refine ⟨time / 1000 :: ts, speed * 2.237 :: ss, boost :: bs,
      power * 0.0013410220888 :: ps, torque * 0.7375621493 :: tqs, gear :: gs, ?_,
      .cons (by simp [h1]) f1, .cons (by simp [h4]) f2, .cons h5 f3, .cons (by simp [h2]) f4,
      .cons (by simp [h3]) f5, .cons h6 f6⟩
    rw [hs, hacc2]
    simp

theorem extractSeries_total (L : Strconv) (c : StatColumns) :
    ∀ (data : List (List String)) (acc : Series),
      (∀ row ∈ data, ∀ col ∈ [c.timeRow, c.powerRow, c.torqueRow, c.speedRow, c.boostRow,
        c.gearRow], (cellValue L row col).isSome = true) →
      ∃ s, extractSeries L c data acc = .ret s := by
  intro data
  induction data with
  | nil => intro acc _; exact ⟨acc, rfl⟩
  | cons row rest ih =>
    intro acc h
    have hrow := h row (List.mem_cons_self _ _)
    obtain ⟨time, h1⟩ := Option.isSome_iff_exists.mp (hrow c.timeRow (by simp))
    obtain ⟨power, h2⟩ := Option.isSome_iff_exists.mp (hrow c.powerRow (by simp))
    obtain ⟨torque, h3⟩ := Option.isSome_iff_exists.mp (hrow c.torqueRow (by simp))
    obtain ⟨speed, h4⟩ := Option.isSome_iff_exists.mp (hrow c.speedRow (by simp))
    obtain ⟨boost, h5⟩ := Option.isSome_iff_exists.mp (hrow c.boostRow (by simp))
    obtain ⟨gear, h6⟩ := Option.isSome_iff_exists.mp (hrow c.gearRow (by simp))
    have hstep := (extractRow_eq_ret_iff L c row acc _).mpr
      ⟨time, power, torque, speed, boost, gear, h1, h2, h3, h4, h5, h6, rfl⟩
    obtain ⟨s, hs⟩ := ih _ (fun r hr => h r (List.mem_cons_of_mem _ hr))
    refine ⟨s, ?_⟩
    simp only [extractSeries, Outcome.bind_eq_ret_iff]
    exact ⟨_, hstep, hs⟩

theorem extractRaceRow_eq_ret_iff (L : Strconv) (c : RaceColumns) (row : List String)
    (acc s : RaceSeries) :
    extractRaceRow L c row acc = .ret s ↔
      ∃ time dist lap speed best,
        cellValue L row c.currentLapRow = some time ∧
        cellValue L row c.distanceRow = some dist ∧
        cellValue L row c.lapNumRow = some lap ∧ cellValue L row c.speedRow = some speed ∧
        cellValue L row c.bestLapRow = some best ∧
        s = { t := acc.t ++ [time], d := acc.d ++ [dist], l := acc.l ++ [lap],
              s := acc.s ++ [speed * 2.237], bl := acc.bl ++ [best] } := by
  simp only [extractRaceRow, Outcome.bind_eq_ret_iff, Outcome.pure_eq_ret_iff,
    index_eq_ret_iff, checked_eq_ret_iff, cellValue_eq_some_iff]
  constructor
  · rintro ⟨a1, h1, time, h2, a3, h3, dist, h4, a5, h5, lap, h6, a7, h7, speed, h8, a9,
      h9, best, h10, hs⟩
    exact ⟨time, dist, lap, speed, best, ⟨a1, h1, h2⟩, ⟨a3, h3, h4⟩, ⟨a5, h5, h6⟩,
      ⟨a7, h7, h8⟩, ⟨a9, h9, h10⟩, hs.symm⟩
  · rintro ⟨time, dist, lap, speed, best, ⟨a1, h1, h2⟩, ⟨a3, h3, h4⟩, ⟨a5, h5, h6⟩,
      ⟨a7, h7, h8⟩, ⟨a9, h9, h10⟩, hs⟩
    exact ⟨a1, h1, time, h2, a3, h3, dist, h4, a5, h5, lap, h6, a7, h7, speed, h8, a9,
      h9, best, h10, hs.symm⟩

theorem extractRaceSeries_spec (L : Strconv) (c : RaceColumns) :
    ∀ (data : List (List String)) (acc s : RaceSeries),
      extractRaceSeries L c data acc = .ret s →
      ∃ ts ds ls ss bls,
        s = { t := acc.t ++ ts, d := acc.d ++ ds, l := acc.l ++ ls, s := acc.s ++ ss,
              bl := acc.bl ++ bls } ∧
        List.Forall₂ (fun row v => cellValue L row c.currentLapRow = some v) data ts ∧
        List.Forall₂ (fun row v => cellValue L row c.distanceRow = some v) data ds ∧
        List.Forall₂ (fun row v => cellValue L row c.lapNumRow = some v) data ls ∧
        List.Forall₂ (fun row v =>
          (cellValue L row c.speedRow).map (fun x => x * 2.237) = some v) data ss ∧
        List.Forall₂ (fun row v => cellValue L row c.bestLapRow = some v) data bls := by
  intro data
  induction data with
  | nil =>
    intro acc s h
    have hs : acc = s := by
      simpa [extractRaceSeries, Outcome.pure_eq_ret_iff] using h
    subst hs
    exact ⟨[], [], [], [], [], by simp, .nil, .nil, .nil, .nil, .nil⟩
  | cons row rest ih =>
    intro acc s h
    simp only [extractRaceSeries, Outcome.bind_eq_ret_iff] at h
    obtain ⟨acc2, hrow, hrest⟩ := h
    obtain ⟨time, dist, lap, speed, best, h1, h2, h3, h4, h5, hacc2⟩ :=
      (extractRaceRow_eq_ret_iff L c row acc acc2).mp hrow
    obtain ⟨ts, ds, ls, ss, bls, hs, f1, f2, f3, f4, f5⟩ := ih acc2 s hrest
    refine ⟨time :: ts, dist :: ds, lap :: ls, speed * 2.237 :: ss, best :: bls, ?_,
      .cons h1 f1, .cons h2 f2, .cons h3 f3, .cons (by simp [h4]) f4, .cons h5 f5⟩
    rw [hs, hacc2]
    simp

theorem extractRaceSeries_total (L : Strconv) (c : RaceColumns) :
    ∀ (data : List (List String)) (acc : RaceSeries),
      (∀ row ∈ data, ∀ col ∈ [c.currentLapRow, c.distanceRow, c.lapNumRow, c.speedRow,
        c.bestLapRow], (cellValue L row col).isSome = true) →
      ∃ s, extractRaceSeries L c data acc = .ret s := by
  intro data
  induction data with
  | nil => intro acc _; exact ⟨acc, rfl⟩
  | cons row rest ih =>
    intro acc h
    have hrow := h row (List.mem_cons_self _ _)
    obtain ⟨time, h1⟩ := Option.isSome_iff_exists.mp (hrow c.currentLapRow (by simp))
    obtain ⟨dist, h2⟩ := Option.isSome_iff_exists.mp (hrow c.distanceRow (by simp))
    obtain ⟨lap, h3⟩ := Option.isSome_iff_exists.mp (hrow c.lapNumRow (by simp))
    obtain ⟨speed, h4⟩ := Option.isSome_iff_exists.mp (hrow c.speedRow (by simp))
    obtain ⟨best, h5⟩ := Option.isSome_iff_exists.mp (hrow c.bestLapRow (by simp))
    have hstep := (extractRaceRow_eq_ret_iff L c row acc _).mpr
      ⟨time, dist, lap, speed, best, h1, h2, h3, h4, h5, rfl⟩
    obtain ⟨s, hs⟩ := ih _ (fun r hr => h r (List.mem_cons_of_mem _ hr))
    refine ⟨s, ?_⟩
    simp only [extractRaceSeries, Outcome.bind_eq_ret_iff]
    exact ⟨_, hstep, hs⟩

theorem getTimeBetween_ne_lengthMismatch (startSpeed endSpeed : ℚ)
    (timeValues speedValues : List ℚ) (hlen : timeValues.length = speedValues.length) :
    getTimeBetween startSpeed endSpeed timeValues speedValues ≠
      .ret (0, some .lengthMismatch) := by
  unfold getTimeBetween
  rw [if_neg (by simpa using hlen)]
  simp only
  split
  · split_ifs
    · simp
    · split
      · simp
      · split_ifs <;> simp
  · simp

/-- C17. Series alignment. For a log `header :: data` in which every cell read by the two
row loops parses: the six series extracted by `calculate` (time, speed, boost, power, torque,
gear) and the five series extracted by `calcRaceStats` (lap time, distance, lap number,
speed, best lap) exist, each has exactly one element per data row, and element `i` is the
converted cell of data row `i`; so no call `getTimeBetween(a, b, t, s)` on the extracted time
and speed series returns the length-mismatch error. -/
theorem series_alignment (L : Strconv) (header : List String) (data : List (List String))
    (hstat : ∀ row ∈ data, ∀ col ∈ [(resolveStatColumns header).timeRow,
      (resolveStatColumns header).powerRow, (resolveStatColumns header).torqueRow,
      (resolveStatColumns header).speedRow, (resolveStatColumns header).boostRow,
      (resolveStatColumns header).gearRow], (cellValue L row col).isSome = true)
    (hrace : ∀ row ∈ data, ∀ col ∈ [(resolveRaceColumns header).currentLapRow,
      (resolveRaceColumns header).distanceRow, (resolveRaceColumns header).lapNumRow,
      (resolveRaceColumns header).speedRow, (resolveRaceColumns header).bestLapRow],
      (cellValue L row col).isSome = true) :
    (∃ series,
      extractSeries L (resolveStatColumns header) ((header :: data).drop 1)
        ⟨[], [], [], [], [], []⟩ = .ret series ∧
      Aligned (fun row => (cellValue L row (resolveStatColumns header).timeRow).map
        (fun x => x / 1000)) data series.t ∧
      Aligned (fun row => (cellValue L row (resolveStatColumns header).speedRow).map
        (fun x => x * 2.237)) data series.s ∧
      Aligned (fun row => cellValue L row (resolveStatColumns header).boostRow) data series.b ∧
      Aligned (fun row => (cellValue L row (resolveStatColumns header).powerRow).map
        (fun x => x * 0.0013410220888)) data series.p ∧
      Aligned (fun row => (cellValue L row (resolveStatColumns header).torqueRow).map
        (fun x => x * 0.7375621493)) data series.tq ∧
      Aligned (fun row => cellValue L row (resolveStatColumns header).gearRow) data series.g ∧
      ∀ a b, getTimeBetween a b series.t series.s ≠ .ret (0, some .lengthMismatch)) ∧
    (∃ raceSeries,
      extractRaceSeries L (resolveRaceColumns header) ((header :: data).drop 1)
        ⟨[], [], [], [], []⟩ = .ret raceSeries ∧
      Aligned (fun row => cellValue L row (resolveRaceColumns header).currentLapRow) data
        raceSeries.t ∧
      Aligned (fun row => cellValue L row (resolveRaceColumns header).distanceRow) data
        raceSeries.d ∧
      Aligned (fun row => cellValue L row (resolveRaceColumns header).lapNumRow) data
        raceSeries.l ∧
      Aligned (fun row => (cellValue L row (resolveRaceColumns header).speedRow).map
        (fun x => x * 2.237)) data raceSeries.s ∧
      Aligned (fun row => cellValue L row (resolveRaceColumns header).bestLapRow) data
        raceSeries.bl) := by
  constructor
  · obtain ⟨series, hser⟩ := extractSeries_total L (resolveStatColumns header) data
      ⟨[], [], [], [], [], []⟩ hstat
    obtain ⟨ts, ss, bs, ps, tqs, gs, hs, f1, f2, f3, f4, f5, f6⟩ :=
      extractSeries_spec L (resolveStatColumns header) data _ series hser
    simp only [List.nil_append] at hs
    subst hs
    have a1 := aligned_of_forall₂ _ _ _ f1
    have a2 := aligned_of_forall₂ _ _ _ f2
    refine ⟨_, hser, a1, a2, aligned_of_forall₂ _ _ _ f3, aligned_of_forall₂ _ _ _ f4,
      aligned_of_forall₂ _ _ _ f5, aligned_of_forall₂ _ _ _ f6, ?_⟩
    intro a b
    exact getTimeBetween_ne_lengthMismatch a b _ _ (a1.1.trans a2.1.symm)
  · obtain ⟨rs, hser⟩ := extractRaceSeries_total L (resolveRaceColumns header) data
      ⟨[], [], [], [], []⟩ hrace
    obtain ⟨ts, ds, ls, ss, bls, hs, f1, f2, f3, f4, f5⟩ :=
      extractRaceSeries_spec L (resolveRaceColumns header) data _ rs hser
    simp only [List.nil_append] at hs
    subst hs
    exact ⟨_, hser, aligned_of_forall₂ _ _ _ f1, aligned_of_forall₂ _ _ _ f2,
      aligned_of_forall₂ _ _ _ f3, aligned_of_forall₂ _ _ _ f4, aligned_of_forall₂ _ _ _ f5⟩

/-- C17, on `sampleLog`: the extracted time and speed series have one element for each of
the five data rows. -/
theorem series_alignment_witness :
    ∃ series, extractSeries decimalStrconv (resolveStatColumns statHeader) (sampleLog.drop 1)
        ⟨[], [], [], [], [], []⟩ = .ret series ∧
      series.t.length = 5 ∧ series.s.length = 5 := by
  obtain ⟨⟨series, hser, a1, a2, -⟩, -⟩ :=
    series_alignment decimalStrconv statHeader (sampleLog.drop 1) (by decide!) (by decide!)
  exact ⟨series, hser, a1.1, a2.1⟩

/-! ## The sector loop -/

theorem Outcome.ret_bind {α β : Type} (a : α) (f : α → Outcome β) :
    ((Outcome.ret a : Outcome α) >>= f) = f a := rfl

theorem Outcome.pure_bind {α β : Type} (a : α) (f : α → Outcome β) :
    ((pure a : Outcome α) >>= f) = f a := rfl

theorem index_of_lt (xs : List ℚ) (i : ℕ) (h : i < xs.length) :
    index xs i = .ret (xs.getD i 0) := by
  unfold index
  rw [List.getD_eq_getElem?_getD, List.getElem?_eq_getElem h]
  rfl

theorem sectorStep_eq (l t : List ℚ) (bestLap : ℚ) (st : SectorState) (i : ℕ) (val : ℚ)
    (hl : i < l.length) (ht : i < t.length) :
    sectorStep l t bestLap st i val =
      .ret (sectorBody bestLap st (decide (i = 0 ∨ l.getD i 0 ≠ l.getD (i - 1) 0)) val
        (t.getD i 0) (decide (i + 1 = l.length ∨ l.getD i 0 ≠ l.getD (i + 1) 0))) := by
  have h1 : index l i = .ret (l.getD i 0) := index_of_lt l i hl
  have h2 : index l (i - 1) = .ret (l.getD (i - 1) 0) := index_of_lt l (i - 1) (by omega)
  have h3 : index t i = .ret (t.getD i 0) := index_of_lt t i ht
  unfold sectorStep sectorBody
  by_cases hi : i = 0
  · subst hi
    by_cases hend : 0 + 1 = l.length
    · simp only [hend, h3, if_true, Outcome.pure_bind, Outcome.ret_bind, true_or,
        decide_True]
      split_ifs <;> rfl
    · have h4 : index l (0 + 1) = .ret (l.getD (0 + 1) 0) :=
        index_of_lt l (0 + 1) (by omega)
      simp only [hend, h1, h3, h4, if_true, if_false, Outcome.pure_bind, Outcome.ret_bind,
        true_or, false_or, decide_True]
      split_ifs <;> rfl
  · by_cases hend : i + 1 = l.length
    · simp only [hi, hend, h1, h2, h3, if_true, if_false, Outcome.pure_bind,
        Outcome.ret_bind, true_or, false_or, decide_True]
      split_ifs <;> rfl
    · have h4 : index l (i + 1) = .ret (l.getD (i + 1) 0) :=
        index_of_lt l (i + 1) (by omega)
      simp only [hi, hend, h1, h2, h3, h4, if_true, if_false, Outcome.pure_bind,
        Outcome.ret_bind, true_or, false_or, decide_True]
      split_ifs <;> rfl

theorem sectorLoop_append (l t : List ℚ) (bestLap : ℚ) :
    ∀ (xs ys : List (ℕ × ℚ)) (st : SectorState),
      sectorLoop l t bestLap (xs ++ ys) st =
        (sectorLoop l t bestLap xs st >>= sectorLoop l t bestLap ys) := by
  intro xs
  induction xs with
  | nil => intro ys st; rfl
  | cons x xs ih =>
    intro ys st
    obtain ⟨i, val⟩ := x
    simp only [List.cons_append, sectorLoop]
    cases hstep : sectorStep l t bestLap st i val with
    | ret st2 => exact ih ys st2
    | panic => rfl
    | fatal => rfl

theorem sectorLoop_prefix (d l t : List ℚ) (bestLap : ℚ) (hl : l.length = d.length)
    (ht : t.length = d.length) :
    ∀ k, k ≤ d.length →
      sectorLoop l t bestLap (d.enum.take k) sectorInit = .ret (stateAfter d l t bestLap k) := by
  intro k
  induction k with
  | zero => intro _; rfl
  | succ k ih =>
    intro hk
    have hk2 : k < d.length := by omega
    have hget : d.enum[k]? = some (k, d.getD k 0) := by
      rw [List.getElem?_enum, List.getD_eq_getElem?_getD, List.getElem?_eq_getElem hk2]
      rfl
    rw [List.take_succ, hget, sectorLoop_append, ih (by omega)]
    simp only [Option.toList, Outcome.ret_bind, sectorLoop]
    rw [sectorStep_eq l t bestLap _ k _ (by omega) (by omega)]
    rfl

theorem sectorLoop_total (d l t : List ℚ) (bestLap : ℚ) (hl : l.length = d.length)
    (ht : t.length = d.length) :
    sectorLoop l t bestLap d.enum sectorInit = .ret (stateAfter d l t bestLap d.length) := by
  have h := sectorLoop_prefix d l t bestLap hl ht d.length (le_refl _)
  rwa [List.take_of_length_le (by simp)] at h

theorem sectorBody_endLapDist (bestLap : ℚ) (st : SectorState) (newLap lapEnd : Bool)
    (val ti : ℚ) :
    (sectorBody bestLap st newLap val ti lapEnd).endLapDist =
      (if newLap then val else st.endLapDist) ∧
    (sectorBody bestLap st newLap val ti lapEnd).dist =
      val - (if newLap then val else st.endLapDist) := by
  unfold sectorBody
  cases newLap <;> simp only [if_true, if_false, Bool.false_eq_true] <;>
    split_ifs <;> exact ⟨rfl, rfl⟩

theorem stateAfter_endLapDist (d l t : List ℚ) (bestLap : ℚ) :
    ∀ k, (stateAfter d l t bestLap (k + 1)).endLapDist = lapStartDist d l k ∧
      (stateAfter d l t bestLap (k + 1)).dist = inLapDist d l k := by
  intro k
  induction k with
  | zero =>
    rw [stateAfter]
    obtain ⟨h1, h2⟩ := sectorBody_endLapDist bestLap (stateAfter d l t bestLap 0)
      (decide (0 = 0 ∨ l.getD 0 0 ≠ l.getD (0 - 1) 0)) (decide (0 + 1 = l.length ∨
        l.getD 0 0 ≠ l.getD (0 + 1) 0)) (d.getD 0 0) (t.getD 0 0)
    rw [h1, h2]
    simp [lapStartDist, inLapDist]
  | succ k ih =>
    rw [stateAfter]
    obtain ⟨h1, h2⟩ := sectorBody_endLapDist bestLap (stateAfter d l t bestLap (k + 1))
      (decide (k + 1 = 0 ∨ l.getD (k + 1) 0 ≠ l.getD (k + 1 - 1) 0))
      (decide (k + 1 + 1 = l.length ∨ l.getD (k + 1) 0 ≠ l.getD (k + 1 + 1) 0))
      (d.getD (k + 1) 0) (t.getD (k + 1) 0)
    rw [h1, h2, ih.1]
    simp only [Nat.add_sub_cancel, Nat.succ_ne_zero, false_or, inLapDist, lapStartDist]
    by_cases hne : l.getD (k + 1) 0 ≠ l.getD k 0
    · simp [hne]
    · simp [hne]

theorem sectorBody_eq (bestLap : ℚ) (st : SectorState) (newLap lapEnd : Bool) (val ti e x : ℚ)
    (he : (if newLap then val else st.endLapDist) = e) (hx : val - e = x) :
    sectorBody bestLap st newLap val ti lapEnd =
      if InWindow 1878 x then
        { st with endLapDist := e, dist := x, s1End := ti, s1TimeTmp := ti }
      else if InWindow 3184 x then
        { st with endLapDist := e, dist := x, s2End := ti, s2TimeTmp := ti - st.s1End }
      else if InWindow 4311 x then
        { st with endLapDist := e, dist := x, s3End := ti, s3TimeTmp := ti - st.s2End }
      else if lapEnd then
        if ti ≤ bestLap then
          { st with endLapDist := e, dist := x, s4TimeTmp := (ti - st.s3End) + 0.0125,
                    s1Time := st.s1TimeTmp, s2Time := st.s2TimeTmp, s3Time := st.s3TimeTmp,
                    s4Time := (ti - st.s3End) + 0.0125 }
        else { st with endLapDist := e, dist := x, s4TimeTmp := (ti - st.s3End) + 0.0125 }
      else { st with endLapDist := e, dist := x } := by
  have w1 : InWindow 1878 x ↔ (x > 1878 ∧ x < 1879) := by unfold InWindow; norm_num
  have w2 : InWindow 3184 x ↔ (x > 3184 ∧ x < 3185) := by unfold InWindow; norm_num
  have w3 : InWindow 4311 x ↔ (x > 4311 ∧ x < 4312) := by unfold InWindow; norm_num
  simp only [w1, w2, w3]
  subst hx
  subst he
  unfold sectorBody
  cases newLap <;> simp only [if_true, if_false, Bool.false_eq_true]

theorem stateAfter_succ (d l t : List ℚ) (bestLap : ℚ) (k : ℕ) :
    stateAfter d l t bestLap (k + 1) =
      if InWindow 1878 (inLapDist d l k) then
        { stateAfter d l t bestLap k with
          endLapDist := lapStartDist d l k, dist := inLapDist d l k,
          s1End := t.getD k 0, s1TimeTmp := t.getD k 0 }
      else if InWindow 3184 (inLapDist d l k) then
        { stateAfter d l t bestLap k with
          endLapDist := lapStartDist d l k, dist := inLapDist d l k,
          s2End := t.getD k 0, s2TimeTmp := t.getD k 0 - (stateAfter d l t bestLap k).s1End }
      else if InWindow 4311 (inLapDist d l k) then
        { stateAfter d l t bestLap k with
          endLapDist := lapStartDist d l k, dist := inLapDist d l k,
          s3End := t.getD k 0, s3TimeTmp := t.getD k 0 - (stateAfter d l t bestLap k).s2End }
      else if IsLapEnd l k then
        if t.getD k 0 ≤ bestLap then
          { stateAfter d l t bestLap k with
            endLapDist := lapStartDist d l k, dist := inLapDist d l k,
            s4TimeTmp := (t.getD k 0 - (stateAfter d l t bestLap k).s3End) + 0.0125,
            s1Time := (stateAfter d l t bestLap k).s1TimeTmp,
            s2Time := (stateAfter d l t bestLap k).s2TimeTmp,
            s3Time := (stateAfter d l t bestLap k).s3TimeTmp,
            s4Time := (t.getD k 0 - (stateAfter d l t bestLap k).s3End) + 0.0125 }
        else
          { stateAfter d l t bestLap k with
            endLapDist := lapStartDist d l k, dist := inLapDist d l k,
            s4TimeTmp := (t.getD k 0 - (stateAfter d l t bestLap k).s3End) + 0.0125 }
      else
        { stateAfter d l t bestLap k with
          endLapDist := lapStartDist d l k, dist := inLapDist d l k } := by
  have he := (stateAfter_endLapDist d l t bestLap k).1
  rw [stateAfter, (sectorBody_endLapDist _ _ _ _ _ _).1] at he
  have h := sectorBody_eq bestLap (stateAfter d l t bestLap k)
    (decide (k = 0 ∨ l.getD k 0 ≠ l.getD (k - 1) 0))
    (decide (k + 1 = l.length ∨ l.getD k 0 ≠ l.getD (k + 1) 0)) (d.getD k 0) (t.getD k 0)
    (lapStartDist d l k) (inLapDist d l k) he rfl
  rw [stateAfter, h]
  simp only [IsLapEnd, decide_eq_true_eq]

theorem sortedLast_of_ne_nil (xs : List ℚ) (hne : xs ≠ []) : ∃ m, sortedLast xs = .ret m := by
  obtain ⟨m, hm⟩ := exists_isMaxOf xs hne
  exact ⟨m, by unfold sortedLast; rw [sortFloat64s_getLast xs m hm]⟩

/-- A run of `calcRaceStats` on a log whose data rows were extracted into `series` and whose
best lap time is `bestLap`: the series have equal lengths, the sector loop ends in
`stateAfter ... d.length`, and the call returns the formatted values. -/
theorem calcRaceStats_of_series (L : Strconv) (header : List String)
    (data : List (List String)) (series : RaceSeries) (bestLap : ℚ)
    (hser : extractRaceSeries L (resolveRaceColumns header) data ⟨[], [], [], [], []⟩ =
      .ret series)
    (hbest : bestLapTime series = .ret bestLap) :
    series.l.length = series.d.length ∧ series.t.length = series.d.length ∧
    ∃ topSpeed,
      calcRaceStats L (header :: data) =
        .ret (bestLapString L bestLap, L.formatFloat topSpeed 2,
          [sectorString L (stateAfter series.d series.l series.t bestLap series.d.length).s1Time,
           sectorString L (stateAfter series.d series.l series.t bestLap series.d.length).s2Time,
           sectorString L (stateAfter series.d series.l series.t bestLap series.d.length).s3Time,
           sectorString L
             (stateAfter series.d series.l series.t bestLap series.d.length).s4Time]) := by
  obtain ⟨ts, ds, ls, ss, bls, hs, f1, f2, f3, f4, f5⟩ :=
    extractRaceSeries_spec L (resolveRaceColumns header) data _ series hser
  simp only [List.nil_append] at hs
  have hl : series.l.length = series.d.length := by
    rw [hs]; exact f3.length_eq.symm.trans f2.length_eq
  have ht : series.t.length = series.d.length := by
    rw [hs]; exact f1.length_eq.symm.trans f2.length_eq
  have hbl : series.bl ≠ [] := by
    intro h
    simp only [bestLapTime, lastOf, h, List.getLast?_nil] at hbest
    cases hbest
  have hsne : series.s ≠ [] := by
    intro h
    apply hbl
    have h1 : series.s.length = series.bl.length := by
      rw [hs]; exact f4.length_eq.symm.trans f5.length_eq
    rw [h] at h1
    exact List.eq_nil_of_length_eq_zero h1.symm
  obtain ⟨topSpeed, htop⟩ := sortedLast_of_ne_nil series.s hsne
  refine ⟨hl, ht, topSpeed, ?_⟩
  have hidx : index (header :: data) 0 = .ret header := by simp [index]
  unfold calcRaceStats
  rw [if_neg (by simp)]
  simp only [hidx, List.drop_succ_cons, List.drop_zero, hser, hbest, htop,
    sectorLoop_total series.d series.l series.t bestLap hl ht, Outcome.ret_bind]
  rfl

theorem stateAfter_frame (d l t : List ℚ) (bestLap : ℚ) (a : ℕ) :
    ∀ k, a ≤ k →
      ((∀ i, a ≤ i → i < k → ¬ InWindow 1878 (inLapDist d l i)) →
        (stateAfter d l t bestLap k).s1TimeTmp = (stateAfter d l t bestLap a).s1TimeTmp) ∧
      ((∀ i, a ≤ i → i < k → ¬ InWindow 3184 (inLapDist d l i)) →
        (stateAfter d l t bestLap k).s2TimeTmp = (stateAfter d l t bestLap a).s2TimeTmp) ∧
      ((∀ i, a ≤ i → i < k → ¬ InWindow 4311 (inLapDist d l i)) →
        (stateAfter d l t bestLap k).s3TimeTmp = (stateAfter d l t bestLap a).s3TimeTmp) := by
  intro k hk
  induction k, hk using Nat.le_induction with
  | base => exact ⟨fun _ => rfl, fun _ => rfl, fun _ => rfl⟩
  | succ k hak ih =>
    obtain ⟨ih1, ih2, ih3⟩ := ih
    refine ⟨fun h => ?_, fun h => ?_, fun h => ?_⟩
    · rw [← ih1 (fun i hi hik => h i hi (by omega)), stateAfter_succ]
      have hw := h k hak (by omega)
      simp only [hw, if_false]
      split_ifs <;> rfl
    · rw [← ih2 (fun i hi hik => h i hi (by omega)), stateAfter_succ]
      have hw := h k hak (by omega)
      simp only [hw, if_false]
      split_ifs <;> rfl
    · rw [← ih3 (fun i hi hik => h i hi (by omega)), stateAfter_succ]
      have hw := h k hak (by omega)
      simp only [hw, if_false]
      split_ifs <;> rfl

theorem stateAfter_zero (d l t : List ℚ) (bestLap : ℚ) :
    ∀ k,
      ((∀ i, i < k → ¬ InWindow 1878 (inLapDist d l i)) →
        (stateAfter d l t bestLap k).s1TimeTmp = 0 ∧ (stateAfter d l t bestLap k).s1Time = 0) ∧
      ((∀ i, i < k → ¬ InWindow 3184 (inLapDist d l i)) →
        (stateAfter d l t bestLap k).s2TimeTmp = 0 ∧ (stateAfter d l t bestLap k).s2Time = 0) ∧
      ((∀ i, i < k → ¬ InWindow 4311 (inLapDist d l i)) →
        (stateAfter d l t bestLap k).s3TimeTmp = 0 ∧
          (stateAfter d l t bestLap k).s3Time = 0) := by
  intro k
  induction k with
  | zero => exact ⟨fun _ => ⟨rfl, rfl⟩, fun _ => ⟨rfl, rfl⟩, fun _ => ⟨rfl, rfl⟩⟩
  | succ k ih =>
    obtain ⟨ih1, ih2, ih3⟩ := ih
    refine ⟨fun h => ?_, fun h => ?_, fun h => ?_⟩
    · obtain ⟨e1, e2⟩ := ih1 (fun i hi => h i (by omega))
      have hw := h k (by omega)
      rw [stateAfter_succ]
      simp only [hw, if_false]
      split_ifs <;> exact ⟨e1, by first | exact e2 | exact e1⟩
    · obtain ⟨e1, e2⟩ := ih2 (fun i hi => h i (by omega))
      have hw := h k (by omega)
      rw [stateAfter_succ]
      simp only [hw, if_false]
      split_ifs <;> exact ⟨e1, by first | exact e2 | exact e1⟩
    · obtain ⟨e1, e2⟩ := ih3 (fun i hi => h i (by omega))
      have hw := h k (by omega)
      rw [stateAfter_succ]
      simp only [hw, if_false]
      split_ifs <;> exact ⟨e1, by first | exact e2 | exact e1⟩

/-! ## The lap-sector analyser: claims -/

/-- C20. Missed sector boundary. On a run of `calcRaceStats` with extracted series `d`, `l`,
`t`: for each boundary window (1878, 3184, 4311), if no sample with index in `[a, k)` has its
in-lap distance inside the window, the pending split of that sector after `k` samples equals
its value after `a` samples; and if no sample of the whole log falls in the window, the
reported duration of that sector is `0`. -/
theorem missed_boundary (L : Strconv) (header : List String) (data : List (List String))
    (series : RaceSeries) (bestLap : ℚ)
    (hser : extractRaceSeries L (resolveRaceColumns header) data ⟨[], [], [], [], []⟩ =
      .ret series)
    (hbest : bestLapTime series = .ret bestLap) :
    ∃ final bestLapStr topSpeedStr,
      sectorLoop series.l series.t bestLap series.d.enum sectorInit = .ret final ∧
      calcRaceStats L (header :: data) =
        .ret (bestLapStr, topSpeedStr,
          [sectorString L final.s1Time, sectorString L final.s2Time,
           sectorString L final.s3Time, sectorString L final.s4Time]) ∧
      (∀ a k, a ≤ k → k ≤ series.d.length →
        ∃ sa sk,
          sectorLoop series.l series.t bestLap (series.d.enum.take a) sectorInit = .ret sa ∧
          sectorLoop series.l series.t bestLap (series.d.enum.take k) sectorInit = .ret sk ∧
          ((∀ i, a ≤ i → i < k → ¬ InWindow 1878 (inLapDist series.d series.l i)) →
            sk.s1TimeTmp = sa.s1TimeTmp) ∧
          ((∀ i, a ≤ i → i < k → ¬ InWindow 3184 (inLapDist series.d series.l i)) →
            sk.s2TimeTmp = sa.s2TimeTmp) ∧
          ((∀ i, a ≤ i → i < k → ¬ InWindow 4311 (inLapDist series.d series.l i)) →
            sk.s3TimeTmp = sa.s3TimeTmp)) ∧
      ((∀ i, i < series.d.length → ¬ InWindow 1878 (inLapDist series.d series.l i)) →
        final.s1Time = 0) ∧
      ((∀ i, i < series.d.length → ¬ InWindow 3184 (inLapDist series.d series.l i)) →
        final.s2Time = 0) ∧
      ((∀ i, i < series.d.length → ¬ InWindow 4311 (inLapDist series.d series.l i)) →
        final.s3Time = 0) := by
  obtain ⟨hl, ht, topSpeed, hcalc⟩ := calcRaceStats_of_series L header data series bestLap
    hser hbest
  obtain ⟨z1, z2, z3⟩ := stateAfter_zero series.d series.l series.t bestLap series.d.length
  refine ⟨_, _, _, sectorLoop_total series.d series.l series.t bestLap hl ht, hcalc, ?_,
    fun h => (z1 h).2, fun h => (z2 h).2, fun h => (z3 h).2⟩
  intro a k hak hk
  exact ⟨_, _, sectorLoop_prefix series.d series.l series.t bestLap hl ht a (by omega),
    sectorLoop_prefix series.d series.l series.t bestLap hl ht k hk,
    stateAfter_frame series.d series.l series.t bestLap a k hak⟩

/-- C20, on `sampleRaceLog`. -/
theorem missed_boundary_witness :
    ∃ final bestLapStr topSpeedStr,
      sectorLoop sampleRaceSeries.l sampleRaceSeries.t 80.075 sampleRaceSeries.d.enum
        sectorInit = .ret final ∧
      calcRaceStats decimalStrconv sampleRaceLog =
        .ret (bestLapStr, topSpeedStr,
          [sectorString decimalStrconv final.s1Time, sectorString decimalStrconv final.s2Time,
           sectorString decimalStrconv final.s3Time,
           sectorString decimalStrconv final.s4Time]) := by
  obtain ⟨final, b, s, h1, h2, -⟩ :=
    missed_boundary decimalStrconv raceHeader (sampleRaceLog.drop 1) sampleRaceSeries 80.075
      (by decide!) (by decide!)
  exact ⟨final, b, s, h1, h2⟩

theorem stateAfter_keep (d l t : List ℚ) (bestLap : ℚ) (k : ℕ) (hk : k < d.length)
    (hq : ¬ RetainsAt d l t bestLap k) :
    (stateAfter d l t bestLap (k + 1)).s1Time = (stateAfter d l t bestLap k).s1Time ∧
    (stateAfter d l t bestLap (k + 1)).s2Time = (stateAfter d l t bestLap k).s2Time ∧
    (stateAfter d l t bestLap (k + 1)).s3Time = (stateAfter d l t bestLap k).s3Time ∧
    (stateAfter d l t bestLap (k + 1)).s4Time = (stateAfter d l t bestLap k).s4Time := by
  rw [stateAfter_succ]
  split_ifs with h1 h2 h3 h4 h5
  · exact ⟨rfl, rfl, rfl, rfl⟩
  · exact ⟨rfl, rfl, rfl, rfl⟩
  · exact ⟨rfl, rfl, rfl, rfl⟩
  · exact absurd ⟨hk, h4, h1, h2, h3, h5⟩ hq
  · exact ⟨rfl, rfl, rfl, rfl⟩
  · exact ⟨rfl, rfl, rfl, rfl⟩

theorem stateAfter_retain (d l t : List ℚ) (bestLap : ℚ) (k : ℕ)
    (hq : RetainsAt d l t bestLap k) :
    (stateAfter d l t bestLap (k + 1)).s1Time = (stateAfter d l t bestLap (k + 1)).s1TimeTmp ∧
    (stateAfter d l t bestLap (k + 1)).s2Time = (stateAfter d l t bestLap (k + 1)).s2TimeTmp ∧
    (stateAfter d l t bestLap (k + 1)).s3Time = (stateAfter d l t bestLap (k + 1)).s3TimeTmp ∧
    (stateAfter d l t bestLap (k + 1)).s4Time = (stateAfter d l t bestLap (k + 1)).s4TimeTmp ∧
    (stateAfter d l t bestLap (k + 1)).s4TimeTmp =
      (t.getD k 0 - (stateAfter d l t bestLap (k + 1)).s3End) + 0.0125 := by
  obtain ⟨-, h4, h1, h2, h3, h5⟩ := hq
  rw [stateAfter_succ, if_neg h1, if_neg h2, if_neg h3, if_pos h4, if_pos h5]
  exact ⟨rfl, rfl, rfl, rfl, rfl⟩

theorem stateAfter_none (d l t : List ℚ) (bestLap : ℚ) :
    ∀ k, k ≤ d.length → (∀ i, i < k → ¬ RetainsAt d l t bestLap i) →
      (stateAfter d l t bestLap k).s1Time = 0 ∧ (stateAfter d l t bestLap k).s2Time = 0 ∧
      (stateAfter d l t bestLap k).s3Time = 0 ∧ (stateAfter d l t bestLap k).s4Time = 0 := by
  intro k
  induction k with
  | zero => intro _ _; exact ⟨rfl, rfl, rfl, rfl⟩
  | succ k ih =>
    intro hk h
    obtain ⟨e1, e2, e3, e4⟩ := ih (by omega) (fun i hi => h i (by omega))
    obtain ⟨k1, k2, k3, k4⟩ := stateAfter_keep d l t bestLap k (by omega) (h k (by omega))
    exact ⟨k1.trans e1, k2.trans e2, k3.trans e3, k4.trans e4⟩

theorem stateAfter_after (d l t : List ℚ) (bestLap : ℚ) (i : ℕ) :
    ∀ m, i + 1 ≤ m → m ≤ d.length → (∀ j, i < j → j < m → ¬ RetainsAt d l t bestLap j) →
      (stateAfter d l t bestLap m).s1Time = (stateAfter d l t bestLap (i + 1)).s1Time ∧
      (stateAfter d l t bestLap m).s2Time = (stateAfter d l t bestLap (i + 1)).s2Time ∧
      (stateAfter d l t bestLap m).s3Time = (stateAfter d l t bestLap (i + 1)).s3Time ∧
      (stateAfter d l t bestLap m).s4Time = (stateAfter d l t bestLap (i + 1)).s4Time := by
  intro m hm
  induction m, hm using Nat.le_induction with
  | base => intro _ _; exact ⟨rfl, rfl, rfl, rfl⟩
  | succ m him ih =>
    intro hmn h
    obtain ⟨e1, e2, e3, e4⟩ := ih (by omega) (fun j hj hjm => h j hj (by omega))
    obtain ⟨k1, k2, k3, k4⟩ :=
      stateAfter_keep d l t bestLap m (by omega) (h m (by omega) (by omega))
    exact ⟨k1.trans e1, k2.trans e2, k3.trans e3, k4.trans e4⟩

/-- C12, as stated, fails: on `windowEndLog` (series `d = [0, 1878.5]`, `l = [0, 0]`,
`t = [0, 30]`, best lap 100) the only lap ends at sample 1 with lap time `30 ≤ 100`, and after
that sample the pending split of sector 1 is `30` and sector 4 would be
`(30 - 0) + 0.0125`; the final sample lies in the first boundary window, the lap end is not
seen, and all four reported durations are `0`. -/
theorem sector_retention_counterexample :
    IsLapEnd [0, 0] 1 ∧ (30 : ℚ) ≤ 100 ∧
    ∃ final,
      sectorLoop [0, 0] [0, 30] 100 ([(0 : ℚ), 1878.5].enum) sectorInit = .ret final ∧
      final.s1TimeTmp = 30 ∧ (30 - final.s3End) + 0.0125 = 30.0125 ∧
      final.s1Time = 0 ∧ final.s2Time = 0 ∧ final.s3Time = 0 ∧ final.s4Time = 0 ∧
      calcRaceStats decimalStrconv windowEndLog =
        .ret ("01:40.000", "111.85",
          ["00:0:00.000", "00:0:00.000", "00:0:00.000", "00:0:00.000"]) := by
  refine ⟨by decide, by norm_num, ⟨0, 0, 0, 0, 30, 0, 0, 0, 30, 0, 0, 1878.5, 0⟩, by decide!,
    rfl, by norm_num, rfl, rfl, rfl, rfl, by decide!⟩

/-- C12, amended. On a run of `calcRaceStats` with extracted series `d`, `l`, `t` and best
lap time `bestLap`, call a sample retaining when it is the final sample of its lap (the last
sample of the series, or one whose successor has a different lap number), its in-lap distance
lies in none of the three boundary windows, and its lap time is at most `bestLap`. The four
reported sector durations are the pending splits right after the last retaining sample,
where the pending sector 4 is (time at that sample - time at the sector-3 boundary) + 0.0125;
if there is no retaining sample, all four are `0`. -/
theorem sector_retention (L : Strconv) (header : List String) (data : List (List String))
    (series : RaceSeries) (bestLap : ℚ)
    (hser : extractRaceSeries L (resolveRaceColumns header) data ⟨[], [], [], [], []⟩ =
      .ret series)
    (hbest : bestLapTime series = .ret bestLap) :
    ∃ final bestLapStr topSpeedStr,
      sectorLoop series.l series.t bestLap series.d.enum sectorInit = .ret final ∧
      calcRaceStats L (header :: data) =
        .ret (bestLapStr, topSpeedStr,
          [sectorString L final.s1Time, sectorString L final.s2Time,
           sectorString L final.s3Time, sectorString L final.s4Time]) ∧
      ((∀ i, ¬ RetainsAt series.d series.l series.t bestLap i) →
        final.s1Time = 0 ∧ final.s2Time = 0 ∧ final.s3Time = 0 ∧ final.s4Time = 0) ∧
      (∀ i, RetainsAt series.d series.l series.t bestLap i →
        (∀ j, i < j → ¬ RetainsAt series.d series.l series.t bestLap j) →
        ∃ st,
          sectorLoop series.l series.t bestLap (series.d.enum.take (i + 1)) sectorInit =
            .ret st ∧
          final.s1Time = st.s1TimeTmp ∧ final.s2Time = st.s2TimeTmp ∧
          final.s3Time = st.s3TimeTmp ∧ final.s4Time = st.s4TimeTmp ∧
          st.s4TimeTmp = (series.t.getD i 0 - st.s3End) + 0.0125) := by
  obtain ⟨hl, ht, topSpeed, hcalc⟩ := calcRaceStats_of_series L header data series bestLap
    hser hbest
  refine ⟨_, _, _, sectorLoop_total series.d series.l series.t bestLap hl ht, hcalc, ?_, ?_⟩
  · intro h
    exact stateAfter_none series.d series.l series.t bestLap series.d.length (le_refl _)
      (fun i _ => h i)
  · intro i hq hlast
    have hi : i < series.d.length := hq.1
    obtain ⟨r1, r2, r3, r4, r5⟩ := stateAfter_retain series.d series.l series.t bestLap i hq
    obtain ⟨a1, a2, a3, a4⟩ := stateAfter_after series.d series.l series.t bestLap i
      series.d.length (by omega) (le_refl _) (fun j hj _ => hlast j hj)
    exact ⟨_, sectorLoop_prefix series.d series.l series.t bestLap hl ht (i + 1) (by omega),
      a1.trans r1, a2.trans r2, a3.trans r3, a4.trans r4, r5⟩

/-- C12 amended, on `sampleRaceLog`. -/
theorem sector_retention_witness :
    ∃ final bestLapStr topSpeedStr,
      sectorLoop sampleRaceSeries.l sampleRaceSeries.t 80.075 sampleRaceSeries.d.enum
        sectorInit = .ret final ∧
      calcRaceStats decimalStrconv sampleRaceLog =
        .ret (bestLapStr, topSpeedStr,
          [sectorString decimalStrconv final.s1Time, sectorString decimalStrconv final.s2Time,
           sectorString decimalStrconv final.s3Time,
           sectorString decimalStrconv final.s4Time]) := by
  obtain ⟨final, b, s, h1, h2, -⟩ :=
    sector_retention decimalStrconv raceHeader (sampleRaceLog.drop 1) sampleRaceSeries 80.075
      (by decide!) (by decide!)
  exact ⟨final, b, s, h1, h2⟩

/-- With non-decreasing in-lap distance, each pending split is the difference of the last two
boundary times once its boundary has been seen. -/
theorem stateAfter_telescope (d l t : List ℚ) (bestLap : ℚ)
    (hmono : ∀ i j, i ≤ j → j < d.length → inLapDist d l i ≤ inLapDist d l j) :
    ∀ k, k ≤ d.length →
      (stateAfter d l t bestLap k).s1TimeTmp = (stateAfter d l t bestLap k).s1End ∧
      ((∃ j, j < k ∧ InWindow 3184 (inLapDist d l j)) →
        (stateAfter d l t bestLap k).s2TimeTmp =
          (stateAfter d l t bestLap k).s2End - (stateAfter d l t bestLap k).s1End) ∧
      ((∃ j, j < k ∧ InWindow 4311 (inLapDist d l j)) →
        (stateAfter d l t bestLap k).s3TimeTmp =
          (stateAfter d l t bestLap k).s3End - (stateAfter d l t bestLap k).s2End) := by
  intro k
  induction k with
  | zero =>
    intro _
    exact ⟨rfl, fun ⟨j, hj, _⟩ => absurd hj (Nat.not_lt_zero j),
      fun ⟨j, hj, _⟩ => absurd hj (Nat.not_lt_zero j)⟩
  | succ k ih =>
    intro hk
    obtain ⟨i1, i2, i3⟩ := ih (by omega)
    have hle : ∀ j, j < k + 1 → inLapDist d l j ≤ inLapDist d l k :=
      fun j hj => hmono j k (by omega) (by omega)
    have hprev : ∀ (lo : ℚ), ¬ InWindow lo (inLapDist d l k) →
        (∃ j, j < k + 1 ∧ InWindow lo (inLapDist d l j)) →
        ∃ j, j < k ∧ InWindow lo (inLapDist d l j) := by
      rintro lo hno ⟨j, hj, hw⟩
      rcases Nat.lt_succ_iff_lt_or_eq.mp hj with h | h
      · exact ⟨j, h, hw⟩
      · exact absurd (h ▸ hw) hno
    rw [stateAfter_succ]
    by_cases h1 : InWindow 1878 (inLapDist d l k)
    · rw [if_pos h1]
      refine ⟨rfl, ?_, ?_⟩
      · rintro ⟨j, hj, hw⟩
        have := hle j hj
        unfold InWindow at h1 hw
        linarith [h1.2, hw.1]
      · rintro ⟨j, hj, hw⟩
        have := hle j hj
        unfold InWindow at h1 hw
        linarith [h1.2, hw.1]
    · rw [if_neg h1]
      by_cases h2 : InWindow 3184 (inLapDist d l k)
      · rw [if_pos h2]
        refine ⟨i1, fun _ => rfl, ?_⟩
        rintro ⟨j, hj, hw⟩
        have := hle j hj
        unfold InWindow at h2 hw
        linarith [h2.2, hw.1]
      · rw [if_neg h2]
        by_cases h3 : InWindow 4311 (inLapDist d l k)
        · rw [if_pos h3]
          exact ⟨i1, fun h => i2 (hprev 3184 h2 h), fun _ => rfl⟩
        · rw [if_neg h3]
          split_ifs
          · exact ⟨i1, fun h => i2 (hprev 3184 h2 h), fun h => i3 (hprev 4311 h3 h)⟩
          · exact ⟨i1, fun h => i2 (hprev 3184 h2 h), fun h => i3 (hprev 4311 h3 h)⟩
          · exact ⟨i1, fun h => i2 (hprev 3184 h2 h), fun h => i3 (hprev 4311 h3 h)⟩

/-- C13. Sector splits telescope. On a run of `calcRaceStats` whose in-lap distance is
non-decreasing along the log (as in a single-lap log with non-decreasing distance), in which
each of the three boundary windows is hit by some sample, the final sample lies in no window
and its lap time `T` is at most the best-lap time: the four retained sector durations sum to
`T + 0.0125`, hence to the best-lap time plus `0.0125` when `T` equals the best-lap time. -/
theorem sector_sum (L : Strconv) (header : List String) (data : List (List String))
    (series : RaceSeries) (bestLap : ℚ)
    (hser : extractRaceSeries L (resolveRaceColumns header) data ⟨[], [], [], [], []⟩ =
      .ret series)
    (hbest : bestLapTime series = .ret bestLap)
    (hmono : ∀ i j, i ≤ j → j < series.d.length →
      inLapDist series.d series.l i ≤ inLapDist series.d series.l j)
    (hw1 : ∃ j, j < series.d.length ∧ InWindow 1878 (inLapDist series.d series.l j))
    (hw2 : ∃ j, j < series.d.length ∧ InWindow 3184 (inLapDist series.d series.l j))
    (hw3 : ∃ j, j < series.d.length ∧ InWindow 4311 (inLapDist series.d series.l j))
    (hfinal : ¬ InWindow 1878 (inLapDist series.d series.l (series.d.length - 1)) ∧
      ¬ InWindow 3184 (inLapDist series.d series.l (series.d.length - 1)) ∧
      ¬ InWindow 4311 (inLapDist series.d series.l (series.d.length - 1)))
    (hT : series.t.getD (series.d.length - 1) 0 ≤ bestLap) :
    ∃ final bestLapStr topSpeedStr,
      sectorLoop series.l series.t bestLap series.d.enum sectorInit = .ret final ∧
      calcRaceStats L (header :: data) =
        .ret (bestLapStr, topSpeedStr,
          [sectorString L final.s1Time, sectorString L final.s2Time,
           sectorString L final.s3Time, sectorString L final.s4Time]) ∧
      final.s1Time + final.s2Time + final.s3Time + final.s4Time =
        series.t.getD (series.d.length - 1) 0 + 0.0125 ∧
      (series.t.getD (series.d.length - 1) 0 = bestLap →
        final.s1Time + final.s2Time + final.s3Time + final.s4Time = bestLap + 0.0125) := by
  obtain ⟨hl, ht, topSpeed, hcalc⟩ := calcRaceStats_of_series L header data series bestLap
    hser hbest
  obtain ⟨j1, hj1, -⟩ := hw1
  obtain ⟨m, hm⟩ : ∃ m, series.d.length = m + 1 := ⟨series.d.length - 1, by omega⟩
  have hm1 : series.d.length - 1 = m := by omega
  rw [hm1] at hfinal hT
  rw [hm1]
  have hend : IsLapEnd series.l m := Or.inl (by rw [hl]; omega)
  obtain ⟨h1, h2, h3⟩ := hfinal
  have hprev : ∀ (lo : ℚ), ¬ InWindow lo (inLapDist series.d series.l m) →
      (∃ j, j < series.d.length ∧ InWindow lo (inLapDist series.d series.l j)) →
      ∃ j, j < m ∧ InWindow lo (inLapDist series.d series.l j) := by
    rintro lo hno ⟨j, hj, hw⟩
    by_cases h : j = m
    · exact absurd (h ▸ hw) hno
    · exact ⟨j, by omega, hw⟩
  obtain ⟨t1, t2, t3⟩ := stateAfter_telescope series.d series.l series.t bestLap hmono
    m (by omega)
  have e2 := t2 (hprev 3184 h2 hw2)
  have e3 := t3 (hprev 4311 h3 hw3)
  have hS : stateAfter series.d series.l series.t bestLap series.d.length =
      stateAfter series.d series.l series.t bestLap (m + 1) := by rw [hm]
  have hsum : (stateAfter series.d series.l series.t bestLap series.d.length).s1Time +
      (stateAfter series.d series.l series.t bestLap series.d.length).s2Time +
      (stateAfter series.d series.l series.t bestLap series.d.length).s3Time +
      (stateAfter series.d series.l series.t bestLap series.d.length).s4Time =
      series.t.getD m 0 + 0.0125 := by
    rw [hS, stateAfter_succ, if_neg h1, if_neg h2, if_neg h3, if_pos hend, if_pos hT]
    simp only []
    rw [t1, e2, e3]
    ring
  refine ⟨_, _, _, sectorLoop_total series.d series.l series.t bestLap hl ht, hcalc, hsum, ?_⟩
  intro hTb
  rw [hsum, hTb]

/-- C13, on `sampleRaceLog`: the sector durations 25, 20, 17 and 18.075 sum to
`80.0625 + 0.0125`. -/
theorem sector_sum_witness :
    ∃ final bestLapStr topSpeedStr,
      sectorLoop sampleRaceSeries.l sampleRaceSeries.t 80.075 sampleRaceSeries.d.enum
        sectorInit = .ret final ∧
      calcRaceStats decimalStrconv sampleRaceLog =
        .ret (bestLapStr, topSpeedStr,
          [sectorString decimalStrconv final.s1Time, sectorString decimalStrconv final.s2Time,
           sectorString decimalStrconv final.s3Time,
           sectorString decimalStrconv final.s4Time]) ∧
      final.s1Time + final.s2Time + final.s3Time + final.s4Time =
        sampleRaceSeries.t.getD (sampleRaceSeries.d.length - 1) 0 + 0.0125 := by
  obtain ⟨final, b, s, h1, h2, h3, -⟩ :=
    sector_sum decimalStrconv raceHeader (sampleRaceLog.drop 1) sampleRaceSeries 80.075
      (by decide!) (by decide!)
      (by
        intro i j hij hj
        have hj5 : j < 5 := hj
        interval_cases j <;> interval_cases i <;> decide!)
      ⟨1, by decide, by decide!⟩ ⟨2, by decide, by decide!⟩ ⟨3, by decide, by decide!⟩
      (by decide!) (by decide!)
  exact ⟨final, b, s, h1, h2, h3⟩

/-! ## Column order -/

theorem outputOf_bind {α : Type} (x : Outcome α)
    (f : α → Outcome (List (List String) × List String)) :
    outputOf (x >>= f) = (x >>= fun a => outputOf (f a)) := by
  cases x <;> rfl

theorem outputOf_pure (r : List (List String)) (o : List String) :
    outputOf (pure (r, o)) = pure o := rfl

theorem count_one_unique (name : String) :
    ∀ (header : List String), header.count name = 1 →
      ∀ (p k : ℕ), header[p]? = some name → header[k]? = some name → p = k := by
  intro header
  induction header with
  | nil => intro h; simp at h
  | cons v vs ih =>
    intro hc p k hp hk
    by_cases hv : v = name
    · subst hv
      have hnot : v ∉ vs := by
        rw [List.count_cons_self] at hc
        exact List.count_eq_zero.mp (by omega)
      cases p with
      | zero =>
        cases k with
        | zero => rfl
        | succ k2 =>
          simp only [List.getElem?_cons_succ] at hk
          exact absurd (List.getElem?_mem hk) hnot
      | succ p2 =>
        simp only [List.getElem?_cons_succ] at hp
        exact absurd (List.getElem?_mem hp) hnot
    · rw [List.count_cons_of_ne (fun h => hv h.symm)] at hc
      cases p with
      | zero =>
        simp only [List.getElem?_cons_zero, Option.some.injEq] at hp
        exact absurd hp hv
      | succ p2 =>
        cases k with
        | zero =>
          simp only [List.getElem?_cons_zero, Option.some.injEq] at hk
          exact absurd hk hv
        | succ k2 =>
          simp only [List.getElem?_cons_succ] at hp hk
          rw [ih hc p2 k2 hp hk]

/-- A column whose name occurs exactly once is read at the same cell before and after the
columns are permuted. -/
theorem index_permuteRow (name : String) (header row : List String) (n : ℕ) (perm : List ℕ)
    (hperm : perm.Perm (List.range n)) (hh : header.length = n) (hr : row.length = n)
    (hc : header.count name = 1) (k k2 : ℕ) (hk : ResolvesTo k name header)
    (hk2 : ResolvesTo k2 name (permuteRow perm header)) :
    index (permuteRow perm row) k2 = index row k := by
  have hmem : name ∈ header := List.count_pos_iff.mp (by omega)
  obtain ⟨hk1, -⟩ := hk.1 hmem
  have hkn : k < n := by
    rw [← hh]
    by_contra hge
    rw [List.getElem?_eq_none (by omega)] at hk1
    cases hk1
  have hkperm : k ∈ perm := hperm.mem_iff.mpr (List.mem_range.mpr hkn)
  have hgetk : header.getD k "" = name := by
    rw [List.getD_eq_getElem?_getD, hk1]
    rfl
  have hmem2 : name ∈ permuteRow perm header :=
    List.mem_map.mpr ⟨k, hkperm, hgetk⟩
  obtain ⟨hk21, -⟩ := hk2.1 hmem2
  unfold permuteRow at hk21
  rw [List.getElem?_map] at hk21
  cases hp : perm[k2]? with
  | none => rw [hp] at hk21; cases hk21
  | some p =>
    rw [hp] at hk21
    simp only [Option.map_some', Option.some.injEq] at hk21
    have hpn : p < n := List.mem_range.mp (hperm.mem_iff.mp (List.getElem?_mem hp))
    have hp1 : header[p]? = some name := by
      rw [List.getD_eq_getElem?_getD, List.getElem?_eq_getElem (by omega)] at hk21
      rw [List.getElem?_eq_getElem (by omega)]
      exact congrArg some hk21
    have hpk : p = k := count_one_unique name header hc p k hp1 hk1
    subst hpk
    unfold index permuteRow
    rw [List.getElem?_map, hp, List.getElem?_eq_getElem (by omega : p < row.length)]
    simp only [Option.map_some', List.getD_eq_getElem?_getD]
    rw [List.getElem?_eq_getElem (by omega : p < row.length)]
    rfl

theorem extractRow_congr (L : Strconv) (c c2 : StatColumns) (row row2 : List String)
    (acc : Series)
    (h1 : index row2 c2.timeRow = index row c.timeRow)
    (h2 : index row2 c2.powerRow = index row c.powerRow)
    (h3 : index row2 c2.torqueRow = index row c.torqueRow)
    (h4 : index row2 c2.speedRow = index row c.speedRow)
    (h5 : index row2 c2.boostRow = index row c.boostRow)
    (h6 : index row2 c2.gearRow = index row c.gearRow) :
    extractRow L c2 row2 acc = extractRow L c row acc := by
  unfold extractRow
  rw [h1, h2, h3, h4, h5, h6]

theorem extractSeries_congr (L : Strconv) (c c2 : StatColumns) (f : List String → List String) :
    ∀ (data : List (List String)) (acc : Series),
      (∀ row ∈ data,
        index (f row) c2.timeRow = index row c.timeRow ∧
        index (f row) c2.powerRow = index row c.powerRow ∧
        index (f row) c2.torqueRow = index row c.torqueRow ∧
        index (f row) c2.speedRow = index row c.speedRow ∧
        index (f row) c2.boostRow = index row c.boostRow ∧
        index (f row) c2.gearRow = index row c.gearRow) →
      extractSeries L c2 (data.map f) acc = extractSeries L c data acc := by
  intro data
  induction data with
  | nil => intro acc _; rfl
  | cons row rest ih =>
    intro acc h
    obtain ⟨h1, h2, h3, h4, h5, h6⟩ := h row (List.mem_cons_self _ _)
    simp only [List.map_cons, extractSeries]
    rw [extractRow_congr L c c2 row (f row) acc h1 h2 h3 h4 h5 h6]
    cases extractRow L c row acc with
    | ret acc2 => exact ih acc2 (fun r hr => h r (List.mem_cons_of_mem _ hr))
    | panic => rfl
    | fatal => rfl

theorem calculate_congr (L : Strconv) (header header2 row1 row1b : List String)
    (rest rest2 : List (List String))
    (h1 : index row1b (resolveStatColumns header2).classLetterRow =
      index row1 (resolveStatColumns header).classLetterRow)
    (h2 : index row1b (resolveStatColumns header2).classPIRow =
      index row1 (resolveStatColumns header).classPIRow)
    (h3 : index row1b (resolveStatColumns header2).driveTrainRow =
      index row1 (resolveStatColumns header).driveTrainRow)
    (h4 : extractSeries L (resolveStatColumns header2) (row1b :: rest2)
        ⟨[], [], [], [], [], []⟩ =
      extractSeries L (resolveStatColumns header) (row1 :: rest) ⟨[], [], [], [], [], []⟩) :
    outputOf (calculate L (header2 :: row1b :: rest2)) =
      outputOf (calculate L (header :: row1 :: rest)) := by
  have i0 : ∀ (h : List String) (t : List (List String)), index (h :: t) 0 = .ret h :=
    fun h t => by simp [index]
  have i1 : ∀ (h r : List String) (t : List (List String)),
      index (h :: r :: t) 1 = .ret r := fun h r t => by simp [index]
  unfold calculate
  simp only [i0, i1, Outcome.ret_bind, List.drop_succ_cons, List.drop_zero, h1, h2, h3, h4,
    outputOf_bind, outputOf_pure, apply_ite outputOf]

theorem calculate_headerOnly (L : Strconv) (header : List String) :
    calculate L [header] = .panic := by
  have i0 : index [header] 0 = .ret header := by simp [index]
  have i1 : index [header] 1 = (.panic : Outcome (List String)) := by simp [index]
  unfold calculate
  rw [i0, i1]
  rfl

/-- C16. Column order is irrelevant. For a log whose rows all have `n` cells and whose header
holds each of the nine stat column names exactly once, and for every permutation `perm` of
the `n` column positions applied to the header and to every data row, `calculate` ends the
same way on the permuted log as on the original, and when it returns it returns the same
output vector. -/
theorem calculate_column_order (L : Strconv) (rows : List (List String)) (n : ℕ)
    (perm : List ℕ) (hperm : perm.Perm (List.range n))
    (hrect : ∀ row ∈ rows, row.length = n)
    (honce : ∀ header, rows[0]? = some header →
      ∀ name ∈ ["Speed", "Boost", "CarPerformanceIndex", "DrivetrainType", "Power", "Torque",
        "TimestampMS", "Gear", "CarClass"], header.count name = 1) :
    outputOf (calculate L (rows.map (permuteRow perm))) = outputOf (calculate L rows) := by
  cases rows with
  | nil => rfl
  | cons header data =>
    have hh : header.length = n := hrect header (List.mem_cons_self _ _)
    have hc := honce header (by simp)
    have hcell : ∀ row ∈ data,
        index (permuteRow perm row) (resolveStatColumns (permuteRow perm header)).timeRow =
          index row (resolveStatColumns header).timeRow ∧
        index (permuteRow perm row) (resolveStatColumns (permuteRow perm header)).powerRow =
          index row (resolveStatColumns header).powerRow ∧
        index (permuteRow perm row) (resolveStatColumns (permuteRow perm header)).torqueRow =
          index row (resolveStatColumns header).torqueRow ∧
        index (permuteRow perm row) (resolveStatColumns (permuteRow perm header)).speedRow =
          index row (resolveStatColumns header).speedRow ∧
        index (permuteRow perm row) (resolveStatColumns (permuteRow perm header)).boostRow =
          index row (resolveStatColumns header).boostRow ∧
        index (permuteRow perm row) (resolveStatColumns (permuteRow perm header)).gearRow =
          index row (resolveStatColumns header).gearRow ∧
        index (permuteRow perm row)
            (resolveStatColumns (permuteRow perm header)).classLetterRow =
          index row (resolveStatColumns header).classLetterRow ∧
        index (permuteRow perm row) (resolveStatColumns (permuteRow perm header)).classPIRow =
          index row (resolveStatColumns header).classPIRow ∧
        index (permuteRow perm row)
            (resolveStatColumns (permuteRow perm header)).driveTrainRow =
          index row (resolveStatColumns header).driveTrainRow := by
      intro row hrow
      have hr : row.length = n := hrect row (List.mem_cons_of_mem _ hrow)
      exact ⟨index_permuteRow "TimestampMS" header row n perm hperm hh hr (hc _ (by simp)) _ _
          (resolveStatColumns_timeRow header) (resolveStatColumns_timeRow _),
        index_permuteRow "Power" header row n perm hperm hh hr (hc _ (by simp)) _ _
          (resolveStatColumns_powerRow header) (resolveStatColumns_powerRow _),
        index_permuteRow "Torque" header row n perm hperm hh hr (hc _ (by simp)) _ _
          (resolveStatColumns_torqueRow header) (resolveStatColumns_torqueRow _),
        index_permuteRow "Speed" header row n perm hperm hh hr (hc _ (by simp)) _ _
          (resolveStatColumns_speedRow header) (resolveStatColumns_speedRow _),
        index_permuteRow "Boost" header row n perm hperm hh hr (hc _ (by simp)) _ _
          (resolveStatColumns_boostRow header) (resolveStatColumns_boostRow _),
        index_permuteRow "Gear" header row n perm hperm hh hr (hc _ (by simp)) _ _
          (resolveStatColumns_gearRow header) (resolveStatColumns_gearRow _),
        index_permuteRow "CarClass" header row n perm hperm hh hr (hc _ (by simp)) _ _
          (resolveStatColumns_classLetterRow header) (resolveStatColumns_classLetterRow _),
        index_permuteRow "CarPerformanceIndex" header row n perm hperm hh hr
          (hc _ (by simp)) _ _
          (resolveStatColumns_classPIRow header) (resolveStatColumns_classPIRow _),
        index_permuteRow "DrivetrainType" header row n perm hperm hh hr (hc _ (by simp)) _ _
          (resolveStatColumns_driveTrainRow header) (resolveStatColumns_driveTrainRow _)⟩
    cases data with
    | nil =>
      simp only [List.map_cons, List.map_nil]
      rw [calculate_headerOnly, calculate_headerOnly]
    | cons row1 rest =>
      obtain ⟨-, -, -, -, -, -, c1, c2, c3⟩ := hcell row1 (List.mem_cons_self _ _)
      have hser := extractSeries_congr L (resolveStatColumns header)
        (resolveStatColumns (permuteRow perm header)) (permuteRow perm) (row1 :: rest)
        ⟨[], [], [], [], [], []⟩
        (fun row hrow => by
          obtain ⟨a1, a2, a3, a4, a5, a6, -⟩ := hcell row hrow
          exact ⟨a1, a2, a3, a4, a5, a6⟩)
      exact calculate_congr L header (permuteRow perm header) row1 (permuteRow perm row1) rest
        (rest.map (permuteRow perm)) c1 c2 c3 hser

/-- C16, on `sampleLog` with its nine columns reversed. -/
theorem calculate_column_order_witness :
    outputOf (calculate decimalStrconv
        (sampleLog.map (permuteRow [8, 7, 6, 5, 4, 3, 2, 1, 0]))) =
      outputOf (calculate decimalStrconv sampleLog) :=
  calculate_column_order decimalStrconv sampleLog 9 [8, 7, 6, 5, 4, 3, 2, 1, 0]
    (by decide) (by decide)
    (by
      intro header h
      have hh : header = statHeader := by
        simp only [sampleLog, List.getElem?_cons_zero, Option.some.injEq] at h
        exact h.symm
      subst hh
      decide)

/-! ## Bounds safety and ordered time -/

theorem scanTimes_isSome (startSpeed endSpeed : ℚ) (timeValues speedValues : List ℚ)
    (hlen : timeValues.length = speedValues.length)
    (hreach : startSpeed ≤ endSpeed → ∃ v ∈ speedValues, endSpeed + 0.1 ≤ v) :
    ∃ startTime endTime,
      scanTimes startSpeed endSpeed timeValues speedValues = some (startTime, endTime) := by
  unfold scanTimes
  by_cases hmode : startSpeed > endSpeed
  · rw [if_pos hmode]
    exact ⟨_, _, rfl⟩
  · rw [if_neg hmode]
    have hle : startSpeed ≤ endSpeed := not_lt.mp hmode
    obtain ⟨v, hv, hve⟩ := hreach hle
    obtain ⟨k, -, hk⟩ := accelLoop_spec (startSpeed + 0.1) speedValues timeValues 0 hlen
      ⟨v, hv, le_trans (by linarith) hve⟩
    obtain ⟨m, -, hm⟩ := accelLoop_spec (endSpeed + 0.1) speedValues timeValues 0 hlen
      ⟨v, hv, hve⟩
    rw [hk, hm]
    exact ⟨_, _, rfl⟩

/-- C21. Bounds safety. For non-empty series of equal length, provided that in acceleration
mode (`startSpeed ≤ endSpeed`) some sample has speed at least `endSpeed + 0.1`: the scan
computes its two times without reading outside the series (in deceleration mode without any
proviso), and `getTimeBetween` returns a duration with a `nil` error, or the out-of-range
error, or the negative-duration error; it does not panic. -/
theorem getTimeBetween_bounds_safe (startSpeed endSpeed : ℚ) (timeValues speedValues : List ℚ)
    (hne : speedValues ≠ []) (hlen : timeValues.length = speedValues.length)
    (hreach : startSpeed ≤ endSpeed → ∃ v ∈ speedValues, endSpeed + 0.1 ≤ v) :
    (∃ startTime endTime,
      scanTimes startSpeed endSpeed timeValues speedValues = some (startTime, endTime)) ∧
    ((∃ d, getTimeBetween startSpeed endSpeed timeValues speedValues = .ret (d, none)) ∨
      getTimeBetween startSpeed endSpeed timeValues speedValues = .ret (0, some .outOfRange) ∨
      getTimeBetween startSpeed endSpeed timeValues speedValues =
        .ret (0, some .negativeDuration)) := by
  obtain ⟨st, et, hscan⟩ := scanTimes_isSome startSpeed endSpeed timeValues speedValues hlen
    hreach
  refine ⟨⟨st, et, hscan⟩, ?_⟩
  obtain ⟨mn, hmin⟩ := exists_isMinOf speedValues hne
  obtain ⟨mx, hmax⟩ := exists_isMaxOf speedValues hne
  rw [getTimeBetween_eq startSpeed endSpeed timeValues speedValues mn mx hlen hmin hmax, hscan]
  by_cases hr : outsideRange startSpeed endSpeed mn mx
  · rw [if_pos hr]
    exact Or.inr (Or.inl rfl)
  · rw [if_neg hr]
    by_cases hneg : st > et
    · exact Or.inr (Or.inr (by simp only [hneg, if_true]))
    · exact Or.inl ⟨et - st, by simp only [hneg, if_false]⟩

/-- C21, at two concrete calls: a deceleration over `[0, 70, 30, 0]` and an acceleration
over `[0, 30, 61, 80]`. -/
theorem getTimeBetween_bounds_safe_witness :
    ((∃ startTime endTime,
        scanTimes 60 0 [0, 1, 2, 3] [0, 70, 30, 0] = some (startTime, endTime)) ∧
      ((∃ d, getTimeBetween 60 0 [0, 1, 2, 3] [0, 70, 30, 0] = .ret (d, none)) ∨
        getTimeBetween 60 0 [0, 1, 2, 3] [0, 70, 30, 0] = .ret (0, some .outOfRange) ∨
        getTimeBetween 60 0 [0, 1, 2, 3] [0, 70, 30, 0] = .ret (0, some .negativeDuration))) ∧
    ((∃ startTime endTime,
        scanTimes 0 60 [0, 1, 2, 3] [0, 30, 61, 80] = some (startTime, endTime)) ∧
      ((∃ d, getTimeBetween 0 60 [0, 1, 2, 3] [0, 30, 61, 80] = .ret (d, none)) ∨
        getTimeBetween 0 60 [0, 1, 2, 3] [0, 30, 61, 80] = .ret (0, some .outOfRange) ∨
        getTimeBetween 0 60 [0, 1, 2, 3] [0, 30, 61, 80] = .ret (0, some .negativeDuration))) :=
  ⟨getTimeBetween_bounds_safe 60 0 [0, 1, 2, 3] [0, 70, 30, 0] (by simp) rfl
      (fun h => absurd h (by norm_num)),
    getTimeBetween_bounds_safe 0 60 [0, 1, 2, 3] [0, 30, 61, 80] (by simp) rfl
      (fun _ => ⟨80, by simp, by norm_num⟩)⟩

theorem getD_nonneg (times : List ℚ) (hnonneg : ∀ a ∈ times, 0 ≤ a) (i : ℕ) :
    0 ≤ times.getD i 0 := by
  rw [List.getD_eq_getElem?_getD]
  cases h : times[i]? with
  | none => exact le_refl _
  | some a => exact hnonneg a (List.getElem?_mem h)

theorem getD_mono (times : List ℚ) (hsorted : times.Sorted (fun a b => a ≤ b)) (i j : ℕ)
    (hij : i ≤ j) (hj : j < times.length) : times.getD i 0 ≤ times.getD j 0 := by
  have hi : i < times.length := by omega
  rw [List.getD_eq_getElem _ _ hi, List.getD_eq_getElem _ _ hj]
  exact hsorted.rel_get_of_le (a := ⟨i, hi⟩) (b := ⟨j, hj⟩) hij

/-- C22. Acceleration on ordered time. For equal-length series whose times are non-negative
and non-decreasing, with `startSpeed ≤ endSpeed` and some sample at or above
`endSpeed + 0.1`: `getTimeBetween` does not return the negative-duration error; it returns
the out-of-range error or a duration `d ≥ 0` with a `nil` error. -/
theorem getTimeBetween_ordered_time (startSpeed endSpeed : ℚ) (timeValues speedValues : List ℚ)
    (hlen : timeValues.length = speedValues.length)
    (hnonneg : ∀ a ∈ timeValues, 0 ≤ a)
    (hsorted : timeValues.Sorted (fun a b => a ≤ b))
    (hmode : startSpeed ≤ endSpeed) (hreach : ∃ v ∈ speedValues, endSpeed + 0.1 ≤ v) :
    getTimeBetween startSpeed endSpeed timeValues speedValues ≠
      .ret (0, some .negativeDuration) ∧
    (getTimeBetween startSpeed endSpeed timeValues speedValues = .ret (0, some .outOfRange) ∨
      ∃ d, 0 ≤ d ∧
        getTimeBetween startSpeed endSpeed timeValues speedValues = .ret (d, none)) := by
  have hne : speedValues ≠ [] := by
    obtain ⟨v, hv, -⟩ := hreach
    exact List.ne_nil_of_mem hv
  obtain ⟨mn, hmin⟩ := exists_isMinOf speedValues hne
  obtain ⟨mx, hmax⟩ := exists_isMaxOf speedValues hne
  obtain ⟨v, hv, hve⟩ := hreach
  obtain ⟨k, hkf, hk⟩ := accelLoop_spec (startSpeed + 0.1) speedValues timeValues 0 hlen
    ⟨v, hv, le_trans (by linarith) hve⟩
  obtain ⟨m, hmf, hm⟩ := accelLoop_spec (endSpeed + 0.1) speedValues timeValues 0 hlen
    ⟨v, hv, hve⟩
  have hkm : k ≤ m := by
    by_contra hlt
    obtain ⟨⟨w, hw, hwe⟩, -⟩ := hmf
    have := hkf.2 m (by omega) w hw
    linarith
  have hmlen : m < timeValues.length := by
    obtain ⟨⟨w, hw, -⟩, -⟩ := hmf
    rw [hlen]
    by_contra hge
    rw [List.getElem?_eq_none (by omega)] at hw
    cases hw
  have hord : (if k = 0 then (0 : ℚ) else timeValues.getD (k - 1) 0) ≤
      (if m = 0 then (0 : ℚ) else timeValues.getD (m - 1) 0) := by
    by_cases hk0 : k = 0
    · rw [if_pos hk0]
      split_ifs
      · exact le_refl _
      · exact getD_nonneg timeValues hnonneg _
    · rw [if_neg hk0, if_neg (by omega)]
      exact getD_mono timeValues hsorted (k - 1) (m - 1) (by omega) (by omega)
  have hscan : scanTimes startSpeed endSpeed timeValues speedValues =
      some ((if k = 0 then (0 : ℚ) else timeValues.getD (k - 1) 0),
        (if m = 0 then (0 : ℚ) else timeValues.getD (m - 1) 0)) := by
    unfold scanTimes
    rw [if_neg (not_lt.mpr hmode), hk, hm]
  rw [getTimeBetween_eq startSpeed endSpeed timeValues speedValues mn mx hlen hmin hmax, hscan]
  by_cases hr : outsideRange startSpeed endSpeed mn mx
  · rw [if_pos hr]
    exact ⟨by simp, Or.inl rfl⟩
  · rw [if_neg hr]
    simp only [gt_iff_lt, not_lt.mpr hord, if_false]
    exact ⟨by simp, Or.inr ⟨_, by linarith, rfl⟩⟩

/-- C22, at a concrete run: speeds `[0, 30, 61, 80]` at times `[0, 1, 2, 3]`, interval 0-60. -/
theorem getTimeBetween_ordered_time_witness :
    getTimeBetween 0 60 [0, 1, 2, 3] [0, 30, 61, 80] ≠ .ret (0, some .negativeDuration) ∧
    (getTimeBetween 0 60 [0, 1, 2, 3] [0, 30, 61, 80] = .ret (0, some .outOfRange) ∨
      ∃ d, 0 ≤ d ∧ getTimeBetween 0 60 [0, 1, 2, 3] [0, 30, 61, 80] = .ret (d, none)) :=
  getTimeBetween_ordered_time 0 60 [0, 1, 2, 3] [0, 30, 61, 80] rfl
    (by norm_num) (by norm_num [List.Sorted]) (by norm_num) ⟨80, by simp, by norm_num⟩

/-! ## Peak-power selection and best-lap correction -/

theorem foldl_add_ones (g : List ℚ) (h : ∀ x ∈ g, x = 1) :
    ∀ a : ℚ, g.foldl (fun acc value => acc + value) a = a + (g.length : ℚ) := by
  induction g with
  | nil => intro a; simp
  | cons x xs ih =>
    intro a
    have hx : x = 1 := h x (List.mem_cons_self _ _)
    rw [List.foldl_cons, ih (fun y hy => h y (List.mem_cons_of_mem _ hy)), hx]
    simp only [List.length_cons]
    push_cast
    ring

theorem otherGearPowers_cons (gi x : ℚ) (gs xs : List ℚ) :
    otherGearPowers (gi :: gs) (x :: xs) =
      if gi ≠ 1 then x :: otherGearPowers gs xs else otherGearPowers gs xs := by
  unfold otherGearPowers
  by_cases h : gi ≠ 1
  · simp [h]
  · simp [h]

theorem otherGearPowers_ne_nil : ∀ (g p : List ℚ), p.length = g.length →
    (∃ x ∈ g, x ≠ 1) → otherGearPowers g p ≠ [] := by
  intro g
  induction g with
  | nil => intro p _ h; simp at h
  | cons gi gs ih =>
    intro p hlen hex
    cases p with
    | nil => simp at hlen
    | cons x xs =>
      rw [otherGearPowers_cons]
      by_cases hgi : gi ≠ 1
      · rw [if_pos hgi]
        exact List.cons_ne_nil _ _
      · rw [if_neg hgi]
        obtain ⟨y, hy, hy1⟩ := hex
        rcases List.mem_cons.mp hy with rfl | hy
        · exact absurd hy1 hgi
        · exact ih xs (by simpa using hlen) ⟨y, hy, hy1⟩

theorem appendOtherGears_eq (g : List ℚ) : ∀ (xs : List ℚ) (k : ℕ) (adjusted : List ℚ),
    k + xs.length ≤ g.length →
    appendOtherGears g (xs.enumFrom k) adjusted =
      .ret (adjusted ++ otherGearPowers (g.drop k) xs) := by
  intro xs
  induction xs with
  | nil =>
    intro k adjusted _
    simp [appendOtherGears, otherGearPowers]
    rfl
  | cons x xs ih =>
    intro k adjusted hk
    simp only [List.length_cons] at hk
    have hkl : k < g.length := by omega
    have hdrop : g.drop k = g.getD k 0 :: g.drop (k + 1) := by
      rw [List.getD_eq_getElem _ _ hkl]
      exact List.drop_eq_getElem_cons hkl
    rw [hdrop, otherGearPowers_cons]
    simp only [List.enumFrom_cons, appendOtherGears, index_of_lt g k hkl, Outcome.ret_bind]
    by_cases hgi : g.getD k 0 ≠ 1
    · rw [if_pos hgi, if_pos hgi, ih (k + 1) _ (by omega)]
      simp
    · rw [if_neg hgi, if_neg hgi, ih (k + 1) _ (by omega)]

theorem adjustedPowers_eq (g p : List ℚ) (hlen : p.length = g.length) :
    adjustedPowers g p =
      .ret ((if gearTotal g = (g.length : ℚ) then p else []) ++ otherGearPowers g p) := by
  unfold adjustedPowers
  rw [List.enum, appendOtherGears_eq g p 0 _ (by omega)]
  rfl

theorem adjustedPowers_ne_nil (g p : List ℚ) (hlen : p.length = g.length) (hne : p ≠ []) :
    (if gearTotal g = (g.length : ℚ) then p else []) ++ otherGearPowers g p ≠ [] := by
  by_cases hsum : gearTotal g = (g.length : ℚ)
  · rw [if_pos hsum]
    intro h
    exact hne (List.append_eq_nil.mp h).1
  · rw [if_neg hsum]
    have hex : ∃ x ∈ g, x ≠ 1 := by
      by_contra hall
      push_neg at hall
      apply hsum
      unfold gearTotal
      rw [foldl_add_ones g hall 0]
      ring
    simpa using otherGearPowers_ne_nil g p hlen hex

/-- C23. Peak-power selection is never empty. For a log `header :: data` with at least one
data row, in which every cell read by the row loop parses: the list from which `calculate`
takes the peak power, all powers when the gear values sum to the sample count followed by
the powers of the samples whose gear is not `1`, is computed without a panic and is not
empty, so reading its last element after sorting returns a value. -/
theorem peakPower_selection_nonempty (L : Strconv) (header : List String)
    (data : List (List String)) (hne : data ≠ [])
    (hstat : ∀ row ∈ data, ∀ col ∈ [(resolveStatColumns header).timeRow,
      (resolveStatColumns header).powerRow, (resolveStatColumns header).torqueRow,
      (resolveStatColumns header).speedRow, (resolveStatColumns header).boostRow,
      (resolveStatColumns header).gearRow], (cellValue L row col).isSome = true) :
    ∃ series adjusted topPower,
      extractSeries L (resolveStatColumns header) ((header :: data).drop 1)
        ⟨[], [], [], [], [], []⟩ = .ret series ∧
      adjustedPowers series.g series.p = .ret adjusted ∧
      adjusted = (if gearTotal series.g = (series.g.length : ℚ) then series.p else []) ++
        otherGearPowers series.g series.p ∧
      adjusted ≠ [] ∧ sortedLast adjusted = .ret topPower := by
  obtain ⟨series, hser⟩ := extractSeries_total L (resolveStatColumns header) data
    ⟨[], [], [], [], [], []⟩ hstat
  obtain ⟨ts, ss, bs, ps, tqs, gs, hs, -, -, -, f4, -, f6⟩ :=
    extractSeries_spec L (resolveStatColumns header) data _ series hser
  simp only [List.nil_append] at hs
  have hlen : series.p.length = series.g.length := by
    rw [hs]
    exact f4.length_eq.symm.trans f6.length_eq
  have hpne : series.p ≠ [] := by
    rw [hs]
    intro h
    have h0 : data.length = 0 := by
      rw [f4.length_eq]
      simp only [] at h
      rw [h]
      rfl
    exact hne (List.eq_nil_of_length_eq_zero h0)
  have hadj := adjustedPowers_eq series.g series.p hlen
  have hnonempty := adjustedPowers_ne_nil series.g series.p hlen hpne
  obtain ⟨topPower, htop⟩ := sortedLast_of_ne_nil _ hnonempty
  exact ⟨series, _, topPower, hser, hadj, rfl, hnonempty, htop⟩

/-- C23, on `sampleLog`. -/
theorem peakPower_selection_nonempty_witness :
    ∃ series adjusted topPower,
      extractSeries decimalStrconv (resolveStatColumns statHeader) (sampleLog.drop 1)
        ⟨[], [], [], [], [], []⟩ = .ret series ∧
      adjustedPowers series.g series.p = .ret adjusted ∧
      adjusted ≠ [] ∧ sortedLast adjusted = .ret topPower := by
  obtain ⟨series, adjusted, topPower, h1, h2, -, h3, h4⟩ :=
    peakPower_selection_nonempty decimalStrconv statHeader (sampleLog.drop 1) (by decide)
      (by decide!)
  exact ⟨series, adjusted, topPower, h1, h2, h3, h4⟩

theorem forall₂_getLast (R : List String → ℚ → Prop) (data : List (List String))
    (xs : List ℚ) (h : List.Forall₂ R data xs) (row : List String)
    (hrow : data.getLast? = some row) : ∃ v, xs.getLast? = some v ∧ R row v := by
  induction h with
  | nil => simp at hrow
  | @cons r v rows vs hrv hrest ih =>
    cases hrest with
    | nil =>
      simp only [List.getLast?_singleton, Option.some.injEq] at hrow
      subst hrow
      exact ⟨v, by simp, hrv⟩
    | @cons r2 v2 rows2 vs2 hrv2 hrest2 =>
      have hrow2 : (r2 :: rows2).getLast? = some row := by
        simpa [List.getLast?_cons_cons] using hrow
      obtain ⟨w, hw, hR⟩ := ih hrow2
      exact ⟨w, by simpa [List.getLast?_cons_cons] using hw, hR⟩

/-- C24. Best-lap correction. On a run of `calcRaceStats`, with `B`, `T`, `D`, `Lp` the
`BestLap`, `CurrentLap`, `DistanceTraveled` and `LapNumber` values of the last data row: the
best lap time is `T + 0.0125` when `D - 5951 * Lp > 5951` and `T + 0.0125 < B`, and `B`
otherwise; it never exceeds `B`; and it is the time rendered in the returned best-lap
string. -/
theorem bestLap_correction (L : Strconv) (header : List String) (data : List (List String))
    (series : RaceSeries) (lastRow : List String) (B T D Lp : ℚ)
    (hser : extractRaceSeries L (resolveRaceColumns header) data ⟨[], [], [], [], []⟩ =
      .ret series)
    (hlast : data.getLast? = some lastRow)
    (hB : cellValue L lastRow (resolveRaceColumns header).bestLapRow = some B)
    (hT : cellValue L lastRow (resolveRaceColumns header).currentLapRow = some T)
    (hD : cellValue L lastRow (resolveRaceColumns header).distanceRow = some D)
    (hL : cellValue L lastRow (resolveRaceColumns header).lapNumRow = some Lp) :
    bestLapTime series =
      .ret (if D - 5951 * Lp > 5951 ∧ T + 0.0125 < B then T + 0.0125 else B) ∧
    (if D - 5951 * Lp > 5951 ∧ T + 0.0125 < B then T + 0.0125 else B) ≤ B ∧
    ∃ topSpeedStr times,
      calcRaceStats L (header :: data) =
        .ret (bestLapString L
          (if D - 5951 * Lp > 5951 ∧ T + 0.0125 < B then T + 0.0125 else B),
          topSpeedStr, times) := by
  obtain ⟨ts, ds, ls, ss, bls, hs, f1, f2, f3, -, f5⟩ :=
    extractRaceSeries_spec L (resolveRaceColumns header) data _ series hser
  simp only [List.nil_append] at hs
  obtain ⟨t, ht1, ht2⟩ := forall₂_getLast _ data ts f1 lastRow hlast
  obtain ⟨d, hd1, hd2⟩ := forall₂_getLast _ data ds f2 lastRow hlast
  obtain ⟨l, hl1, hl2⟩ := forall₂_getLast _ data ls f3 lastRow hlast
  obtain ⟨b, hb1, hb2⟩ := forall₂_getLast _ data bls f5 lastRow hlast
  simp only [hT, hD, hL, hB, Option.some.injEq] at ht2 hd2 hl2 hb2
  subst ht2 hd2 hl2 hb2
  have hbest : bestLapTime series =
      .ret (if D - 5951 * Lp > 5951 ∧ T + 0.0125 < B then T + 0.0125 else B) := by
    rw [hs]
    simp only [bestLapTime, lastOf, ht1, hd1, hl1, hb1, Outcome.ret_bind]
    by_cases h1 : D - 5951 * Lp > 5951
    · by_cases h2 : T + 0.0125 < B
      · simp only [h1, h2, if_true, and_self, Outcome.ret_bind]
        rfl
      · simp only [h1, h2, if_true, if_false, and_false, Outcome.ret_bind]
        rfl
    · simp only [h1, if_false, false_and]
      rfl
  refine ⟨hbest, ?_, ?_⟩
  · split_ifs with h
    · exact le_of_lt h.2
    · exact le_refl _
  · obtain ⟨-, -, topSpeed, hcalc⟩ := calcRaceStats_of_series L header data series _ hser hbest
    exact ⟨_, _, hcalc⟩

/-- C24, on `sampleRaceLog`: the log ends past the finish line with `80.0625 + 0.0125 < 90`,
so the best lap time is `80.075`. -/
theorem bestLap_correction_witness :
    bestLapTime sampleRaceSeries =
      .ret (if (6040 : ℚ) - 5951 * 0 > 5951 ∧ (80.0625 : ℚ) + 0.0125 < 90
        then (80.0625 : ℚ) + 0.0125 else 90) ∧
    (if (6040 : ℚ) - 5951 * 0 > 5951 ∧ (80.0625 : ℚ) + 0.0125 < 90
      then (80.0625 : ℚ) + 0.0125 else 90) ≤ 90 ∧
    ∃ topSpeedStr times,
      calcRaceStats decimalStrconv sampleRaceLog =
        .ret (bestLapString decimalStrconv
          (if (6040 : ℚ) - 5951 * 0 > 5951 ∧ (80.0625 : ℚ) + 0.0125 < 90
            then (80.0625 : ℚ) + 0.0125 else 90),
          topSpeedStr, times) :=
  bestLap_correction decimalStrconv raceHeader (sampleRaceLog.drop 1) sampleRaceSeries
    ["90", "80.0625", "6040", "0", "50"] 90 80.0625 6040 0 (by decide!) (by decide)
    (by decide!) (by decide!) (by decide!) (by decide!)

end ForzaStats
